import Mathlib

/-!
# geektime-downloader: the batch download pipeline

A shallow embedding of `cmd/root.go` (the batch `rootCmd.Run`, `downloadTextArticle`,
`getVideoURLFromArticleContent`, `waitRandomTime`, `mkDownloadProjectDir`),
`cmd/errors.go` (`checkError`) and `internal/config/config.go` (`GetConfig`).

Effects are made explicit: every function threads a state `σ` of the outside world and
returns the list of observable events it produced, in order.  The packages the pipeline
calls but that are not part of these files (`geektime`, `pdf`, `markdown`, `video`,
`filenamify`, the HTML parser, the random source, the operating system) are the fields of
`Env`; each may fail, and those reached from inside a `recover` scope may panic.
-/

namespace Geektime

/-! ## Data model -/

/-- The fields of `geektime.Article` the pipeline reads. -/
structure Article where
  AID : Int
  Title : String
  SectionTitle : String
  deriving DecidableEq, Repr

/-- The fields of `geektime.Course` the pipeline reads. -/
structure Course where
  Title : String
  IsVideo : Bool
  Access : Bool
  Articles : List Article
  deriving DecidableEq, Repr

/-- One entry of `articleInfo.Data.InlineVideoSubtitles`. -/
structure InlineVideoSubtitle where
  VideoURL : String
  deriving DecidableEq, Repr

/-- The part `articleInfo.Data` of the answer of `V1ArticleInfo`. -/
structure ArticleInfo where
  ArticleContent : String
  InlineVideoSubtitles : List InlineVideoSubtitle
  deriving DecidableEq, Repr

/-- The type `config.Config`. -/
structure Config where
  GCID : String
  GCESS : String
  CourseIDs : List String
  deriving DecidableEq, Repr

/-- The fields of `http.Cookie` that `rootCmd.Run` sets. -/
structure Cookie where
  Name : String
  Value : String
  Domain : String
  Path : String
  Secure : Bool
  HttpOnly : Bool
  Expires : Option Int
  deriving DecidableEq, Repr

/-- The package-level variables of `cmd` read by the batch pipeline. -/
structure Globals where
  downloadFolder : String
  columnOutputType : Int
  downloadComments : Bool
  printPDFWaitSeconds : Int
  printPDFTimeoutSeconds : Int
  interval : Int
  deriving DecidableEq, Repr

/-- The values set by `init()`; `interval` and `downloadComments` keep their zero value. -/
def initGlobals : Globals :=
  { downloadFolder := "/Users/bytedance/geektime"
    columnOutputType := 3
    downloadComments := false
    printPDFWaitSeconds := 15
    printPDFTimeoutSeconds := 120
    interval := 0 }

/-- The result of a call into another package: it panics, returns an error, or returns a
value. -/
inductive Res (α : Type) where
  | panic (r : String)
  | err (e : String)
  | ok (v : α)
  deriving DecidableEq, Repr

/-! ## Parsed HTML (`golang.org/x/net/html`) -/

/-- The type `html.NodeType`. -/
inductive NodeType where
  | ErrorNode
  | TextNode
  | DocumentNode
  | ElementNode
  | CommentNode
  | DoctypeNode
  | RawNode
  deriving DecidableEq, Repr

/-- The type `html.Attribute`. -/
structure Attribute where
  Namespace : String
  Key : String
  Val : String
  deriving DecidableEq, Repr

/-- The type `html.Node`: the chain `FirstChild`, `NextSibling`, ... is the list of
children. -/
inductive Node where
  | mk (type : NodeType) (data : String) (attr : List Attribute) (children : List Node)
  deriving Repr

/-! ## Observable events -/

/-- The errors `downloadTextArticle` returns, one per stage, each wrapping the cause. -/
inductive DlError where
  | articleInfo (e : String)
  | video (e : String)
  | inlineVideo (e : String)
  | pdf (e : String)
  | markdown (e : String)
  deriving DecidableEq, Repr

/-- How one call of `downloadTextArticle` ends: with a panic, or returning `(skipped, err)`. -/
inductive Outcome where
  | panicked (r : String)
  | returned (skipped : Bool) (err : Option DlError)
  deriving DecidableEq, Repr

/-- A call into a collaborating package, with its arguments and its result. -/
inductive Call where
  | Auth (cookies : List Cookie) (res : Option String)
  | CourseInfo (id : Int) (res : Res Course)
  | MkdirAll (path : String) (res : Option String)
  | V1ArticleInfo (aid : Int) (res : Res ArticleInfo)
  | DownloadMP4 (title dir : String) (urls : List String) (overwrite : Bool) (res : Res Unit)
  | PrintArticlePageToPDF (aid : Int) (dir title : String) (cookies : List Cookie)
      (downloadComments : Bool) (waitSeconds timeoutSeconds : Int) (overwrite : Bool)
      (res : Res Bool)
  | MarkdownDownload (content title dir : String) (aid : Int) (overwrite : Bool)
      (res : Res Bool)
  deriving DecidableEq, Repr

/-- The messages printed or logged by the batch pipeline, one constructor per format
string. -/
inductive Msg where
  | debugLoading
  | debugLoaded (gcid : String)
  | verifyingLogin
  | cookieValues
  | gcidValue (v : String)
  | gcessValue (v : String)
  | loginFailed (e : String)
  | retryLogin
  | loginOK
  | coursePanic (courseID r : String)
  | invalidCourseID (courseID : String)
  | fetchingCourse (courseID : String)
  | courseInfoFailed (courseID e : String)
  | videoCourseSkipped (title : String)
  | mkdirFailed (e : String)
  | courseStart (title : String)
  | retrying (n : Nat) (title : String)
  | articlePanic (title r : String)
  | articleFailed (title : String) (e : DlError)
  | articleGaveUp (title : String)
  | progress (i total : Nat)
  | courseDone (title : String)
  | allDone
  deriving DecidableEq, Repr

/-- What the pipeline does to the outside world, in order.
`dispatch` is one call of `downloadTextArticle` from the batch loop, with the calls it
made and how it ended; `sleep` is a direct `time.Sleep` of that many nanoseconds;
`waitRandomTime` is a call of `waitRandomTime`, with the duration it passed to
`time.Sleep`; `logError` is the line `logError` appends to `error.txt`. -/
inductive Event where
  | printf (m : Msg)
  | stderr (e : String)
  | logError (m : Msg)
  | sleep (ns : Int)
  | waitRandomTime (ns : Int)
  | call (c : Call)
  | dispatch (article : Article) (calls : List Call) (out : Outcome)
  deriving DecidableEq, Repr

/-- The collaborators of the pipeline, acting on a world state `σ`. -/
structure Env (σ : Type) where
  Auth : List Cookie → σ → Option String × σ
  Now : σ → Int
  Atoi : String → Option Int
  CourseInfo : Int → σ → Res Course × σ
  Filenamify : String → String
  Join : List String → String
  MkdirAll : String → σ → Option String × σ
  V1ArticleInfo : Int → σ → Res ArticleInfo × σ
  Parse : String → Option Node
  DownloadMP4 : String → String → List String → Bool → σ → Res Unit × σ
  PrintArticlePageToPDF :
    Int → String → String → List Cookie → Bool → Int → Int → Bool → σ → Res Bool × σ
  MarkdownDownload : String → String → String → Int → Bool → σ → Res Bool × σ
  Intn : Nat → σ → Nat × σ

/-! ## `getVideoURLFromArticleContent` -/

/-- The function `strings.HasSuffix`. -/
def hasSuffix (s suffix : String) : Bool := suffix.data.isSuffixOf s.data

/-- The function `strings.Contains`. -/
def strContains (s substr : String) : Bool := decide (substr.data <:+: s.data)

/-- The loop over `n.Attr`: the first attribute with key `src` and a value ending in
`.mp4`, seen while `hasVideo` holds, is stored in `videoURL` and ends the loop. -/
def scanAttrs (hasVideo : Bool) : List Attribute → String → String
  | [], videoURL => videoURL
  | a :: rest, videoURL =>
    if a.Key = "src" ∧ hasVideo = true ∧ hasSuffix a.Val ".mp4" = true then a.Val
    else scanAttrs hasVideo rest videoURL

mutual
/-- The closure `f` of `getVideoURLFromArticleContent`, acting on the captured pair
`(hasVideo, videoURL)`. -/
def getVideoURLFromArticleContent.f : Node → Bool × String → Bool × String
  | .mk type data attr children, st =>
    let st1 : Bool × String :=
      if type = NodeType.ElementNode ∧ data = "video" then (true, st.2) else st
    let st2 : Bool × String :=
      if type = NodeType.ElementNode ∧ data = "source" then (st1.1, scanAttrs st1.1 attr st1.2)
      else st1
    getVideoURLFromArticleContent.fChildren children st2
/-- The loop `for c := n.FirstChild; c != nil; c = c.NextSibling` of the closure `f`. -/
def getVideoURLFromArticleContent.fChildren : List Node → Bool × String → Bool × String
  | [], st => st
  | c :: rest, st =>
    getVideoURLFromArticleContent.fChildren rest (getVideoURLFromArticleContent.f c st)
end

/-- The function `getVideoURLFromArticleContent`; `parse` is `html.Parse`, `none` its
error. -/
def getVideoURLFromArticleContent (parse : String → Option Node) (content : String) :
    Bool × String :=
  if !strContains content "<video" || !strContains content "<source" then (false, "")
  else
    match parse content with
    | none => (false, "")
    | some doc => getVideoURLFromArticleContent.f doc (false, "")

/-! ## `waitRandomTime` -/

/-- Two's complement wrap-around of a 64-bit signed integer (`int`, `time.Duration`). -/
def wrap64 (x : Int) : Int := (x + 2 ^ 63) % 2 ^ 64 - 2 ^ 63

/-- The duration in nanoseconds that `waitRandomTime` passes to `time.Sleep` when the
random source draws `j`: `time.Duration(interval*1000 + j) * time.Millisecond`, every
operation in 64-bit arithmetic (`int` on a 64-bit platform, `time.Duration` always). -/
def sleepDuration (interval : Int) (j : Nat) : Int :=
  wrap64 (wrap64 (wrap64 (interval * 1000) + (j : Int)) * 1000000)

/-- The time `time.Sleep d` blocks for, in nanoseconds: a negative or zero duration
returns at once. -/
def sleepTime (d : Int) : Int := if d ≤ 0 then 0 else d

/-- The function `waitRandomTime`. -/
def waitRandomTime {σ : Type} (env : Env σ) (g : Globals) (s : σ) : σ × List Event :=
  match env.Intn 2000 s with
  | (j, s1) => (s1, [Event.waitRandomTime (sleepDuration g.interval j)])

/-! ## `downloadTextArticle` -/

/-- The test `columnOutputType&1 == 1`. -/
def needDownloadPDF (g : Globals) : Bool := decide (Int.land g.columnOutputType 1 = 1)

/-- The test `(columnOutputType>>1)&1 == 1`. -/
def needDownloadMD (g : Globals) : Bool :=
  decide (Int.land (g.columnOutputType >>> 1) 1 = 1)

/-- Puts a call in front of the calls of the stages that follow it. -/
def after {σ : Type} (c : Call) (r : Outcome × σ × List Call) : Outcome × σ × List Call :=
  (r.1, r.2.1, c :: r.2.2)

/-- The stage `if needDownloadMD` and the final `return skipped, nil`. -/
def mdStage {σ : Type} (env : Env σ) (g : Globals) (articleInfo : ArticleInfo)
    (article : Article) (mdDir : String) (overwrite : Bool) (skipped : Bool) (s : σ) :
    Outcome × σ × List Call :=
  if needDownloadMD g = true then
    match env.MarkdownDownload articleInfo.ArticleContent article.Title mdDir article.AID
        overwrite s with
    | (res, s1) =>
      after (Call.MarkdownDownload articleInfo.ArticleContent article.Title mdDir
          article.AID overwrite res)
        (match res with
        | Res.panic r => (Outcome.panicked r, s1, [])
        | Res.err e => (Outcome.returned false (some (DlError.markdown e)), s1, [])
        | Res.ok innerSkipped =>
          (Outcome.returned (if innerSkipped = false then false else skipped) none, s1, []))
  else (Outcome.returned skipped none, s, [])

/-- The stage `if needDownloadPDF`, followed by the Markdown stage. -/
def pdfStage {σ : Type} (env : Env σ) (g : Globals) (cookies : List Cookie)
    (articleInfo : ArticleInfo) (article : Article) (pdfDir mdDir : String)
    (overwrite : Bool) (skipped : Bool) (s : σ) : Outcome × σ × List Call :=
  if needDownloadPDF g = true then
    match env.PrintArticlePageToPDF article.AID pdfDir article.Title cookies
        g.downloadComments g.printPDFWaitSeconds g.printPDFTimeoutSeconds overwrite s with
    | (res, s1) =>
      after (Call.PrintArticlePageToPDF article.AID pdfDir article.Title cookies
          g.downloadComments g.printPDFWaitSeconds g.printPDFTimeoutSeconds overwrite res)
        (match res with
        | Res.panic r => (Outcome.panicked r, s1, [])
        | Res.err e => (Outcome.returned false (some (DlError.pdf e)), s1, [])
        | Res.ok innerSkipped =>
          mdStage env g articleInfo article mdDir overwrite
            (if innerSkipped = false then false else skipped) s1)
  else mdStage env g articleInfo article mdDir overwrite skipped s

/-- The stage `if len(articleInfo.Data.InlineVideoSubtitles) > 0`, followed by the PDF
stage; `videoURLs` is the list of the `VideoURL` fields. -/
def inlineVideoStage {σ : Type} (env : Env σ) (g : Globals) (cookies : List Cookie)
    (articleInfo : ArticleInfo) (article : Article) (pdfDir mdDir : String)
    (overwrite : Bool) (skipped : Bool) (s : σ) : Outcome × σ × List Call :=
  if articleInfo.InlineVideoSubtitles.length > 0 then
    match env.DownloadMP4 article.Title pdfDir
        (articleInfo.InlineVideoSubtitles.map InlineVideoSubtitle.VideoURL) overwrite s with
    | (res, s1) =>
      after (Call.DownloadMP4 article.Title pdfDir
          (articleInfo.InlineVideoSubtitles.map InlineVideoSubtitle.VideoURL) overwrite res)
        (match res with
        | Res.panic r => (Outcome.panicked r, s1, [])
        | Res.err e => (Outcome.returned false (some (DlError.inlineVideo e)), s1, [])
        | Res.ok _ => pdfStage env g cookies articleInfo article pdfDir mdDir overwrite skipped s1)
  else pdfStage env g cookies articleInfo article pdfDir mdDir overwrite skipped s

/-- The stage `if hasVideo && videoURL != ""`, followed by the later stages. -/
def videoStage {σ : Type} (env : Env σ) (g : Globals) (cookies : List Cookie)
    (articleInfo : ArticleInfo) (article : Article) (pdfDir mdDir : String)
    (overwrite : Bool) (skipped : Bool) (s : σ) : Outcome × σ × List Call :=
  match getVideoURLFromArticleContent env.Parse articleInfo.ArticleContent with
  | (hasVideo, videoURL) =>
    if hasVideo = true ∧ videoURL ≠ "" then
      match env.DownloadMP4 article.Title pdfDir [videoURL] overwrite s with
      | (res, s1) =>
        after (Call.DownloadMP4 article.Title pdfDir [videoURL] overwrite res)
          (match res with
          | Res.panic r => (Outcome.panicked r, s1, [])
          | Res.err e => (Outcome.returned false (some (DlError.video e)), s1, [])
          | Res.ok _ =>
            inlineVideoStage env g cookies articleInfo article pdfDir mdDir overwrite skipped s1)
    else inlineVideoStage env g cookies articleInfo article pdfDir mdDir overwrite skipped s

/-- The function `downloadTextArticle`; `cookies` is `geektimeClient.Cookies`. -/
def downloadTextArticle {σ : Type} (env : Env σ) (g : Globals) (cookies : List Cookie)
    (article : Article) (pdfDir mdDir : String) (overwrite : Bool) (s : σ) :
    Outcome × σ × List Call :=
  let skipped := true
  match env.V1ArticleInfo article.AID s with
  | (res, s1) =>
    after (Call.V1ArticleInfo article.AID res)
      (match res with
      | Res.panic r => (Outcome.panicked r, s1, [])
      | Res.err e => (Outcome.returned false (some (DlError.articleInfo e)), s1, [])
      | Res.ok articleInfo =>
        videoStage env g cookies articleInfo article pdfDir mdDir overwrite skipped s1)

/-! ## The batch loop of `rootCmd.Run` -/

/-- One second, five seconds before a retry, three seconds between courses, as
`time.Duration` values. -/
def second : Int := 1000000000

/-- The closure run once per attempt: it calls `downloadTextArticle` with
`overwrite = false`, recovers from a panic, logs an error, and sets `downloadSuccess` when
the call returns `skipped = true` without error.  The result is the new value of
`downloadSuccess`. -/
def attempt {σ : Type} (env : Env σ) (g : Globals) (cookies : List Cookie)
    (article : Article) (pdfDir mdDir : String) (downloadSuccess : Bool) (s : σ) :
    Bool × σ × List Event :=
  match downloadTextArticle env g cookies article pdfDir mdDir false s with
  | (out, s1, calls) =>
    match out with
    | Outcome.panicked r =>
      (downloadSuccess, s1,
        [Event.dispatch article calls out, Event.printf (Msg.articlePanic article.Title r),
          Event.logError (Msg.articlePanic article.Title r)])
    | Outcome.returned _ (some e) =>
      (downloadSuccess, s1,
        [Event.dispatch article calls out, Event.printf (Msg.articleFailed article.Title e),
          Event.logError (Msg.articleFailed article.Title e)])
    | Outcome.returned skipped none =>
      if skipped = true then (true, s1, [Event.dispatch article calls out])
      else (downloadSuccess, s1, [Event.dispatch article calls out])

/-- The loop `for retry := 0; retry < maxRetries; retry++` of one article, from the
iteration `retry` on; the first argument bounds the number of iterations left. -/
def retryLoop {σ : Type} (env : Env σ) (g : Globals) (cookies : List Cookie)
    (article : Article) (pdfDir mdDir : String) (maxRetries : Nat) :
    Nat → Nat → Bool → σ → Bool × σ × List Event
  | 0, _, downloadSuccess, s => (downloadSuccess, s, [])
  | fuel + 1, retry, downloadSuccess, s =>
    if retry < maxRetries then
      let ev0 : List Event :=
        if retry > 0 then
          [Event.printf (Msg.retrying (retry + 1) article.Title), Event.sleep (second * 5)]
        else []
      match attempt env g cookies article pdfDir mdDir downloadSuccess s with
      | (downloadSuccess1, s1, ev1) =>
        if downloadSuccess1 = true then (downloadSuccess1, s1, ev0 ++ ev1)
        else
          match (if retry < maxRetries - 1 then waitRandomTime env g s1 else (s1, [])) with
          | (s2, ev2) =>
            match retryLoop env g cookies article pdfDir mdDir maxRetries fuel (retry + 1)
                downloadSuccess1 s2 with
            | (r, s3, ev3) => (r, s3, ev0 ++ ev1 ++ ev2 ++ ev3)
    else (downloadSuccess, s, [])

/-- The body of `for _, article := range course.Articles` for one article: the retry
loop, the final failure line, the progress counter and the wait before the next
article.  The result is the new value of `count`. -/
def downloadArticle {σ : Type} (env : Env σ) (g : Globals) (cookies : List Cookie)
    (pdfDir mdDir : String) (total : Nat) (article : Article) (count : Nat) (s : σ) :
    Nat × σ × List Event :=
  let maxRetries := 5
  match retryLoop env g cookies article pdfDir mdDir maxRetries maxRetries 0 false s with
  | (downloadSuccess, s1, ev1) =>
    let ev2 : List Event :=
      if downloadSuccess = false then
        [Event.printf (Msg.articleGaveUp article.Title),
          Event.logError (Msg.articleGaveUp article.Title)]
      else []
    let count1 := count + 1
    let ev3 : List Event := [Event.printf (Msg.progress count1 total)]
    match (if count1 < total then waitRandomTime env g s1 else (s1, [])) with
    | (s2, ev4) => (count1, s2, ev1 ++ ev2 ++ ev3 ++ ev4)

/-- The loop `for _, article := range course.Articles`. -/
def downloadArticles {σ : Type} (env : Env σ) (g : Globals) (cookies : List Cookie)
    (pdfDir mdDir : String) (total : Nat) : List Article → Nat → σ → Nat × σ × List Event
  | [], count, s => (count, s, [])
  | article :: rest, count, s =>
    match downloadArticle env g cookies pdfDir mdDir total article count s with
    | (count1, s1, ev1) =>
      match downloadArticles env g cookies pdfDir mdDir total rest count1 s1 with
      | (count2, s2, ev2) => (count2, s2, ev1 ++ ev2)

/-- The function `mkDownloadProjectDir`: `none` as error means `nil`. -/
def mkDownloadProjectDir {σ : Type} (env : Env σ) (downloadFolder _phone _gcid : String)
    (projectName : String) (s : σ) : (String × String × Option String) × σ × List Event :=
  let pdfPath := env.Join [downloadFolder, "pdf", env.Filenamify projectName]
  match env.MkdirAll pdfPath s with
  | (some err, s1) => (("", "", some err), s1, [Event.call (Call.MkdirAll pdfPath (some err))])
  | (none, s1) =>
    let mdPath := env.Join [downloadFolder, "markdown", env.Filenamify projectName]
    match env.MkdirAll mdPath s1 with
    | (some err, s2) =>
      (("", "", some err), s2,
        [Event.call (Call.MkdirAll pdfPath none), Event.call (Call.MkdirAll mdPath (some err))])
    | (none, s2) =>
      ((pdfPath, mdPath, none), s2,
        [Event.call (Call.MkdirAll pdfPath none), Event.call (Call.MkdirAll mdPath none)])

/-- The closure run once per course identifier, with its deferred `recover`: a panic of
`CourseInfo` is caught and logged for the course.  The assignment
`selectedProduct = course` is left out: nothing on this path reads the variable. -/
def processCourse {σ : Type} (env : Env σ) (g : Globals) (cfg : Config)
    (cookies : List Cookie) (courseID : String) (s : σ) : σ × List Event :=
  match env.Atoi courseID with
  | none =>
    (s, [Event.printf (Msg.invalidCourseID courseID), Event.logError (Msg.invalidCourseID courseID)])
  | some id =>
    match env.CourseInfo id s with
    | (Res.panic r, s1) =>
      (s1, [Event.printf (Msg.fetchingCourse courseID),
        Event.call (Call.CourseInfo id (Res.panic r)),
        Event.printf (Msg.coursePanic courseID r), Event.logError (Msg.coursePanic courseID r)])
    | (Res.err e, s1) =>
      (s1, [Event.printf (Msg.fetchingCourse courseID),
        Event.call (Call.CourseInfo id (Res.err e)),
        Event.printf (Msg.courseInfoFailed courseID e),
        Event.logError (Msg.courseInfoFailed courseID e)])
    | (Res.ok course, s1) =>
      if course.IsVideo = true then
        (s1, [Event.printf (Msg.fetchingCourse courseID),
          Event.call (Call.CourseInfo id (Res.ok course)),
          Event.printf (Msg.videoCourseSkipped course.Title),
          Event.logError (Msg.videoCourseSkipped course.Title)])
      else
        match mkDownloadProjectDir env g.downloadFolder "" cfg.GCID course.Title s1 with
        | ((_, _, some err), s2, ev2) =>
          (s2, [Event.printf (Msg.fetchingCourse courseID),
              Event.call (Call.CourseInfo id (Res.ok course))] ++ ev2 ++
            [Event.printf (Msg.mkdirFailed err), Event.logError (Msg.mkdirFailed err)])
        | ((pdfDir, mdDir, none), s2, ev2) =>
          let total := course.Articles.length
          match downloadArticles env g cookies pdfDir mdDir total course.Articles 0 s2 with
          | (_, s3, ev3) =>
            (s3, [Event.printf (Msg.fetchingCourse courseID),
                Event.call (Call.CourseInfo id (Res.ok course))] ++ ev2 ++
              [Event.printf (Msg.courseStart course.Title)] ++ ev3 ++
              [Event.printf (Msg.courseDone course.Title)])

/-- The loop `for _, courseID := range cfg.CourseIDs`, with the three seconds of sleep
after each course. -/
def courseLoop {σ : Type} (env : Env σ) (g : Globals) (cfg : Config)
    (cookies : List Cookie) : List String → σ → σ × List Event
  | [], s => (s, [])
  | courseID :: rest, s =>
    match processCourse env g cfg cookies courseID s with
    | (s1, ev1) =>
      match courseLoop env g cfg cookies rest s1 with
      | (s2, ev2) => (s2, ev1 ++ [Event.sleep (second * 3)] ++ ev2)

/-- How the process ends: `rootCmd.Run` returns, or `exitWithMsg` calls `os.Exit`. -/
inductive Exit where
  | returned
  | exited (code : Nat)
  deriving DecidableEq, Repr

/-- The function `readCookiesFromConfig`: the two cookies expire 180 days from now. -/
def readCookiesFromConfig (now : Int) (cfg : Config) : List Cookie :=
  let oneyear := now + 180 * 24 * (3600 * second)
  [ { Name := "GCID", Value := cfg.GCID, Domain := ".geekbang.org", Path := "/",
      Secure := false, HttpOnly := true, Expires := some oneyear },
    { Name := "GCESS", Value := cfg.GCESS, Domain := ".geekbang.org", Path := "/",
      Secure := false, HttpOnly := true, Expires := some oneyear } ]

/-- The cookies `rootCmd.Run` builds again after a first failed login. -/
def rebuiltCookies (cfg : Config) : List Cookie :=
  [ { Name := "GCID", Value := cfg.GCID, Domain := ".geekbang.org", Path := "/",
      Secure := true, HttpOnly := true, Expires := none },
    { Name := "GCESS", Value := cfg.GCESS, Domain := ".geekbang.org", Path := "/",
      Secure := true, HttpOnly := true, Expires := none } ]

/-- The part of `rootCmd.Run` after the login: the loop over the courses and the final
line. -/
def runCourses {σ : Type} (env : Env σ) (g : Globals) (cfg : Config) (cookies : List Cookie)
    (s : σ) : Exit × σ × List Event :=
  match courseLoop env g cfg cookies cfg.CourseIDs s with
  | (s1, ev1) => (Exit.returned, s1, Event.printf Msg.loginOK :: ev1 ++ [Event.printf Msg.allDone])

/-- The body of `rootCmd.Run` once the configuration `cfg` is loaded: the login, with one
rebuild of the cookies, then the courses.  A second failed login ends the process through
`checkError`. -/
def runBatch {σ : Type} (env : Env σ) (g : Globals) (cfg : Config) (s : σ) :
    Exit × σ × List Event :=
  let cookies := readCookiesFromConfig (env.Now s) cfg
  let ev0 : List Event :=
    [Event.printf Msg.verifyingLogin, Event.printf Msg.cookieValues,
      Event.printf (Msg.gcidValue cfg.GCID), Event.printf (Msg.gcessValue cfg.GCESS)]
  match env.Auth cookies s with
  | (none, s1) =>
    match runCourses env g cfg cookies s1 with
    | (x, s2, ev2) => (x, s2, ev0 ++ [Event.call (Call.Auth cookies none)] ++ ev2)
  | (some err, s1) =>
    let cookies2 := rebuiltCookies cfg
    match env.Auth cookies2 s1 with
    | (none, s2) =>
      match runCourses env g cfg cookies2 s2 with
      | (x, s3, ev3) =>
        (x, s3, ev0 ++ [Event.call (Call.Auth cookies (some err)),
          Event.printf (Msg.loginFailed err), Event.printf Msg.retryLogin,
          Event.call (Call.Auth cookies2 none)] ++ ev3)
    | (some err2, s2) =>
      (Exit.exited 1, s2, ev0 ++ [Event.call (Call.Auth cookies (some err)),
        Event.printf (Msg.loginFailed err), Event.printf Msg.retryLogin,
        Event.call (Call.Auth cookies2 (some err2)), Event.stderr err2])

/-- The function `config.GetConfig`: the built-in configuration, never an error. -/
def GetConfig : (Config × Option String) × List Event :=
  (({ GCID := "d07e360-d12ac62-9995ae6-4e6bd3f"
      GCESS := "BgEIBsAYAAAAAAALAgYABQQAAAAAAgQ0doRnBwQIR2xHCQEBDAEBCAEDCgQAAAAAAwQ0doRnDQEBBAQAjScABgR7U8vZ"
      CourseIDs :=
        ["100043001", "100081501", "100034501", "100026801", "100032301",
         "100029201", "100003101", "100020301", "100029001", "100014401",
         "100029501", "100026901", "100021201", "100012101", "100552001",
         "100111101", "100034101", "100104301", "100040201", "100035801",
         "100636605", "100023701", "100099801", "100105701", "100037301",
         "100014301", "100007101", "100064501", "100025201", "100094901",
         "100019601", "100626901", "100124001", "100090601", "100056701",
         "100083301", "100078501", "100550701", "100555001", "100617601",
         "100625601", "100633001", "100038501", "100046301", "100036501",
         "100007001", "100015201", "100046201", "100069901", "100114001",
         "100309001", "100020901", "100035801", "100041701", "100046801",
         "100053901", "100020201", "100003901", "100804101", "100839101",
         "100117801", "100026001", "100061801", "100006601", "100541001",
         "100613101", "100024701", "100082101", "100002201", "100039001",
         "100085201", "100755401", "100085101", "100020801", "100062401",
         "100093501", "100013101", "100022301", "100079601", "100017301",
         "100068401", "100052601", "100311801", "100102601", "100084301",
         "100079101", "100033601", "100009601", "100120501", "100093001"] }, none),
    [Event.printf Msg.debugLoading,
      Event.printf (Msg.debugLoaded "d07e360-d12ac62-9995ae6-4e6bd3f")])

/-- The function `rootCmd.Run`: `checkError` on the result of `GetConfig`, then
`runBatch`. -/
def Run {σ : Type} (env : Env σ) (g : Globals) (s : σ) : Exit × σ × List Event :=
  match GetConfig with
  | ((_, some err), ev) => (Exit.exited 1, s, ev ++ [Event.stderr err])
  | ((cfg, none), ev) =>
    match runBatch env g cfg s with
    | (x, s1, ev1) => (x, s1, ev ++ ev1)

/-! ## Reading an event list -/

/-- Whether an event is a call of `downloadTextArticle` from the batch loop. -/
def Event.isDispatch : Event → Bool
  | Event.dispatch _ _ _ => true
  | _ => false

/-- Whether a call of `downloadTextArticle` returned `skipped = true` and no error. -/
def Outcome.isSkip : Outcome → Bool
  | Outcome.returned true none => true
  | _ => false

/-- Whether an event is a call of `downloadTextArticle` that returned `skipped = true` and
no error. -/
def Event.isSuccess : Event → Bool
  | Event.dispatch _ _ out => out.isSkip
  | _ => false

/-- Whether an event is a call of `waitRandomTime`. -/
def Event.isWait : Event → Bool
  | Event.waitRandomTime _ => true
  | _ => false

/-- The lines the attempt closure prints and logs after `downloadTextArticle` ended with
`out`. -/
def attemptLogs (article : Article) : Outcome → List Event
  | Outcome.panicked r =>
    [Event.printf (Msg.articlePanic article.Title r),
      Event.logError (Msg.articlePanic article.Title r)]
  | Outcome.returned _ (some e) =>
    [Event.printf (Msg.articleFailed article.Title e),
      Event.logError (Msg.articleFailed article.Title e)]
  | Outcome.returned _ none => []

/-! ## A model of the collaborators

The packages `geektime`, `pdf`, `markdown`, `video` and `filenamify` belong to the
repository but not to the files embedded here.  `World` and `worldEnv` model them from the
specification: a platform that serves fixed course and article data, a file system that
records which artifacts are present and counts the writes, and a script of faults that
decides which of the operations reaching the network or the renderer fail. -/

/-- Modelled from the spec: what the platform and the HTML parser answer, the same in
every run over an unchanged course: the course metadata and the article data by
identifier, and the parsed tree of each article body. -/
structure Platform where
  courses : List (Int × Course)
  articles : List (Int × ArticleInfo)
  pages : List (String × Node)

/-- Modelled from the spec: the mutable outside world of the pipeline.  `files` and `dirs`
are the paths present on disk; `writes` counts the files and directories created so far;
`faults` says, for each coming operation that has to fetch or render, whether it fails;
`draws` are the coming values of the random source. -/
structure World where
  files : List String
  dirs : List String
  writes : Nat
  faults : List Bool
  draws : List Nat
  deriving DecidableEq, Repr

/-- Modelled from the spec: the next entry of the fault script; an exhausted script means
no fault. -/
def World.fault (w : World) : Bool × World :=
  match w.faults with
  | [] => (false, w)
  | b :: rest => (b, { w with faults := rest })

/-- Modelled from the spec: writing an artifact makes its path present and counts as one
write. -/
def World.write (w : World) (path : String) : World :=
  { w with files := path :: w.files, writes := w.writes + 1 }

/-- Modelled from the spec: the path `<dir>/<title>.pdf` of the document snapshot. -/
def pdfTarget (dir title : String) : String := dir ++ "/" ++ title ++ ".pdf"

/-- Modelled from the spec: the path `<dir>/<title>.md` of the text export. -/
def mdTarget (dir title : String) : String := dir ++ "/" ++ title ++ ".md"

/-- Modelled from the spec: the path of the video fetched from `url` for an article. -/
def videoTarget (dir title url : String) : String := dir ++ "/" ++ title ++ "/" ++ url

/-- Modelled from the spec: `geektimeClient.CourseInfo`, a fetch that fails on a fault or
for an unknown identifier. -/
def World.CourseInfo (p : Platform) (id : Int) (w : World) : Res Course × World :=
  match w.fault with
  | (true, w1) => (Res.err "fetch failed", w1)
  | (false, w1) =>
    match p.courses.lookup id with
    | none => (Res.err "no such course", w1)
    | some c => (Res.ok c, w1)

/-- Modelled from the spec: `geektimeClient.V1ArticleInfo`, a fetch that fails on a fault
or for an unknown identifier. -/
def World.V1ArticleInfo (p : Platform) (aid : Int) (w : World) :
    Res ArticleInfo × World :=
  match w.fault with
  | (true, w1) => (Res.err "fetch failed", w1)
  | (false, w1) =>
    match p.articles.lookup aid with
    | none => (Res.err "no such article", w1)
    | some a => (Res.ok a, w1)

/-- Modelled from the spec: `os.MkdirAll`, which creates the directory unless it is
there. -/
def World.MkdirAll (path : String) (w : World) : Option String × World :=
  if path ∈ w.dirs then (none, w)
  else (none, { w with dirs := path :: w.dirs, writes := w.writes + 1 })

/-- Modelled from the spec: `video.DownloadMP4`.  For each URL in turn the existing-file
check comes first: a target that is present is skipped without any write unless
`overwrite` is set; otherwise the fetch fails on a fault, which aborts the call, or
writes the target. -/
def World.DownloadMP4 (title dir : String) (overwrite : Bool) :
    List String → World → Res Unit × World
  | [], w => (Res.ok (), w)
  | url :: rest, w =>
    if videoTarget dir title url ∈ w.files ∧ overwrite = false then
      World.DownloadMP4 title dir overwrite rest w
    else
      match w.fault with
      | (true, w1) => (Res.err "video fetch failed", w1)
      | (false, w1) =>
        World.DownloadMP4 title dir overwrite rest (w1.write (videoTarget dir title url))

/-- Modelled from the spec: `pdf.PrintArticlePageToPDF`.  The renderer makes its own
existence check and returns whether it skipped: a snapshot that is present is skipped
without any write unless `overwrite` is set; otherwise the rendering fails on a fault or
writes the snapshot. -/
def World.PrintArticlePageToPDF (dir title : String) (overwrite : Bool) (w : World) :
    Res Bool × World :=
  if pdfTarget dir title ∈ w.files ∧ overwrite = false then (Res.ok true, w)
  else
    match w.fault with
    | (true, w1) => (Res.err "render failed", w1)
    | (false, w1) => (Res.ok false, w1.write (pdfTarget dir title))

/-- Modelled from the spec: `markdown.Download`.  The converter makes its own existence
check and returns whether it skipped: an export that is present is skipped without any
write unless `overwrite` is set; otherwise the conversion fails on a fault or writes the
export. -/
def World.MarkdownDownload (title dir : String) (overwrite : Bool) (w : World) :
    Res Bool × World :=
  if mdTarget dir title ∈ w.files ∧ overwrite = false then (Res.ok true, w)
  else
    match w.fault with
    | (true, w1) => (Res.err "conversion failed", w1)
    | (false, w1) => (Res.ok false, w1.write (mdTarget dir title))

/-- Modelled from the spec: the random source, drawing the next scripted value reduced
below `n`. -/
def World.Intn (n : Nat) (w : World) : Nat × World :=
  match w.draws with
  | [] => (0, w)
  | d :: rest => (d % n, { w with draws := rest })

/-- The value of a string of decimal digits, `none` when it is empty or holds another
character. -/
def digitsValue : List Char → Option Nat
  | [] => none
  | cs => cs.foldl (fun acc c =>
      match acc with
      | none => none
      | some n => if c.isDigit = true then some (n * 10 + (c.toNat - 48)) else none) (some 0)

/-- The range check of `strconv.Atoi`: a value outside the 64 bits of an `int` is an
error. -/
def inIntRange (v : Int) : Option Int :=
  if -9223372036854775808 ≤ v ∧ v ≤ 9223372036854775807 then some v else none

/-- The function `strconv.Atoi` on an optional sign followed by decimal digits; the value
has to fit the 64 bits of an `int`. -/
def atoi (s : String) : Option Int :=
  match s.data with
  | '-' :: cs => (digitsValue cs).bind (fun n => inIntRange (- (n : Int)))
  | '+' :: cs => (digitsValue cs).bind (fun n => inIntRange (n : Int))
  | cs => (digitsValue cs).bind (fun n => inIntRange (n : Int))

/-- Modelled from the spec: the collaborators over a `World`.  The login succeeds, file
names need no sanitising, paths are joined with a slash, and the parser answers from
`pages`, an unknown body being an empty document. -/
def worldEnv (p : Platform) : Env World where
  Auth := fun _ w => (none, w)
  Now := fun _ => 0
  Atoi := atoi
  CourseInfo := World.CourseInfo p
  Filenamify := fun name => name
  Join := fun parts => "/".intercalate parts
  MkdirAll := World.MkdirAll
  V1ArticleInfo := World.V1ArticleInfo p
  Parse := fun content =>
    some ((p.pages.lookup content).getD (Node.mk NodeType.DocumentNode "" [] []))
  DownloadMP4 := fun title dir urls overwrite w => World.DownloadMP4 title dir overwrite urls w
  PrintArticlePageToPDF := fun _ dir title _ _ _ _ overwrite w =>
    World.PrintArticlePageToPDF dir title overwrite w
  MarkdownDownload := fun _ title dir _ overwrite w => World.MarkdownDownload title dir overwrite w
  Intn := World.Intn

/-! ## Concrete inputs -/

/-- An article with identifier 1 and title `a`. -/
def article1 : Article := { AID := 1, Title := "a", SectionTitle := "" }

/-- A platform with one text course, number 7, whose single article has a plain body. -/
def platform1 : Platform :=
  { courses := [(7, { Title := "c", IsVideo := false, Access := true, Articles := [article1] })]
    articles := [(1, { ArticleContent := "<p>text</p>", InlineVideoSubtitles := [] })]
    pages := [] }

/-- A world with nothing on disk and no fault. -/
def emptyWorld : World := { files := [], dirs := [], writes := 0, faults := [], draws := [] }

/-- A world in which the document snapshot of `article1` in directory `pdf` is present and
its text export is not. -/
def pdfOnlyWorld : World :=
  { files := ["pdf/a.pdf"], dirs := [], writes := 0, faults := [], draws := [] }

/-- Whether a call is a call of the document renderer. -/
def Call.isPDF : Call → Bool
  | Call.PrintArticlePageToPDF _ _ _ _ _ _ _ _ _ => true
  | _ => false

/-- Whether a call is a call of the Markdown converter. -/
def Call.isMD : Call → Bool
  | Call.MarkdownDownload _ _ _ _ _ _ => true
  | _ => false

/-- Whether a call is a call of the video fetcher. -/
def Call.isVideo : Call → Bool
  | Call.DownloadMP4 _ _ _ _ _ => true
  | _ => false

/-- Whether a call is the renderer or the converter reporting a fresh write, that is,
returning `innerSkipped = false` and no error. -/
def Call.freshWrite : Call → Bool
  | Call.PrintArticlePageToPDF _ _ _ _ _ _ _ _ (Res.ok false) => true
  | Call.MarkdownDownload _ _ _ _ _ (Res.ok false) => true
  | _ => false

/-- The package variables with a configured interval of 9223372037 seconds, for which the
duration in nanoseconds does not fit 64 bits. -/
def longIntervalGlobals : Globals := { initGlobals with interval := 9223372037 }

/-- The package variables with a configured interval of 2 seconds. -/
def twoSecondGlobals : Globals := { initGlobals with interval := 2 }

/-- A world with nothing on disk whose random source draws 1234 next. -/
def drawWorld : World := { files := [], dirs := [], writes := 0, faults := [], draws := [1234] }

/-- The calls of `downloadTextArticle` and of `waitRandomTime` among the events:
`some a` for a call of `downloadTextArticle` on the article `a`, `none` for a call of
`waitRandomTime`; the other events leave no mark. -/
def Event.mark : Event → Option (Option Article)
  | Event.dispatch a _ _ => some (some a)
  | Event.waitRandomTime _ => some none
  | _ => none

/-- The sequence of the calls of `downloadTextArticle` and `waitRandomTime` in an event
list. -/
def marks (ev : List Event) : List (Option Article) := ev.filterMap Event.mark

/-- Whether an event is a line appended to the error log. -/
def Event.isLogError : Event → Bool
  | Event.logError _ => true
  | _ => false

/-- Whether an event is the creation of a directory through `os.MkdirAll`. -/
def Event.isMkdir : Event → Bool
  | Event.call (Call.MkdirAll _ _) => true
  | _ => false

/-- How a call of `downloadTextArticle` from the batch loop ended, for the events that
are such calls. -/
def Event.outcome : Event → Option Outcome
  | Event.dispatch _ _ out => some out
  | _ => none

/-- A configuration whose course list is the single course 7. -/
def config7 : Config := { GCID := "g", GCESS := "s", CourseIDs := ["7"] }

/-- A platform whose course 7 is a text course with `access = false` and one article. -/
def platformNoAccess : Platform :=
  { courses := [(7, { Title := "c", IsVideo := false, Access := false, Articles := [article1] })]
    articles := [(1, { ArticleContent := "<p>text</p>", InlineVideoSubtitles := [] })]
    pages := [] }

/-- An article body with one inline video. -/
def videoBody : String := "<video><source src=\"v.mp4\"></video>"

/-- The parsed tree of `videoBody`. -/
def videoDoc : Node :=
  Node.mk NodeType.DocumentNode "" []
    [Node.mk NodeType.ElementNode "html" []
      [Node.mk NodeType.ElementNode "head" [] [],
        Node.mk NodeType.ElementNode "body" []
          [Node.mk NodeType.ElementNode "video" []
            [Node.mk NodeType.ElementNode "source"
              [{ Namespace := "", Key := "src", Val := "v.mp4" }] []]]]]

/-- A platform whose course 7 has one article, with an inline video in its body. -/
def platformVideo : Platform :=
  { courses := [(7, { Title := "c", IsVideo := false, Access := true, Articles := [article1] })]
    articles := [(1, { ArticleContent := videoBody, InlineVideoSubtitles := [] })]
    pages := [(videoBody, videoDoc)] }

/-- A world with nothing on disk in which the video fetch of the attempts 1 to 4 fails:
each attempt first fetches the article data, without fault, then the video, with a fault;
from the attempt 5 on there is no fault. -/
def videoFaultWorld : World :=
  { files := [], dirs := [], writes := 0,
    faults := [false, true, false, true, false, true, false, true], draws := [] }

/-- Whether an event is the line logged when a course is given up before its article loop:
a panic outside the attempts, an invalid identifier, a failed fetch of the metadata, a
video course, or a failed creation of the directories. -/
def Event.isCourseFailure : Event → Bool
  | Event.logError (Msg.coursePanic _ _) => true
  | Event.logError (Msg.invalidCourseID _) => true
  | Event.logError (Msg.courseInfoFailed _ _) => true
  | Event.logError (Msg.videoCourseSkipped _) => true
  | Event.logError (Msg.mkdirFailed _) => true
  | _ => false

/-! ## The document order of a parsed body -/

mutual
/-- The nodes of a tree in document order: a node, then its children from first to last,
each with its own descendants. -/
def Node.preorder : Node → List Node
  | Node.mk type data attr children =>
    Node.mk type data attr children :: Node.preorderAll children
/-- The nodes of a list of sibling trees in document order. -/
def Node.preorderAll : List Node → List Node
  | [] => []
  | c :: rest => Node.preorder c ++ Node.preorderAll rest
end

/-- Whether a node is a `video` element. -/
def Node.isVideo : Node → Bool
  | Node.mk type data _ _ => decide (type = NodeType.ElementNode ∧ data = "video")

/-- Whether a node is a `source` element. -/
def Node.isSource : Node → Bool
  | Node.mk type data _ _ => decide (type = NodeType.ElementNode ∧ data = "source")

/-- The value of the first attribute with key `src` and a value ending in `.mp4`. -/
def mp4Src : List Attribute → Option String
  | [] => none
  | a :: rest =>
    if a.Key = "src" ∧ hasSuffix a.Val ".mp4" = true then some a.Val else mp4Src rest

/-- The URL a node offers: for a `source` element, the value of its first `src` attribute
ending in `.mp4`. -/
def Node.mp4Source : Node → Option String
  | Node.mk type data attr _ =>
    if type = NodeType.ElementNode ∧ data = "source" then mp4Src attr else none

/-- The URLs offered by the `source` elements that come, in document order, after the
first `video` element of the body, in document order. -/
def candidates (doc : Node) : List String :=
  ((Node.preorder doc).dropWhile (fun n => !n.isVideo)).filterMap Node.mp4Source

/-- What the closure `f` does to the pair `(hasVideo, videoURL)` at one node, before it
visits the children. -/
def visitNode (st : Bool × String) (n : Node) : Bool × String :=
  ((st.1 || n.isVideo), if (st.1 || n.isVideo) = true then n.mp4Source.getD st.2 else st.2)

/-- An article body whose video element has two nested sources, both ending in `.mp4`. -/
def twoMp4Body : String := "<video><source src=\"a.mp4\"><source src=\"b.mp4\"></video>"

/-- The parsed tree of `twoMp4Body`. -/
def twoMp4Doc : Node :=
  Node.mk NodeType.DocumentNode "" []
    [Node.mk NodeType.ElementNode "html" []
      [Node.mk NodeType.ElementNode "head" [] [],
        Node.mk NodeType.ElementNode "body" []
          [Node.mk NodeType.ElementNode "video" []
            [Node.mk NodeType.ElementNode "source"
                [{ Namespace := "", Key := "src", Val := "a.mp4" }] [],
              Node.mk NodeType.ElementNode "source"
                [{ Namespace := "", Key := "src", Val := "b.mp4" }] []]]]]

/-- A platform whose course 7 has one article, with body `twoMp4Body`. -/
def platformTwoMp4 : Platform :=
  { courses := [(7, { Title := "c", IsVideo := false, Access := true, Articles := [article1] })]
    articles := [(1, { ArticleContent := twoMp4Body, InlineVideoSubtitles := [] })]
    pages := [(twoMp4Body, twoMp4Doc)] }

/-- An article body with a first video element, and after it a second video element
whose two nested sources stand on lines of their own, only the second of them with a `src`
ending in `.mp4`. -/
def mixedBody : String :=
  "<video><source src=\"z.mp4\"></video><p><video poster=\"p.jpg\">\n<source src=\"a.m3u8\">\n<source src=\"b.mp4\">\n</video></p>"

/-- The first source of the second video element of `mixedBody`. -/
def mixedFirst : Node :=
  Node.mk NodeType.ElementNode "source" [{ Namespace := "", Key := "src", Val := "a.m3u8" }] []

/-- The second source of the second video element of `mixedBody`. -/
def mixedSecond : Node :=
  Node.mk NodeType.ElementNode "source" [{ Namespace := "", Key := "src", Val := "b.mp4" }] []

/-- The children of the second video element of `mixedBody`: the two sources and the line
breaks around them. -/
def mixedChildren : List Node :=
  [Node.mk NodeType.TextNode "\n" [] [], mixedFirst, Node.mk NodeType.TextNode "\n" [] [],
    mixedSecond, Node.mk NodeType.TextNode "\n" [] []]

/-- The first video element of `mixedBody`. -/
def mixedEarlier : Node :=
  Node.mk NodeType.ElementNode "video" []
    [Node.mk NodeType.ElementNode "source" [{ Namespace := "", Key := "src", Val := "z.mp4" }] []]

/-- The paragraph of `mixedBody`, holding the second video element. -/
def mixedParagraph : Node :=
  Node.mk NodeType.ElementNode "p" []
    [Node.mk NodeType.ElementNode "video" [{ Namespace := "", Key := "poster", Val := "p.jpg" }]
      mixedChildren]

/-- The `body` element of the parsed tree of `mixedBody`. -/
def mixedBodyNode : Node := Node.mk NodeType.ElementNode "body" [] [mixedEarlier, mixedParagraph]

/-- The `html` element of the parsed tree of `mixedBody`. -/
def mixedHtml : Node :=
  Node.mk NodeType.ElementNode "html" [] [Node.mk NodeType.ElementNode "head" [] [], mixedBodyNode]

/-- The parsed tree of `mixedBody`. -/
def mixedDoc : Node := Node.mk NodeType.DocumentNode "" [] [mixedHtml]

/-- The nodes of `mixedDoc` before its second video element, in document order. -/
def mixedBefore : List Node :=
  [mixedDoc, mixedHtml, Node.mk NodeType.ElementNode "head" [] [], mixedBodyNode, mixedEarlier,
    Node.mk NodeType.ElementNode "source" [{ Namespace := "", Key := "src", Val := "z.mp4" }] [],
    mixedParagraph]

/-- A platform whose course 7 has one article, with body `mixedBody`. -/
def platformMixed : Platform :=
  { courses := [(7, { Title := "c", IsVideo := false, Access := true, Articles := [article1] })]
    articles := [(1, { ArticleContent := mixedBody, InlineVideoSubtitles := [] })]
    pages := [(mixedBody, mixedDoc)] }

/-- An article body with a video element whose two nested sources are `a.m3u8` and
`b.mp4`, followed by a second video element with the source `c.mp4`. -/
def laterVideoBody : String :=
  "<video><source src=\"a.m3u8\"><source src=\"b.mp4\"></video><video><source src=\"c.mp4\"></video>"

/-- The children of the first video element of `laterVideoBody`. -/
def laterVideoSources : List Node :=
  [Node.mk NodeType.ElementNode "source" [{ Namespace := "", Key := "src", Val := "a.m3u8" }] [],
    Node.mk NodeType.ElementNode "source" [{ Namespace := "", Key := "src", Val := "b.mp4" }] []]

/-- The parsed tree of `laterVideoBody`. -/
def laterVideoDoc : Node :=
  Node.mk NodeType.DocumentNode "" []
    [Node.mk NodeType.ElementNode "html" []
      [Node.mk NodeType.ElementNode "head" [] [],
        Node.mk NodeType.ElementNode "body" []
          [Node.mk NodeType.ElementNode "video" [] laterVideoSources,
            Node.mk NodeType.ElementNode "video" []
              [Node.mk NodeType.ElementNode "source"
                [{ Namespace := "", Key := "src", Val := "c.mp4" }] []]]]]

/-- A platform whose course 7 has one article, with body `laterVideoBody`. -/
def platformLaterVideo : Platform :=
  { courses := [(7, { Title := "c", IsVideo := false, Access := true, Articles := [article1] })]
    articles := [(1, { ArticleContent := laterVideoBody, InlineVideoSubtitles := [] })]
    pages := [(laterVideoBody, laterVideoDoc)] }

/-! ## Notions for the second run over an unchanged course -/

/-- No coming operation of the world fails. -/
def World.NoFault (w : World) : Prop := ∀ b ∈ w.faults, b = false

/-- Every file and directory of `w` is still present in `w'`. -/
def World.Sub (w w' : World) : Prop := w.files ⊆ w'.files ∧ w.dirs ⊆ w'.dirs

/-- Nothing was written between `w` and `w'`: the same files, the same directories, the
same count of writes. -/
def World.Same (w w' : World) : Prop :=
  w'.files = w.files ∧ w'.dirs = w.dirs ∧ w'.writes = w.writes

/-- Every artifact of an article is among `files`: the platform serves its data, and the
inline video of its body, the videos of its subtitle list, and the requested ones of the
document snapshot and the text export are present. -/
def ArticleReady (p : Platform) (g : Globals) (pdfDir mdDir : String) (a : Article)
    (files : List String) : Prop :=
  ∃ info, p.articles.lookup a.AID = some info ∧
    ((getVideoURLFromArticleContent (worldEnv p).Parse info.ArticleContent).1 = true ∧
        (getVideoURLFromArticleContent (worldEnv p).Parse info.ArticleContent).2 ≠ "" →
      videoTarget pdfDir a.Title
        (getVideoURLFromArticleContent (worldEnv p).Parse info.ArticleContent).2 ∈ files) ∧
    (∀ url ∈ info.InlineVideoSubtitles.map InlineVideoSubtitle.VideoURL,
      videoTarget pdfDir a.Title url ∈ files) ∧
    (needDownloadPDF g = true → pdfTarget pdfDir a.Title ∈ files) ∧
    (needDownloadMD g = true → mdTarget mdDir a.Title ∈ files)

/-- The course behind an identifier of the configuration is a text course of the platform
whose two output directories exist and whose articles all have their artifacts on
disk. -/
def CourseReady (p : Platform) (g : Globals) (courseID : String) (w : World) : Prop :=
  ∃ id course, atoi courseID = some id ∧ p.courses.lookup id = some course ∧
    course.IsVideo = false ∧
    "/".intercalate [g.downloadFolder, "pdf", course.Title] ∈ w.dirs ∧
    "/".intercalate [g.downloadFolder, "markdown", course.Title] ∈ w.dirs ∧
    ∀ a ∈ course.Articles,
      ArticleReady p g ("/".intercalate [g.downloadFolder, "pdf", course.Title])
        ("/".intercalate [g.downloadFolder, "markdown", course.Title]) a w.files

/-- The articles of the course behind an identifier of the configuration, as the platform
lists them: none for an identifier that is no number or no course of the platform. -/
def courseArticles (p : Platform) (courseID : String) : List Article :=
  match atoi courseID with
  | none => []
  | some id =>
    match p.courses.lookup id with
    | none => []
    | some course => course.Articles

/-- The article of a call of `downloadTextArticle` from the batch loop. -/
def Event.dispatched : Event → Option Article
  | Event.dispatch a _ _ => some a
  | _ => none

/-- Whether an event is the line logged when the batch loop gives an article up. -/
def Event.isGaveUp : Event → Bool
  | Event.logError (Msg.articleGaveUp _) => true
  | _ => false

/-- The events of a stretch of a run in which nothing had to be done: the calls of
`downloadTextArticle` are one per article of `articles`, in order, each of them returned
`skipped = true` without error, and nothing was appended to the error log. -/
def QuietEvents (ev : List Event) (articles : List Article) : Prop :=
  ev.filterMap Event.dispatched = articles ∧
  (∀ e ∈ ev, e.isDispatch = true → e.isSuccess = true) ∧
  (∀ e ∈ ev, e.isLogError = false)

/-! ## The passes of the course loop -/

/-- The identifier and the starting state of each pass of the course loop, in order: the
first pass starts in `s`, each later one in the state the pass before it left. -/
def coursePasses {σ : Type} (env : Env σ) (g : Globals) (cfg : Config)
    (cookies : List Cookie) : List String → σ → List (String × σ)
  | [], _ => []
  | courseID :: rest, s =>
    (courseID, s) ::
      coursePasses env g cfg cookies rest (processCourse env g cfg cookies courseID s).1

/-- The collaborators load `course` for the identifier `courseID` in the state `s`: the
identifier is a number, `CourseInfo` returns `course` for it, `course` is no video course,
and both output directories are made. -/
def CourseLoads {σ : Type} (env : Env σ) (g : Globals) (cfg : Config) (courseID : String)
    (s : σ) (course : Course) : Prop :=
  ∃ id, env.Atoi courseID = some id ∧ (env.CourseInfo id s).1 = Res.ok course ∧
    course.IsVideo = false ∧
    (mkDownloadProjectDir env g.downloadFolder "" cfg.GCID course.Title
      (env.CourseInfo id s).2).1.2.2 = none

/-- What the events `seg` of the pass of the course loop for the identifier `courseID`,
started in the state `s`, have to be.  When the collaborators load a course, whatever
happens in the dispatches: the calls of `downloadTextArticle` are, article after article
in the order of the course, between 1 and 5 calls on each article, no line giving the
course up is logged, and the pass ends with the report that the course is done.  Only when
the collaborators load no course is the course given up: then nothing is dispatched and
the pass ends with the line logged for the course. -/
def CourseProcessed {σ : Type} (env : Env σ) (g : Globals) (cfg : Config) (courseID : String)
    (s : σ) (seg : List Event) : Prop :=
  (∀ course, CourseLoads env g cfg courseID s course →
    (∃ ks : List Nat, ks.length = course.Articles.length ∧ (∀ k ∈ ks, 1 ≤ k ∧ k ≤ 5) ∧
      seg.filterMap Event.dispatched =
        (List.zipWith (fun a k => List.replicate k a) course.Articles ks).flatten) ∧
    (∀ e ∈ seg, e.isCourseFailure = false) ∧
    seg.getLast? = some (Event.printf (Msg.courseDone course.Title))) ∧
  ((∀ course, ¬ CourseLoads env g cfg courseID s course) →
    seg.filterMap Event.dispatched = [] ∧
    ∃ e, seg.getLast? = some e ∧ e.isCourseFailure = true)

/-! ## The stages of `downloadTextArticle` -/

/-- A call of a stage of `downloadTextArticle` without its result: what is asked of the
collaborator. -/
inductive Request where
  | V1ArticleInfo (aid : Int)
  | DownloadMP4 (title dir : String) (urls : List String) (overwrite : Bool)
  | PrintArticlePageToPDF (aid : Int) (dir title : String) (cookies : List Cookie)
      (downloadComments : Bool) (waitSeconds timeoutSeconds : Int) (overwrite : Bool)
  | MarkdownDownload (content title dir : String) (aid : Int) (overwrite : Bool)
  deriving DecidableEq, Repr

/-- The request of a call; the calls made outside `downloadTextArticle` have none. -/
def Call.request : Call → Option Request
  | Call.V1ArticleInfo aid _ => some (Request.V1ArticleInfo aid)
  | Call.DownloadMP4 title dir urls overwrite _ =>
    some (Request.DownloadMP4 title dir urls overwrite)
  | Call.PrintArticlePageToPDF aid dir title cookies dc ws ts overwrite _ =>
    some (Request.PrintArticlePageToPDF aid dir title cookies dc ws ts overwrite)
  | Call.MarkdownDownload content title dir aid overwrite _ =>
    some (Request.MarkdownDownload content title dir aid overwrite)
  | _ => none

/-- Whether a call of a stage returned an error. -/
def Call.failed : Call → Bool
  | Call.V1ArticleInfo _ (Res.err _) => true
  | Call.DownloadMP4 _ _ _ _ (Res.err _) => true
  | Call.PrintArticlePageToPDF _ _ _ _ _ _ _ _ (Res.err _) => true
  | Call.MarkdownDownload _ _ _ _ _ (Res.err _) => true
  | _ => false

/-- The requests of the Markdown stage. -/
def mdPlan (g : Globals) (articleInfo : ArticleInfo) (article : Article) (mdDir : String)
    (overwrite : Bool) : List Request :=
  if needDownloadMD g = true then
    [Request.MarkdownDownload articleInfo.ArticleContent article.Title mdDir article.AID overwrite]
  else []

/-- The requests of the PDF stage and of the stage after it. -/
def pdfPlan (g : Globals) (cookies : List Cookie) (articleInfo : ArticleInfo)
    (article : Article) (pdfDir mdDir : String) (overwrite : Bool) : List Request :=
  (if needDownloadPDF g = true then
    [Request.PrintArticlePageToPDF article.AID pdfDir article.Title cookies g.downloadComments
      g.printPDFWaitSeconds g.printPDFTimeoutSeconds overwrite]
  else []) ++ mdPlan g articleInfo article mdDir overwrite

/-- The requests of the stage of the subtitle videos and of the stages after it. -/
def inlineVideoPlan (g : Globals) (cookies : List Cookie) (articleInfo : ArticleInfo)
    (article : Article) (pdfDir mdDir : String) (overwrite : Bool) : List Request :=
  (if articleInfo.InlineVideoSubtitles.length > 0 then
    [Request.DownloadMP4 article.Title pdfDir
      (articleInfo.InlineVideoSubtitles.map InlineVideoSubtitle.VideoURL) overwrite]
  else []) ++ pdfPlan g cookies articleInfo article pdfDir mdDir overwrite

/-- The order of the stages in the words of the specification, for an article whose data
`articleInfo` was fetched: the inline video of the body if there is one, the videos of the
subtitle list if it is not empty, the PDF if requested, the Markdown if requested. -/
def videoPlan (parse : String → Option Node) (g : Globals) (cookies : List Cookie)
    (articleInfo : ArticleInfo) (article : Article) (pdfDir mdDir : String)
    (overwrite : Bool) : List Request :=
  (if (getVideoURLFromArticleContent parse articleInfo.ArticleContent).1 = true ∧
      (getVideoURLFromArticleContent parse articleInfo.ArticleContent).2 ≠ "" then
    [Request.DownloadMP4 article.Title pdfDir
      [(getVideoURLFromArticleContent parse articleInfo.ArticleContent).2] overwrite]
  else []) ++ inlineVideoPlan g cookies articleInfo article pdfDir mdDir overwrite

/-- An error ends the call list: a call that returned an error is followed by no other
call, and the outcome is then `skipped = false` with an error. -/
def ShortCircuit (out : Outcome) : List Call → Prop
  | [] => True
  | c :: rest =>
    (c.failed = true → rest = [] ∧ ∃ e, out = Outcome.returned false (some e)) ∧
      ShortCircuit out rest

/-- What a stage, with the stages after it, does with respect to the planned requests
`plan`: its calls are a first part of the plan, in the order of the plan; an error ends
them; and when it returns without error the whole plan was carried out. -/
def FollowsPlan {σ : Type} (r : Outcome × σ × List Call) (plan : List Request) : Prop :=
  r.2.2.filterMap Call.request <+: plan ∧
  ShortCircuit r.1 r.2.2 ∧
  ∀ sk, r.1 = Outcome.returned sk none → r.2.2.filterMap Call.request = plan

/-- A world with nothing on disk in which the fetch of the article data and the fetch of
the video succeed and the rendering that follows fails. -/
def pdfFaultWorld : World :=
  { files := [], dirs := [], writes := 0, faults := [false, false, true], draws := [] }

/-! ## Sources nested in a video element -/

mutual
/-- In the words of the specification: a walk of the tree that tracks one boolean,
`inside`, whether the node has a video element among its ancestors, and collects, in
document order, the URLs offered by the `source` elements that are inside one. -/
def Node.nestedUrls (inside : Bool) : Node → List String
  | Node.mk type data attr children =>
    (if inside = true then (Node.mp4Source (Node.mk type data attr children)).toList else []) ++
      Node.nestedUrlsAll (inside || (Node.mk type data attr children).isVideo) children
/-- The same walk over a list of sibling trees. -/
def Node.nestedUrlsAll (inside : Bool) : List Node → List String
  | [] => []
  | c :: rest => Node.nestedUrls inside c ++ Node.nestedUrlsAll inside rest
end

/-- An article body in which a source with a `.mp4` address follows a video element that
is already closed. -/
def afterVideoBody : String := "<video poster=\"p.jpg\"></video><source src=\"x.mp4\">"

/-- The parsed tree of `afterVideoBody`: the source is a sibling of the video element, not
a descendant. -/
def afterVideoDoc : Node :=
  Node.mk NodeType.DocumentNode "" []
    [Node.mk NodeType.ElementNode "html" []
      [Node.mk NodeType.ElementNode "head" [] [],
        Node.mk NodeType.ElementNode "body" []
          [Node.mk NodeType.ElementNode "video"
              [{ Namespace := "", Key := "poster", Val := "p.jpg" }] [],
            Node.mk NodeType.ElementNode "source"
              [{ Namespace := "", Key := "src", Val := "x.mp4" }] []]]]

/-- A platform whose course 7 has one article, with body `afterVideoBody`. -/
def platformAfterVideo : Platform :=
  { courses := [(7, { Title := "c", IsVideo := false, Access := true, Articles := [article1] })]
    articles := [(1, { ArticleContent := afterVideoBody, InlineVideoSubtitles := [] })]
    pages := [(afterVideoBody, afterVideoDoc)] }

/-- A concrete environment over a trivial state whose renderer and converter report a
fresh write on every call and in which nothing fails. -/
def alwaysFreshEnv : Env Unit where
  Auth := fun _ s => (none, s)
  Now := fun _ => 0
  Atoi := atoi
  CourseInfo := fun _ s => (Res.err "no course", s)
  Filenamify := fun name => name
  Join := fun parts => "/".intercalate parts
  MkdirAll := fun _ s => (none, s)
  V1ArticleInfo := fun _ s => (Res.ok { ArticleContent := "", InlineVideoSubtitles := [] }, s)
  Parse := fun _ => none
  DownloadMP4 := fun _ _ _ _ s => (Res.ok (), s)
  PrintArticlePageToPDF := fun _ _ _ _ _ _ _ _ s => (Res.ok false, s)
  MarkdownDownload := fun _ _ _ _ _ s => (Res.ok false, s)
  Intn := fun _ s => (0, s)

/-! ## Theorems -/

/-! ### The attempt closure and the retry loop -/

section Retry

variable {σ : Type} (env : Env σ) (g : Globals) (cookies : List Cookie)

theorem attempt_eq (article : Article) (pdfDir mdDir : String) (ds : Bool) (s : σ) :
    attempt env g cookies article pdfDir mdDir ds s =
      (ds || (downloadTextArticle env g cookies article pdfDir mdDir false s).1.isSkip,
        (downloadTextArticle env g cookies article pdfDir mdDir false s).2.1,
        Event.dispatch article (downloadTextArticle env g cookies article pdfDir mdDir false s).2.2
            (downloadTextArticle env g cookies article pdfDir mdDir false s).1 ::
          attemptLogs article (downloadTextArticle env g cookies article pdfDir mdDir false s).1) := by
  unfold attempt
  rcases h : downloadTextArticle env g cookies article pdfDir mdDir false s with ⟨out, s1, calls⟩
  rcases out with r | ⟨sk, _ | e⟩
  · simp [Outcome.isSkip, attemptLogs]
  · cases sk <;> simp [Outcome.isSkip, attemptLogs]
  · cases sk <;> simp [Outcome.isSkip, attemptLogs]

theorem attemptLogs_not_dispatch (article : Article) (out : Outcome) :
    ∀ e ∈ attemptLogs article out, e.isDispatch = false := by
  rcases out with r | ⟨sk, _ | e⟩ <;> simp [attemptLogs, Event.isDispatch]

theorem attemptLogs_not_wait (article : Article) (out : Outcome) :
    ∀ e ∈ attemptLogs article out, e.isWait = false := by
  rcases out with r | ⟨sk, _ | e⟩ <;> simp [attemptLogs, Event.isWait]

theorem attemptLogs_of_isSkip (article : Article) (out : Outcome) (h : out.isSkip = true) :
    attemptLogs article out = [] := by
  rcases out with r | ⟨sk, _ | e⟩ <;> simp_all [attemptLogs, Outcome.isSkip]

theorem waitRandomTime_events (s : σ) :
    (waitRandomTime env g s).2 = [Event.waitRandomTime (sleepDuration g.interval (env.Intn 2000 s).1)] := by
  simp [waitRandomTime]

end Retry

section RetryLoop

variable {σ : Type} (env : Env σ) (g : Globals) (cookies : List Cookie)
  (article : Article) (pdfDir mdDir : String) (maxRetries : Nat)

theorem retryLoop_succ (fuel retry : Nat) (s : σ) (h : retry < maxRetries) :
    retryLoop env g cookies article pdfDir mdDir maxRetries (fuel + 1) retry false s =
      if (downloadTextArticle env g cookies article pdfDir mdDir false s).1.isSkip = true then
        (true, (downloadTextArticle env g cookies article pdfDir mdDir false s).2.1,
          (if retry > 0 then
            [Event.printf (Msg.retrying (retry + 1) article.Title), Event.sleep (second * 5)]
          else []) ++
          [Event.dispatch article (downloadTextArticle env g cookies article pdfDir mdDir false s).2.2
            (downloadTextArticle env g cookies article pdfDir mdDir false s).1])
      else
        ((retryLoop env g cookies article pdfDir mdDir maxRetries fuel (retry + 1) false
            (if retry < maxRetries - 1 then
              waitRandomTime env g (downloadTextArticle env g cookies article pdfDir mdDir false s).2.1
            else ((downloadTextArticle env g cookies article pdfDir mdDir false s).2.1, [])).1).1,
          (retryLoop env g cookies article pdfDir mdDir maxRetries fuel (retry + 1) false
            (if retry < maxRetries - 1 then
              waitRandomTime env g (downloadTextArticle env g cookies article pdfDir mdDir false s).2.1
            else ((downloadTextArticle env g cookies article pdfDir mdDir false s).2.1, [])).1).2.1,
          (if retry > 0 then
            [Event.printf (Msg.retrying (retry + 1) article.Title), Event.sleep (second * 5)]
          else []) ++
          (Event.dispatch article (downloadTextArticle env g cookies article pdfDir mdDir false s).2.2
              (downloadTextArticle env g cookies article pdfDir mdDir false s).1 ::
            attemptLogs article (downloadTextArticle env g cookies article pdfDir mdDir false s).1) ++
          (if retry < maxRetries - 1 then
              waitRandomTime env g (downloadTextArticle env g cookies article pdfDir mdDir false s).2.1
            else ((downloadTextArticle env g cookies article pdfDir mdDir false s).2.1, [])).2 ++
          (retryLoop env g cookies article pdfDir mdDir maxRetries fuel (retry + 1) false
            (if retry < maxRetries - 1 then
              waitRandomTime env g (downloadTextArticle env g cookies article pdfDir mdDir false s).2.1
            else ((downloadTextArticle env g cookies article pdfDir mdDir false s).2.1, [])).1).2.2) := by
  rw [retryLoop, if_pos h, attempt_eq]
  by_cases hs : (downloadTextArticle env g cookies article pdfDir mdDir false s).1.isSkip = true
  · simp [hs, attemptLogs_of_isSkip]
  · simp [hs]

theorem retryLoop_stop (fuel retry : Nat) (ds : Bool) (s : σ) (h : ¬ retry < maxRetries) :
    retryLoop env g cookies article pdfDir mdDir maxRetries fuel retry ds s = (ds, s, []) := by
  cases fuel <;> simp [retryLoop, h]

end RetryLoop

section RetryProps

variable {σ : Type} (env : Env σ) (g : Globals) (cookies : List Cookie)
  (article : Article) (pdfDir mdDir : String) (maxRetries : Nat)

theorem retryNotice_countP_dispatch (retry : Nat) :
    List.countP Event.isDispatch
      (if retry > 0 then
        [Event.printf (Msg.retrying (retry + 1) article.Title), Event.sleep (second * 5)]
      else []) = 0 := by
  split <;> simp [Event.isDispatch]

theorem waitOrNot_countP_dispatch (c : Prop) [Decidable c] (s : σ) :
    List.countP Event.isDispatch (if c then waitRandomTime env g s else (s, [])).2 = 0 := by
  split <;> simp [waitRandomTime, Event.isDispatch]

theorem attemptLogs_countP_dispatch (out : Outcome) :
    List.countP Event.isDispatch (attemptLogs article out) = 0 := by
  rw [List.countP_eq_zero]
  intro e he
  simp [attemptLogs_not_dispatch article out e he]

theorem retryLoop_countP_le (fuel : Nat) : ∀ (retry : Nat) (s : σ),
    List.countP Event.isDispatch
      (retryLoop env g cookies article pdfDir mdDir maxRetries fuel retry false s).2.2 ≤ fuel := by
  induction fuel with
  | zero => intro retry s; simp [retryLoop]
  | succ fuel ih =>
    intro retry s
    by_cases h : retry < maxRetries
    · rw [retryLoop_succ env g cookies article pdfDir mdDir maxRetries fuel retry s h]
      split
      · simp [List.countP_append, retryNotice_countP_dispatch, Event.isDispatch]
      · simp only [List.countP_append, List.countP_cons, retryNotice_countP_dispatch,
          waitOrNot_countP_dispatch, attemptLogs_countP_dispatch, Event.isDispatch]
        have := ih (retry + 1) (if retry < maxRetries - 1 then
              waitRandomTime env g (downloadTextArticle env g cookies article pdfDir mdDir false s).2.1
            else ((downloadTextArticle env g cookies article pdfDir mdDir false s).2.1, [])).1
        simp only [if_true]
        omega
    · rw [retryLoop_stop env g cookies article pdfDir mdDir maxRetries _ retry false s h]
      simp

theorem retryLoop_countP_pos (fuel retry : Nat) (s : σ) (h : retry < maxRetries) :
    1 ≤ List.countP Event.isDispatch
      (retryLoop env g cookies article pdfDir mdDir maxRetries (fuel + 1) retry false s).2.2 := by
  rw [retryLoop_succ env g cookies article pdfDir mdDir maxRetries fuel retry s h]
  split
  · simp [List.countP_append, retryNotice_countP_dispatch, Event.isDispatch]
  · simp only [List.countP_append, List.countP_cons, Event.isDispatch, if_true]
    omega

end RetryProps

/-! ### No call after the first call that reported `skipped = true` -/

theorem pairwise_append_of_no_success {l₁ l₂ : List Event}
    (h₁ : ∀ e ∈ l₁, e.isSuccess = false)
    (h₂ : List.Pairwise (fun e x => e.isSuccess = true → x.isDispatch = false) l₂) :
    List.Pairwise (fun e x => e.isSuccess = true → x.isDispatch = false) (l₁ ++ l₂) := by
  rw [List.pairwise_append]
  refine ⟨?_, h₂, ?_⟩
  · exact List.Pairwise.imp_of_mem (R := fun _ _ => True) (fun ha _ _ hs => by
      simp [h₁ _ ha] at hs) (List.pairwise_of_forall (fun _ _ => trivial))
  · intro a ha b _ hs
    simp [h₁ a ha] at hs

theorem pairwise_append_of_no_dispatch {l₁ l₂ : List Event}
    (h₁ : List.Pairwise (fun e x => e.isSuccess = true → x.isDispatch = false) l₁)
    (h₂ : ∀ e ∈ l₂, e.isDispatch = false) :
    List.Pairwise (fun e x => e.isSuccess = true → x.isDispatch = false) (l₁ ++ l₂) := by
  rw [List.pairwise_append]
  refine ⟨h₁, ?_, ?_⟩
  · exact List.Pairwise.imp_of_mem (R := fun _ _ => True) (fun _ hb _ _ => h₂ _ hb)
      (List.pairwise_of_forall (fun _ _ => trivial))
  · intro a _ b hb _
    exact h₂ b hb

section RetryOrder

variable {σ : Type} (env : Env σ) (g : Globals) (cookies : List Cookie)
  (article : Article) (pdfDir mdDir : String) (maxRetries : Nat)

theorem retryNotice_no_success (retry : Nat) :
    ∀ e ∈ (if retry > 0 then
        [Event.printf (Msg.retrying (retry + 1) article.Title), Event.sleep (second * 5)]
      else []), e.isSuccess = false := by
  split <;> simp [Event.isSuccess]

theorem waitOrNot_no_success (c : Prop) [Decidable c] (s : σ) :
    ∀ e ∈ (if c then waitRandomTime env g s else (s, [])).2, e.isSuccess = false := by
  split <;> simp [waitRandomTime, Event.isSuccess]

theorem attemptLogs_no_success (out : Outcome) :
    ∀ e ∈ attemptLogs article out, e.isSuccess = false := by
  rcases out with r | ⟨sk, _ | e⟩ <;> simp [attemptLogs, Event.isSuccess]

theorem retryLoop_pairwise (fuel : Nat) : ∀ (retry : Nat) (s : σ),
    List.Pairwise (fun e x => e.isSuccess = true → x.isDispatch = false)
      (retryLoop env g cookies article pdfDir mdDir maxRetries fuel retry false s).2.2 := by
  induction fuel with
  | zero => intro retry s; simp [retryLoop]
  | succ fuel ih =>
    intro retry s
    by_cases h : retry < maxRetries
    · rw [retryLoop_succ env g cookies article pdfDir mdDir maxRetries fuel retry s h]
      split
      · exact pairwise_append_of_no_success (retryNotice_no_success article retry)
          (List.pairwise_singleton _ _)
      · rename_i hs
        simp only [List.append_assoc]
        refine pairwise_append_of_no_success (retryNotice_no_success article retry) ?_
        refine pairwise_append_of_no_success ?_ ?_
        · intro e he
          rcases List.mem_cons.1 he with rfl | he
          · simpa [Event.isSuccess] using hs
          · exact attemptLogs_no_success article _ e he
        · exact pairwise_append_of_no_success (waitOrNot_no_success env g _ _) (ih _ _)
    · rw [retryLoop_stop env g cookies article pdfDir mdDir maxRetries _ retry false s h]
      simp

end RetryOrder

/-! ### One article of the batch loop -/

section OneArticle

variable {σ : Type} (env : Env σ) (g : Globals) (cookies : List Cookie)
  (pdfDir mdDir : String) (total : Nat) (article : Article) (count : Nat) (s : σ)

theorem downloadArticle_events :
    (downloadArticle env g cookies pdfDir mdDir total article count s).2.2 =
      (retryLoop env g cookies article pdfDir mdDir 5 5 0 false s).2.2 ++
        ((if (retryLoop env g cookies article pdfDir mdDir 5 5 0 false s).1 = false then
            [Event.printf (Msg.articleGaveUp article.Title),
              Event.logError (Msg.articleGaveUp article.Title)]
          else []) ++
          (Event.printf (Msg.progress (count + 1) total) ::
            (if count + 1 < total then
              waitRandomTime env g (retryLoop env g cookies article pdfDir mdDir 5 5 0 false s).2.1
            else ((retryLoop env g cookies article pdfDir mdDir 5 5 0 false s).2.1, [])).2)) := by
  simp [downloadArticle]

theorem downloadArticle_tail_no_dispatch :
    ∀ e ∈ ((if (retryLoop env g cookies article pdfDir mdDir 5 5 0 false s).1 = false then
            [Event.printf (Msg.articleGaveUp article.Title),
              Event.logError (Msg.articleGaveUp article.Title)]
          else []) ++
          (Event.printf (Msg.progress (count + 1) total) ::
            (if count + 1 < total then
              waitRandomTime env g (retryLoop env g cookies article pdfDir mdDir 5 5 0 false s).2.1
            else ((retryLoop env g cookies article pdfDir mdDir 5 5 0 false s).2.1, [])).2)),
      e.isDispatch = false := by
  intro e he
  rcases List.mem_append.1 he with he | he
  · split at he <;> simp at he
    rcases he with rfl | rfl <;> rfl
  · rcases List.mem_cons.1 he with rfl | he
    · rfl
    · split at he <;> simp [waitRandomTime] at he
      subst he
      rfl

theorem downloadArticle_countP :
    List.countP Event.isDispatch (downloadArticle env g cookies pdfDir mdDir total article count s).2.2 =
      List.countP Event.isDispatch (retryLoop env g cookies article pdfDir mdDir 5 5 0 false s).2.2 := by
  rw [downloadArticle_events, List.countP_append, Nat.add_eq_left, List.countP_eq_zero]
  intro e he
  simp [downloadArticle_tail_no_dispatch env g cookies pdfDir mdDir total article count s e he]

end OneArticle

/-- C1. In the batch loop, whatever the collaborators do (errors, panics, `skipped` true or
false on any attempt), `downloadTextArticle` is called at least once and at most 5 times
for one article, and no call follows the first call that returned `skipped = true`
without error. -/
theorem C1_retry_bound {σ : Type} (env : Env σ) (g : Globals) (cookies : List Cookie)
    (pdfDir mdDir : String) (total : Nat) (article : Article) (count : Nat) (s : σ) :
    1 ≤ List.countP Event.isDispatch
        (downloadArticle env g cookies pdfDir mdDir total article count s).2.2 ∧
    List.countP Event.isDispatch
        (downloadArticle env g cookies pdfDir mdDir total article count s).2.2 ≤ 5 ∧
    ∀ (pre post : List Event) (e : Event),
      (downloadArticle env g cookies pdfDir mdDir total article count s).2.2 = pre ++ e :: post →
      e.isSuccess = true → ∀ x ∈ post, x.isDispatch = false := by
  refine ⟨?_, ?_, ?_⟩
  · rw [downloadArticle_countP]
    exact retryLoop_countP_pos env g cookies article pdfDir mdDir 5 4 0 s (by decide)
  · rw [downloadArticle_countP]
    exact retryLoop_countP_le env g cookies article pdfDir mdDir 5 5 0 s
  · intro pre post e hev he x hx
    have hp : List.Pairwise (fun e x => e.isSuccess = true → x.isDispatch = false)
        (downloadArticle env g cookies pdfDir mdDir total article count s).2.2 := by
      rw [downloadArticle_events]
      exact pairwise_append_of_no_dispatch
        (retryLoop_pairwise env g cookies article pdfDir mdDir 5 5 0 s)
        (downloadArticle_tail_no_dispatch env g cookies pdfDir mdDir total article count s)
    rw [hev, List.pairwise_append] at hp
    exact List.rel_of_pairwise_cons hp.2.1 hx he

/-! ### The format selection and the `skipped` flag of `downloadTextArticle` -/

theorem land_one_eq_one_iff (x : Int) : Int.land x 1 = 1 ↔ x.testBit 0 = true := by
  constructor
  · intro h
    have h1 := Int.testBit_land x 1 0
    rw [h] at h1
    have h2 : Int.testBit 1 0 = true := by decide
    rw [h2] at h1
    simpa using h1.symm
  · intro h
    cases x with
    | ofNat m =>
      have e : Int.land (Int.ofNat m) 1 = ((m &&& 1 : Nat) : Int) := rfl
      rw [e]
      have h' : m % 2 = 1 := by simpa [Int.testBit] using h
      simp [Nat.and_one_is_mod, h']
    | negSucc m =>
      have e : Int.land (Int.negSucc m) 1 = ((Nat.ldiff 1 m : Nat) : Int) := rfl
      rw [e]
      have h' : m.testBit 0 = false := by simpa [Int.testBit] using h
      have : Nat.ldiff 1 m = 1 := by
        apply Nat.eq_of_testBit_eq
        intro i
        rw [Nat.testBit_ldiff]
        cases i with
        | zero => simp [h']
        | succ k =>
          have h1 : Nat.testBit 1 (k + 1) = false := by
            have := @Nat.testBit_one_eq_true_iff_self_eq_zero (k + 1)
            cases hb : Nat.testBit 1 (k + 1)
            · rfl
            · simp [hb] at this
          simp [h1]
      simp [this]

theorem testBit_shiftRight_one (x : Int) : (x >>> 1).testBit 0 = x.testBit 1 := by
  cases x with
  | ofNat m =>
    have e : (Int.ofNat m) >>> 1 = ((m >>> 1 : Nat) : Int) := rfl
    rw [e]
    simp [Int.testBit, Nat.testBit_shiftRight]
  | negSucc m =>
    have e : (Int.negSucc m) >>> 1 = Int.negSucc (m >>> 1) := rfl
    rw [e]
    simp [Int.testBit, Nat.testBit_shiftRight]

theorem needDownloadPDF_iff (g : Globals) :
    needDownloadPDF g = true ↔ g.columnOutputType.testBit 0 = true := by
  simp [needDownloadPDF, land_one_eq_one_iff]

theorem needDownloadMD_iff (g : Globals) :
    needDownloadMD g = true ↔ g.columnOutputType.testBit 1 = true := by
  simp [needDownloadMD, land_one_eq_one_iff, testBit_shiftRight_one]

section Stages

variable {σ : Type} (env : Env σ) (g : Globals) (cookies : List Cookie)
  (articleInfo : ArticleInfo) (article : Article) (pdfDir mdDir : String) (overwrite : Bool)

theorem mdStage_flag (sk0 sk : Bool) (s : σ)
    (h : (mdStage env g articleInfo article mdDir overwrite sk0 s).1 = Outcome.returned sk none) :
    sk = (sk0 && !(mdStage env g articleInfo article mdDir overwrite sk0 s).2.2.any Call.freshWrite) ∧
    (mdStage env g articleInfo article mdDir overwrite sk0 s).2.2.any Call.isMD = needDownloadMD g ∧
    (mdStage env g articleInfo article mdDir overwrite sk0 s).2.2.any Call.isPDF = false := by
  revert h
  unfold mdStage
  by_cases hm : needDownloadMD g = true
  · rw [if_pos hm]
    rcases env.MarkdownDownload articleInfo.ArticleContent article.Title mdDir article.AID
      overwrite s with ⟨res, s1⟩
    rcases res with r | e | v
    · simp [after]
    · simp [after]
    · cases v <;> cases sk0 <;> simp_all [after, Call.freshWrite, Call.isMD, Call.isPDF]
  · rw [if_neg hm]
    intro h
    simp at h
    simp [h, hm]

theorem pdfStage_flag (sk0 sk : Bool) (s : σ)
    (h : (pdfStage env g cookies articleInfo article pdfDir mdDir overwrite sk0 s).1 =
      Outcome.returned sk none) :
    sk = (sk0 &&
      !(pdfStage env g cookies articleInfo article pdfDir mdDir overwrite sk0 s).2.2.any
        Call.freshWrite) ∧
    (pdfStage env g cookies articleInfo article pdfDir mdDir overwrite sk0 s).2.2.any Call.isMD =
      needDownloadMD g ∧
    (pdfStage env g cookies articleInfo article pdfDir mdDir overwrite sk0 s).2.2.any Call.isPDF =
      needDownloadPDF g := by
  revert h
  unfold pdfStage
  by_cases hp : needDownloadPDF g = true
  · rw [if_pos hp]
    rcases env.PrintArticlePageToPDF article.AID pdfDir article.Title cookies
        g.downloadComments g.printPDFWaitSeconds g.printPDFTimeoutSeconds overwrite s with ⟨res, s1⟩
    rcases res with r | e | v
    · simp [after]
    · simp [after]
    · intro h
      simp only [after] at h ⊢
      have := mdStage_flag env g articleInfo article mdDir overwrite _ sk s1 h
      cases v <;> cases sk0 <;> simp_all [Call.freshWrite, Call.isMD, Call.isPDF]
  · rw [if_neg hp]
    intro h
    have := mdStage_flag env g articleInfo article mdDir overwrite _ sk s h
    simp_all

theorem inlineVideoStage_flag (sk0 sk : Bool) (s : σ)
    (h : (inlineVideoStage env g cookies articleInfo article pdfDir mdDir overwrite sk0 s).1 =
      Outcome.returned sk none) :
    sk = (sk0 &&
      !(inlineVideoStage env g cookies articleInfo article pdfDir mdDir overwrite sk0 s).2.2.any
        Call.freshWrite) ∧
    (inlineVideoStage env g cookies articleInfo article pdfDir mdDir overwrite sk0 s).2.2.any
      Call.isMD = needDownloadMD g ∧
    (inlineVideoStage env g cookies articleInfo article pdfDir mdDir overwrite sk0 s).2.2.any
      Call.isPDF = needDownloadPDF g := by
  revert h
  unfold inlineVideoStage
  by_cases hv : articleInfo.InlineVideoSubtitles.length > 0
  · rw [if_pos hv]
    rcases env.DownloadMP4 article.Title pdfDir
      (articleInfo.InlineVideoSubtitles.map InlineVideoSubtitle.VideoURL) overwrite s with ⟨res, s1⟩
    rcases res with r | e | v
    · simp [after]
    · simp [after]
    · intro h
      simp only [after] at h ⊢
      have := pdfStage_flag env g cookies articleInfo article pdfDir mdDir overwrite sk0 sk s1 h
      simpa [Call.freshWrite, Call.isMD, Call.isPDF] using this
  · rw [if_neg hv]
    intro h
    exact pdfStage_flag env g cookies articleInfo article pdfDir mdDir overwrite sk0 sk s h

theorem videoStage_flag (sk0 sk : Bool) (s : σ)
    (h : (videoStage env g cookies articleInfo article pdfDir mdDir overwrite sk0 s).1 =
      Outcome.returned sk none) :
    sk = (sk0 &&
      !(videoStage env g cookies articleInfo article pdfDir mdDir overwrite sk0 s).2.2.any
        Call.freshWrite) ∧
    (videoStage env g cookies articleInfo article pdfDir mdDir overwrite sk0 s).2.2.any
      Call.isMD = needDownloadMD g ∧
    (videoStage env g cookies articleInfo article pdfDir mdDir overwrite sk0 s).2.2.any
      Call.isPDF = needDownloadPDF g := by
  revert h
  unfold videoStage
  split
  rename_i hasVideo videoURL _
  by_cases hv : hasVideo = true ∧ videoURL ≠ ""
  · rw [if_pos hv]
    rcases env.DownloadMP4 article.Title pdfDir [videoURL] overwrite s with ⟨res, s1⟩
    rcases res with r | e | v
    · simp [after]
    · simp [after]
    · intro h
      simp only [after] at h ⊢
      have := inlineVideoStage_flag env g cookies articleInfo article pdfDir mdDir overwrite
        sk0 sk s1 h
      simpa [Call.freshWrite, Call.isMD, Call.isPDF] using this
  · rw [if_neg hv]
    intro h
    exact inlineVideoStage_flag env g cookies articleInfo article pdfDir mdDir overwrite sk0 sk s h

end Stages

theorem downloadTextArticle_flag {σ : Type} (env : Env σ) (g : Globals) (cookies : List Cookie)
    (article : Article) (pdfDir mdDir : String) (overwrite : Bool) (s : σ) (sk : Bool)
    (h : (downloadTextArticle env g cookies article pdfDir mdDir overwrite s).1 =
      Outcome.returned sk none) :
    sk = !(downloadTextArticle env g cookies article pdfDir mdDir overwrite s).2.2.any
        Call.freshWrite ∧
    (downloadTextArticle env g cookies article pdfDir mdDir overwrite s).2.2.any Call.isMD =
      needDownloadMD g ∧
    (downloadTextArticle env g cookies article pdfDir mdDir overwrite s).2.2.any Call.isPDF =
      needDownloadPDF g := by
  revert h
  unfold downloadTextArticle
  rcases env.V1ArticleInfo article.AID s with ⟨res, s1⟩
  rcases res with r | e | v
  · simp [after]
  · simp [after]
  · intro h
    simp only [after] at h ⊢
    have := videoStage_flag env g cookies v article pdfDir mdDir overwrite true sk s1 h
    simpa [Call.freshWrite, Call.isMD, Call.isPDF] using this

/-- C2. When no stage returns an error, `downloadTextArticle` calls the PDF renderer exactly
when bit 0 of `columnOutputType` is set and the Markdown converter exactly when bit 1 is
set, and it returns `skipped = true` exactly when none of these calls reported a fresh
write; the calls of the video fetcher play no part in the flag. -/
theorem C2_skipped_flag {σ : Type} (env : Env σ) (g : Globals) (cookies : List Cookie)
    (article : Article) (pdfDir mdDir : String) (overwrite : Bool) (s : σ) (sk : Bool)
    (h : (downloadTextArticle env g cookies article pdfDir mdDir overwrite s).1 =
      Outcome.returned sk none) :
    ((∃ c ∈ (downloadTextArticle env g cookies article pdfDir mdDir overwrite s).2.2,
        c.isPDF = true) ↔ g.columnOutputType.testBit 0 = true) ∧
    ((∃ c ∈ (downloadTextArticle env g cookies article pdfDir mdDir overwrite s).2.2,
        c.isMD = true) ↔ g.columnOutputType.testBit 1 = true) ∧
    (sk = true ↔
      ∀ c ∈ (downloadTextArticle env g cookies article pdfDir mdDir overwrite s).2.2,
        c.isVideo = false → c.freshWrite = false) := by
  obtain ⟨h1, h2, h3⟩ := downloadTextArticle_flag env g cookies article pdfDir mdDir overwrite s sk h
  refine ⟨?_, ?_, ?_⟩
  · rw [← needDownloadPDF_iff, ← h3, List.any_eq_true]
  · rw [← needDownloadMD_iff, ← h2, List.any_eq_true]
  · rw [h1]
    simp only [Bool.not_eq_true', List.any_eq_false]
    constructor
    · intro hf c hc _
      simpa using hf c hc
    · intro hf c hc
      cases hv : c.isVideo
      · simpa using hf c hc hv
      · cases c <;> simp_all [Call.isVideo, Call.freshWrite]

/-- C2, at a concrete input: both formats requested, the document snapshot present, the
text export absent.  The renderer reports that it skipped, the converter reports a fresh
write, and the result is `skipped = false`. -/
theorem C2_skipped_flag_witness :
    initGlobals.columnOutputType = 3 ∧
    (downloadTextArticle (worldEnv platform1) initGlobals [] article1 "pdf" "md" false
        pdfOnlyWorld).2.2 =
      [Call.V1ArticleInfo 1 (Res.ok { ArticleContent := "<p>text</p>", InlineVideoSubtitles := [] }),
        Call.PrintArticlePageToPDF 1 "pdf" "a" [] false 15 120 false (Res.ok true),
        Call.MarkdownDownload "<p>text</p>" "a" "md" 1 false (Res.ok false)] ∧
    (downloadTextArticle (worldEnv platform1) initGlobals [] article1 "pdf" "md" false
        pdfOnlyWorld).1 = Outcome.returned false none ∧
    (false = true ↔
      ∀ c ∈ (downloadTextArticle (worldEnv platform1) initGlobals [] article1 "pdf" "md" false
          pdfOnlyWorld).2.2, c.isVideo = false → c.freshWrite = false) :=
  ⟨by decide, by decide, by decide,
    (C2_skipped_flag (worldEnv platform1) initGlobals [] article1 "pdf" "md" false pdfOnlyWorld
      false (by decide)).2.2⟩

/-! ### `waitRandomTime` -/

theorem wrap64_eq_self (x : Int) (h₁ : -(2 ^ 63) ≤ x) (h₂ : x < 2 ^ 63) : wrap64 x = x := by
  unfold wrap64
  rw [Int.emod_eq_of_lt (by omega) (by omega)]
  omega

theorem sleepDuration_eq (interval : Int) (j : Nat) (h₀ : 0 ≤ interval)
    (h₁ : interval ≤ 9223372034) (hj : j < 2000) :
    sleepDuration interval j = (interval * 1000 + (j : Int)) * 1000000 := by
  unfold sleepDuration
  rw [wrap64_eq_self (interval * 1000) (by omega) (by omega)]
  rw [wrap64_eq_self (interval * 1000 + (j : Int)) (by omega) (by omega)]
  rw [wrap64_eq_self _ (by omega) (by omega)]

/-- C9, as the claim states it, fails: for a configured interval of 9223372037 seconds
(and a jitter draw of 1234) the duration in nanoseconds wraps around to a negative value,
so `time.Sleep` returns at once, which is less than the interval. -/
theorem C9_overflow_counterexample :
    (0 : Int) ≤ longIntervalGlobals.interval ∧
    (waitRandomTime (worldEnv platform1) longIntervalGlobals drawWorld).2 =
      [Event.waitRandomTime (-9223372035475551616)] ∧
    sleepTime (-9223372035475551616) < longIntervalGlobals.interval * second := by
  refine ⟨by decide, ?_, by decide⟩
  simp [waitRandomTime, worldEnv, World.Intn, drawWorld, longIntervalGlobals, initGlobals,
    sleepDuration, wrap64]

/-- C9, amended. For a configured interval between 0 and 9223372034 seconds and a jitter
draw `j < 2000` of the random source, `waitRandomTime` sleeps exactly
`interval*1000 + j` milliseconds: never less than `interval` whole seconds and strictly
less than `interval` seconds plus 2000 ms. -/
theorem C9_wait_duration {σ : Type} (env : Env σ) (g : Globals) (s : σ)
    (h₀ : 0 ≤ g.interval) (h₁ : g.interval ≤ 9223372034) (hj : (env.Intn 2000 s).1 < 2000) :
    (waitRandomTime env g s).2 =
      [Event.waitRandomTime ((g.interval * 1000 + ((env.Intn 2000 s).1 : Int)) * 1000000)] ∧
    sleepTime (sleepDuration g.interval (env.Intn 2000 s).1) =
      (g.interval * 1000 + ((env.Intn 2000 s).1 : Int)) * 1000000 ∧
    g.interval * second ≤ sleepTime (sleepDuration g.interval (env.Intn 2000 s).1) ∧
    sleepTime (sleepDuration g.interval (env.Intn 2000 s).1) <
      g.interval * second + 2000 * 1000000 := by
  have e := sleepDuration_eq g.interval (env.Intn 2000 s).1 h₀ h₁ hj
  refine ⟨?_, ?_, ?_, ?_⟩
  · rw [waitRandomTime_events, e]
  · rw [e]; unfold sleepTime; split <;> omega
  · rw [e]; unfold sleepTime second; split <;> omega
  · rw [e]; unfold sleepTime second; split <;> omega

/-- C9, amended, at a concrete input: an interval of 2 seconds and a draw of 1234 give a
sleep of 3234 ms. -/
theorem C9_wait_duration_witness :
    (0 : Int) ≤ twoSecondGlobals.interval ∧ twoSecondGlobals.interval ≤ 9223372034 ∧
    ((worldEnv platform1).Intn 2000 drawWorld).1 < 2000 ∧
    (waitRandomTime (worldEnv platform1) twoSecondGlobals drawWorld).2 =
      [Event.waitRandomTime 3234000000] :=
  ⟨by decide, by decide, by decide,
    (C9_wait_duration (worldEnv platform1) twoSecondGlobals drawWorld (by decide) (by decide)
      (by decide)).1⟩

/-! ### Where `waitRandomTime` is called -/

theorem marks_append (l₁ l₂ : List Event) : marks (l₁ ++ l₂) = marks l₁ ++ marks l₂ := by
  simp [marks]

theorem marks_nil : marks [] = [] := rfl

theorem marks_cons_dispatch (a : Article) (calls : List Call) (out : Outcome) (l : List Event) :
    marks (Event.dispatch a calls out :: l) = some a :: marks l := by
  simp [marks, Event.mark]

theorem marks_retryNotice (article : Article) (retry : Nat) :
    marks (if retry > 0 then
        [Event.printf (Msg.retrying (retry + 1) article.Title), Event.sleep (second * 5)]
      else []) = [] := by
  split <;> simp [marks, Event.mark]

theorem marks_attemptLogs (article : Article) (out : Outcome) :
    marks (attemptLogs article out) = [] := by
  rcases out with r | ⟨sk, _ | e⟩ <;> simp [attemptLogs, marks, Event.mark]

theorem marks_waitRandomTime {σ : Type} (env : Env σ) (g : Globals) (s : σ) :
    marks (waitRandomTime env g s).2 = [none] := by
  simp [waitRandomTime, marks, Event.mark]

theorem intersperse_replicate_succ {α : Type} (sep x : α) (k : Nat) (hk : 1 ≤ k) :
    x :: sep :: List.intersperse sep (List.replicate k x) =
      List.intersperse sep (List.replicate (k + 1) x) := by
  obtain ⟨n, rfl⟩ : ∃ n, k = n + 1 := ⟨k - 1, by omega⟩
  simp [List.replicate_succ]

theorem retryLoop_marks {σ : Type} (env : Env σ) (g : Globals) (cookies : List Cookie)
    (article : Article) (pdfDir mdDir : String) (maxRetries : Nat) (fuel : Nat) :
    ∀ (retry : Nat) (s : σ), retry < maxRetries → maxRetries - retry ≤ fuel →
      ∃ k, 1 ≤ k ∧ k ≤ maxRetries - retry ∧
        marks (retryLoop env g cookies article pdfDir mdDir maxRetries fuel retry false s).2.2 =
          List.intersperse none (List.replicate k (some article)) := by
  induction fuel with
  | zero => intro retry s h₁ h₂; omega
  | succ fuel ih =>
    intro retry s h₁ h₂
    rw [retryLoop_succ env g cookies article pdfDir mdDir maxRetries fuel retry s h₁]
    split
    · refine ⟨1, le_refl 1, by omega, ?_⟩
      simp only [marks_append, marks_retryNotice, marks_cons_dispatch, marks_nil,
        List.nil_append, List.replicate, List.intersperse]
    · by_cases hw : retry < maxRetries - 1
      · simp only [if_pos hw]
        obtain ⟨k, hk₁, hk₂, hk⟩ := ih (retry + 1)
          (waitRandomTime env g
            (downloadTextArticle env g cookies article pdfDir mdDir false s).2.1).1
          (by omega) (by omega)
        refine ⟨k + 1, by omega, by omega, ?_⟩
        simp only [marks_append, marks_retryNotice, marks_cons_dispatch, marks_attemptLogs,
          marks_waitRandomTime, hk, List.nil_append, List.cons_append]
        exact intersperse_replicate_succ none (some article) k hk₁
      · simp only [if_neg hw]
        rw [retryLoop_stop env g cookies article pdfDir mdDir maxRetries fuel (retry + 1) false _
          (by omega)]
        refine ⟨1, le_refl 1, by omega, ?_⟩
        simp only [marks_append, marks_retryNotice, marks_cons_dispatch, marks_attemptLogs,
          marks_nil, List.nil_append, List.append_nil, List.replicate, List.intersperse]

theorem downloadArticle_marks {σ : Type} (env : Env σ) (g : Globals) (cookies : List Cookie)
    (pdfDir mdDir : String) (total : Nat) (article : Article) (count : Nat) (s : σ) :
    ∃ k, 1 ≤ k ∧ k ≤ 5 ∧
      marks (downloadArticle env g cookies pdfDir mdDir total article count s).2.2 =
        List.intersperse none (List.replicate k (some article)) ++
          (if count + 1 < total then [none] else []) := by
  obtain ⟨k, hk₁, hk₂, hk⟩ :=
    retryLoop_marks env g cookies article pdfDir mdDir 5 5 0 s (by decide) (by decide)
  refine ⟨k, hk₁, by omega, ?_⟩
  rw [downloadArticle_events, marks_append, hk]
  congr 1
  have h₁ : marks (if (retryLoop env g cookies article pdfDir mdDir 5 5 0 false s).1 = false then
      [Event.printf (Msg.articleGaveUp article.Title),
        Event.logError (Msg.articleGaveUp article.Title)]
    else []) = [] := by
    split <;> simp [marks, Event.mark]
  rw [marks_append, h₁]
  by_cases hc : count + 1 < total
  · simp only [if_pos hc]
    simp [marks, Event.mark, waitRandomTime]
  · simp only [if_neg hc]
    simp [marks, Event.mark]

theorem downloadArticle_count {σ : Type} (env : Env σ) (g : Globals) (cookies : List Cookie)
    (pdfDir mdDir : String) (total : Nat) (article : Article) (count : Nat) (s : σ) :
    (downloadArticle env g cookies pdfDir mdDir total article count s).1 = count + 1 := by
  simp [downloadArticle]

theorem downloadArticles_cons {σ : Type} (env : Env σ) (g : Globals) (cookies : List Cookie)
    (pdfDir mdDir : String) (total : Nat) (article : Article) (rest : List Article)
    (count : Nat) (s : σ) :
    (downloadArticles env g cookies pdfDir mdDir total (article :: rest) count s).2.2 =
      (downloadArticle env g cookies pdfDir mdDir total article count s).2.2 ++
        (downloadArticles env g cookies pdfDir mdDir total rest (count + 1)
          (downloadArticle env g cookies pdfDir mdDir total article count s).2.1).2.2 := by
  rw [downloadArticles]
  rw [← downloadArticle_count env g cookies pdfDir mdDir total article count s]

theorem downloadArticles_marks {σ : Type} (env : Env σ) (g : Globals) (cookies : List Cookie)
    (pdfDir mdDir : String) (total : Nat) :
    ∀ (rest : List Article) (count : Nat) (s : σ), count + rest.length = total →
      ∃ ks : List Nat, ks.length = rest.length ∧ (∀ k ∈ ks, 1 ≤ k ∧ k ≤ 5) ∧
        marks (downloadArticles env g cookies pdfDir mdDir total rest count s).2.2 =
          List.intercalate [none]
            (List.zipWith (fun a k => List.intersperse none (List.replicate k (some a)))
              rest ks) := by
  intro rest
  induction rest with
  | nil =>
    intro count s _
    exact ⟨[], rfl, by simp, by simp [downloadArticles, marks, List.intercalate]⟩
  | cons article rest ih =>
    intro count s hlen
    obtain ⟨k, hk₁, hk₂, hk⟩ :=
      downloadArticle_marks env g cookies pdfDir mdDir total article count s
    obtain ⟨ks, hks₁, hks₂, hks⟩ := ih (count + 1)
      (downloadArticle env g cookies pdfDir mdDir total article count s).2.1
      (by simp only [List.length_cons] at hlen; omega)
    refine ⟨k :: ks, by simp [hks₁], ?_, ?_⟩
    · intro k' hk'
      rcases List.mem_cons.1 hk' with rfl | hk'
      · exact ⟨hk₁, hk₂⟩
      · exact hks₂ k' hk'
    · rw [downloadArticles_cons, marks_append, hk, hks]
      cases rest with
      | nil =>
        have : ¬ count + 1 < total := by simp at hlen; omega
        simp [this, List.intercalate]
      | cons b rest' =>
        have : count + 1 < total := by simp at hlen; omega
        obtain ⟨k₂, ks', rfl⟩ : ∃ k₂ ks', ks = k₂ :: ks' := by
          cases ks with
          | nil => simp at hks₁
          | cons k₂ ks' => exact ⟨k₂, ks', rfl⟩
        simp [this, List.intercalate]

/-- C8, as the claim states it, fails: for a course of one article with nothing on disk,
the first call of `downloadTextArticle` writes both formats and returns `skipped = false`,
the loop calls `waitRandomTime` and the article is dispatched again.  `waitRandomTime` is
called between two attempts of the same article. -/
theorem C8_wait_between_attempts :
    marks (downloadArticles (worldEnv platform1) initGlobals [] "pdf" "md" 1 [article1] 0
      emptyWorld).2.2 = [some article1, none, some article1] := by
  decide

/-- C8, amended. In the article loop of a course, whatever the collaborators do, the calls
of `downloadTextArticle` and `waitRandomTime` are, article after article, between 1 and 5
calls of `downloadTextArticle` on that article with exactly one call of `waitRandomTime`
between two consecutive attempts, and exactly one call of `waitRandomTime` between the
last attempt of an article and the first attempt of the next one; there is none after the
last article. -/
theorem C8_wait_placement {σ : Type} (env : Env σ) (g : Globals) (cookies : List Cookie)
    (pdfDir mdDir : String) (articles : List Article) (s : σ) :
    ∃ ks : List Nat, ks.length = articles.length ∧ (∀ k ∈ ks, 1 ≤ k ∧ k ≤ 5) ∧
      marks (downloadArticles env g cookies pdfDir mdDir articles.length articles 0 s).2.2 =
        List.intercalate [none]
          (List.zipWith (fun a k => List.intersperse none (List.replicate k (some a)))
            articles ks) :=
  downloadArticles_marks env g cookies pdfDir mdDir articles.length articles 0 s (by simp)

/-! ### Evaluations of the batch loop -/

/-- C10, on the code: the video fetch fails on the attempts 1 to 4 and succeeds on the
attempt 5, with both formats requested and nothing on disk.  There are 4 retry sleeps of
five seconds and 4 failure lines, and the attempt 5 returns without error; but it is the
first to reach the renderer and the converter, so it returns `skipped = false`, and the
article is logged as failed. -/
theorem C10_fifth_attempt_logged_as_failed :
    List.count (Event.sleep (second * 5))
      (downloadArticle (worldEnv platformVideo) initGlobals [] "pdf" "md" 1 article1 0
        videoFaultWorld).2.2 = 4 ∧
    List.count (Event.logError (Msg.articleFailed "a" (DlError.video "video fetch failed")))
      (downloadArticle (worldEnv platformVideo) initGlobals [] "pdf" "md" 1 article1 0
        videoFaultWorld).2.2 = 4 ∧
    List.filterMap Event.outcome
      (downloadArticle (worldEnv platformVideo) initGlobals [] "pdf" "md" 1 article1 0
        videoFaultWorld).2.2 =
      [Outcome.returned false (some (DlError.video "video fetch failed")),
        Outcome.returned false (some (DlError.video "video fetch failed")),
        Outcome.returned false (some (DlError.video "video fetch failed")),
        Outcome.returned false (some (DlError.video "video fetch failed")),
        Outcome.returned false none] ∧
    List.count (Event.logError (Msg.articleGaveUp "a"))
      (downloadArticle (worldEnv platformVideo) initGlobals [] "pdf" "md" 1 article1 0
        videoFaultWorld).2.2 = 1 := by
  decide

/-- C5, on the code: a text course whose metadata has `access = false`.  The batch loop
does not read the field: it creates both output directories, dispatches the article and
logs nothing. -/
theorem C5_no_access_course_is_downloaded :
    (platformNoAccess.courses.lookup 7).map Course.Access = some false ∧
    List.countP Event.isMkdir
      (processCourse (worldEnv platformNoAccess) initGlobals config7 [] "7" emptyWorld).2 = 2 ∧
    marks (processCourse (worldEnv platformNoAccess) initGlobals config7 [] "7" emptyWorld).2 =
      [some article1, none, some article1] ∧
    List.countP Event.isLogError
      (processCourse (worldEnv platformNoAccess) initGlobals config7 [] "7" emptyWorld).2 = 0 ∧
    (processCourse (worldEnv platformNoAccess) initGlobals config7 [] "7" emptyWorld).1.files =
      ["/Users/bytedance/geektime/markdown/c/a.md", "/Users/bytedance/geektime/pdf/c/a.pdf"] := by
  decide

/-! ### Fault isolation -/

theorem mem_intersperse_replicate {α : Type} (sep x : α) (k : Nat) (hk : 1 ≤ k) :
    x ∈ List.intersperse sep (List.replicate k x) := by
  obtain ⟨n, rfl⟩ : ∃ n, k = n + 1 := ⟨k - 1, by omega⟩
  cases n with
  | zero => simp
  | succ n => simp [List.replicate_succ]

theorem downloadArticles_dispatches_all {σ : Type} (env : Env σ) (g : Globals)
    (cookies : List Cookie) (pdfDir mdDir : String) (total : Nat) :
    ∀ (rest : List Article) (count : Nat) (s : σ), ∀ a ∈ rest,
      some a ∈ marks (downloadArticles env g cookies pdfDir mdDir total rest count s).2.2 := by
  intro rest
  induction rest with
  | nil => intro count s a ha; simp at ha
  | cons article rest ih =>
    intro count s a ha
    rw [downloadArticles_cons, marks_append, List.mem_append]
    rcases List.mem_cons.1 ha with rfl | ha
    · left
      obtain ⟨k, hk₁, _, hk⟩ := downloadArticle_marks env g cookies pdfDir mdDir total a count s
      rw [hk, List.mem_append]
      exact Or.inl (mem_intersperse_replicate none (some a) k hk₁)
    · right
      exact ih _ _ a ha

theorem filterMap_dispatched_eq_marks (ev : List Event) :
    ev.filterMap Event.dispatched = (marks ev).filterMap id := by
  unfold marks
  rw [List.filterMap_filterMap]
  congr 1
  funext e
  cases e <;> rfl

theorem filterMap_id_intersperse_replicate {α : Type} (a : α) (k : Nat) :
    (List.intersperse none (List.replicate k (some a))).filterMap id = List.replicate k a := by
  induction k with
  | zero => rfl
  | succ k ih =>
    cases k with
    | zero => rfl
    | succ k =>
      rw [List.replicate_succ, List.replicate_succ, List.intersperse_cons_cons,
        ← List.replicate_succ]
      show a :: List.filterMap id (List.intersperse none (List.replicate (k + 1) (some a))) = _
      rw [ih]
      rfl

theorem downloadArticle_dispatched {σ : Type} (env : Env σ) (g : Globals)
    (cookies : List Cookie) (pdfDir mdDir : String) (total : Nat) (article : Article)
    (count : Nat) (s : σ) :
    ∃ k, 1 ≤ k ∧ k ≤ 5 ∧
      (downloadArticle env g cookies pdfDir mdDir total article count s).2.2.filterMap
        Event.dispatched = List.replicate k article := by
  obtain ⟨k, hk₁, hk₂, hk⟩ := downloadArticle_marks env g cookies pdfDir mdDir total article count s
  refine ⟨k, hk₁, hk₂, ?_⟩
  rw [filterMap_dispatched_eq_marks, hk, List.filterMap_append,
    filterMap_id_intersperse_replicate]
  split <;> simp

theorem downloadArticles_dispatched {σ : Type} (env : Env σ) (g : Globals)
    (cookies : List Cookie) (pdfDir mdDir : String) (total : Nat) :
    ∀ (rest : List Article) (count : Nat) (s : σ),
      ∃ ks : List Nat, ks.length = rest.length ∧ (∀ k ∈ ks, 1 ≤ k ∧ k ≤ 5) ∧
        (downloadArticles env g cookies pdfDir mdDir total rest count s).2.2.filterMap
          Event.dispatched = (List.zipWith (fun a k => List.replicate k a) rest ks).flatten := by
  intro rest
  induction rest with
  | nil =>
    intro count s
    exact ⟨[], rfl, by simp, by simp [downloadArticles]⟩
  | cons article rest ih =>
    intro count s
    obtain ⟨k, hk₁, hk₂, hk⟩ :=
      downloadArticle_dispatched env g cookies pdfDir mdDir total article count s
    obtain ⟨ks, hks₁, hks₂, hks⟩ := ih (count + 1)
      (downloadArticle env g cookies pdfDir mdDir total article count s).2.1
    refine ⟨k :: ks, by simp [hks₁], ?_, ?_⟩
    · intro k' hk'
      rcases List.mem_cons.1 hk' with rfl | hk'
      · exact ⟨hk₁, hk₂⟩
      · exact hks₂ k' hk'
    · rw [downloadArticles_cons, List.filterMap_append, hk, hks]
      simp

theorem retryLoop_no_courseFailure {σ : Type} (env : Env σ) (g : Globals)
    (cookies : List Cookie) (article : Article) (pdfDir mdDir : String) (maxRetries : Nat)
    (fuel : Nat) : ∀ (retry : Nat) (s : σ),
    ∀ e ∈ (retryLoop env g cookies article pdfDir mdDir maxRetries fuel retry false s).2.2,
      e.isCourseFailure = false := by
  induction fuel with
  | zero => intro retry s e he; simp [retryLoop] at he
  | succ fuel ih =>
    intro retry s e he
    by_cases h : retry < maxRetries
    · rw [retryLoop_succ env g cookies article pdfDir mdDir maxRetries fuel retry s h] at he
      have hn : ∀ x ∈ (if retry > 0 then
          [Event.printf (Msg.retrying (retry + 1) article.Title), Event.sleep (second * 5)]
        else []), x.isCourseFailure = false := by
        split <;> simp [Event.isCourseFailure]
      have hl : ∀ (out : Outcome), ∀ x ∈ attemptLogs article out,
          x.isCourseFailure = false := by
        intro out
        rcases out with r | ⟨sk, _ | e⟩ <;> simp [attemptLogs, Event.isCourseFailure]
      have hw : ∀ (c : Prop) [Decidable c] (s : σ),
          ∀ x ∈ (if c then waitRandomTime env g s else (s, [])).2,
            x.isCourseFailure = false := by
        intro c _ s
        split <;> simp [waitRandomTime, Event.isCourseFailure]
      split at he
      · rcases List.mem_append.1 he with he | he
        · exact hn e he
        · rw [List.mem_singleton.1 he]; rfl
      · simp only [List.append_assoc, List.mem_append, List.mem_cons] at he
        rcases he with he | (rfl | he) | he | he
        · exact hn e he
        · rfl
        · exact hl _ e he
        · exact hw _ _ e he
        · exact ih _ _ e he
    · rw [retryLoop_stop env g cookies article pdfDir mdDir maxRetries _ retry false s h] at he
      simp at he

theorem downloadArticle_no_courseFailure {σ : Type} (env : Env σ) (g : Globals)
    (cookies : List Cookie) (pdfDir mdDir : String) (total : Nat) (article : Article)
    (count : Nat) (s : σ) :
    ∀ e ∈ (downloadArticle env g cookies pdfDir mdDir total article count s).2.2,
      e.isCourseFailure = false := by
  intro e he
  rw [downloadArticle_events] at he
  rcases List.mem_append.1 he with he | he
  · exact retryLoop_no_courseFailure env g cookies article pdfDir mdDir 5 5 0 s e he
  · rcases List.mem_append.1 he with he | he
    · split at he <;> simp at he
      rcases he with rfl | rfl <;> rfl
    · rcases List.mem_cons.1 he with rfl | he
      · rfl
      · split at he <;> simp [waitRandomTime] at he
        subst he
        rfl

theorem downloadArticles_no_courseFailure {σ : Type} (env : Env σ) (g : Globals)
    (cookies : List Cookie) (pdfDir mdDir : String) (total : Nat) :
    ∀ (rest : List Article) (count : Nat) (s : σ),
      ∀ e ∈ (downloadArticles env g cookies pdfDir mdDir total rest count s).2.2,
        e.isCourseFailure = false := by
  intro rest
  induction rest with
  | nil => intro count s e he; simp [downloadArticles] at he
  | cons article rest ih =>
    intro count s e he
    rw [downloadArticles_cons] at he
    rcases List.mem_append.1 he with he | he
    · exact downloadArticle_no_courseFailure env g cookies pdfDir mdDir total article count s e he
    · exact ih _ _ e he

theorem mkDownloadProjectDir_events {σ : Type} (env : Env σ)
    (downloadFolder phone gcid projectName : String) (s : σ) :
    ∀ e ∈ (mkDownloadProjectDir env downloadFolder phone gcid projectName s).2.2,
      e.isCourseFailure = false ∧ e.dispatched = none := by
  intro e
  unfold mkDownloadProjectDir
  cases h1 : env.MkdirAll (env.Join [downloadFolder, "pdf", env.Filenamify projectName]) s with
  | mk r1 s1 =>
    cases r1 with
    | some err =>
      intro he
      simp only [h1, List.mem_singleton] at he
      subst he
      exact ⟨rfl, rfl⟩
    | none =>
      cases h2 : env.MkdirAll
          (env.Join [downloadFolder, "markdown", env.Filenamify projectName]) s1 with
      | mk r2 s2 =>
        intro he
        cases r2 with
        | some err =>
          simp only [h1, h2, List.mem_cons, List.mem_singleton, List.not_mem_nil,
            or_false] at he
          rcases he with rfl | rfl <;> exact ⟨rfl, rfl⟩
        | none =>
          simp only [h1, h2, List.mem_cons, List.mem_singleton, List.not_mem_nil,
            or_false] at he
          rcases he with rfl | rfl <;> exact ⟨rfl, rfl⟩

theorem filterMap_dispatched_eq_nil (l : List Event) (h : ∀ e ∈ l, e.dispatched = none) :
    l.filterMap Event.dispatched = [] := by
  induction l with
  | nil => rfl
  | cons e l ih =>
    rw [List.filterMap_cons, h e (List.mem_cons_self e l)]
    exact ih (fun x hx => h x (List.mem_cons_of_mem e hx))

theorem processCourse_processed {σ : Type} (env : Env σ) (g : Globals) (cfg : Config)
    (cookies : List Cookie) (courseID : String) (s : σ) :
    CourseProcessed env g cfg courseID s (processCourse env g cfg cookies courseID s).2 := by
  unfold processCourse CourseProcessed CourseLoads
  cases hid : env.Atoi courseID with
  | none =>
    refine ⟨fun course ⟨id, h, _⟩ => by simp at h,
      fun _ => ⟨rfl, Event.logError (Msg.invalidCourseID courseID), rfl, rfl⟩⟩
  | some id =>
    simp only []
    rcases hc : env.CourseInfo id s with ⟨res, s1⟩
    rcases res with r | e | course
    · refine ⟨fun course ⟨id', h, h', _⟩ => ?_,
        fun _ => ⟨rfl, Event.logError (Msg.coursePanic courseID r), rfl, rfl⟩⟩
      cases h
      rw [hc] at h'
      cases h'
    · refine ⟨fun course ⟨id', h, h', _⟩ => ?_,
        fun _ => ⟨rfl, Event.logError (Msg.courseInfoFailed courseID e), rfl, rfl⟩⟩
      cases h
      rw [hc] at h'
      cases h'
    · simp only []
      by_cases hv : course.IsVideo = true
      · rw [if_pos hv]
        refine ⟨fun course' ⟨id', h, h', hv', _⟩ => ?_,
          fun _ => ⟨rfl, Event.logError (Msg.videoCourseSkipped course.Title), rfl, rfl⟩⟩
        cases h
        rw [hc] at h'
        cases h'
        rw [hv] at hv'
        cases hv'
      · rw [if_neg hv]
        have hev := mkDownloadProjectDir_events env g.downloadFolder "" cfg.GCID course.Title s1
        rcases hm : mkDownloadProjectDir env g.downloadFolder "" cfg.GCID course.Title s1 with
          ⟨⟨pdfDir, mdDir, err⟩, s2, ev2⟩
        rw [hm] at hev
        have hd2 : ev2.filterMap Event.dispatched = [] :=
          filterMap_dispatched_eq_nil ev2 (fun e he => (hev e he).2)
        cases err with
        | some err =>
          refine ⟨fun course' ⟨id', h, h', _, hm'⟩ => ?_,
            fun _ => ⟨?_, Event.logError (Msg.mkdirFailed err), ?_, rfl⟩⟩
          · cases h
            rw [hc] at h' hm'
            cases h'
            rw [hm] at hm'
            cases hm'
          · simp [List.filterMap_append, hd2, Event.dispatched]
          · have e : ∀ (l₁ l₂ : List Event) (x y : Event),
                (l₁ ++ l₂ ++ [x, y]).getLast? = some y := by
              intro l₁ l₂ x y
              rw [show l₁ ++ l₂ ++ [x, y] = (l₁ ++ l₂ ++ [x]) ++ [y] by simp]
              exact List.getLast?_concat _
            exact e _ _ _ _
        | none =>
          constructor
          · intro course' ⟨id', h, h', _, _⟩
            cases h
            rw [hc] at h'
            cases h'
            obtain ⟨ks, hks₁, hks₂, hks⟩ := downloadArticles_dispatched env g cookies pdfDir
              mdDir course.Articles.length course.Articles 0 s2
            refine ⟨⟨ks, hks₁, hks₂, ?_⟩, ?_, ?_⟩
            · simp [List.filterMap_append, hd2, hks, Event.dispatched]
            · intro e he
              simp only [List.append_assoc, List.mem_append, List.mem_cons, List.mem_singleton,
                List.not_mem_nil, or_false] at he
              rcases he with (rfl | rfl) | he | rfl | he | rfl
              · rfl
              · rfl
              · exact (hev e he).1
              · rfl
              · exact downloadArticles_no_courseFailure env g cookies pdfDir mdDir
                  course.Articles.length course.Articles 0 s2 e he
              · rfl
            · have e : ∀ (l₁ l₂ l₃ l₄ : List Event) (x : Event),
                  (l₁ ++ l₂ ++ l₃ ++ l₄ ++ [x]).getLast? = some x := by
                intro l₁ l₂ l₃ l₄ x
                exact List.getLast?_concat _
              exact e _ _ _ _ _
          · intro hno
            exfalso
            refine hno course ⟨id, rfl, by rw [hc], by simpa using hv, ?_⟩
            rw [hc]
            simp only []
            rw [hm]

theorem coursePasses_ids {σ : Type} (env : Env σ) (g : Globals) (cfg : Config)
    (cookies : List Cookie) :
    ∀ (ids : List String) (s : σ), (coursePasses env g cfg cookies ids s).map Prod.fst = ids := by
  intro ids
  induction ids with
  | nil => intro s; rfl
  | cons courseID rest ih =>
    intro s
    rw [coursePasses, List.map_cons, ih]

theorem courseLoop_passes {σ : Type} (env : Env σ) (g : Globals) (cfg : Config)
    (cookies : List Cookie) :
    ∀ (ids : List String) (s : σ),
      (courseLoop env g cfg cookies ids s).2 =
        ((coursePasses env g cfg cookies ids s).map (fun p =>
          (processCourse env g cfg cookies p.1 p.2).2 ++ [Event.sleep (second * 3)])).flatten := by
  intro ids
  induction ids with
  | nil => intro s; simp [courseLoop, coursePasses]
  | cons courseID rest ih =>
    intro s
    rw [courseLoop, coursePasses]
    simp only [List.map_cons, List.flatten_cons, ← ih]

theorem runBatch_exit_or {σ : Type} (env : Env σ) (g : Globals) (cfg : Config) (s : σ) :
    (runBatch env g cfg s).1 = Exit.returned ∨
      List.countP Event.isDispatch (runBatch env g cfg s).2.2 = 0 := by
  unfold runBatch
  simp only []
  rcases env.Auth (readCookiesFromConfig (env.Now s) cfg) s with ⟨_ | err, s1⟩
  · left
    simp [runCourses]
  · simp only []
    rcases env.Auth (rebuiltCookies cfg) s1 with ⟨_ | err2, s2⟩
    · left
      simp [runCourses]
    · right
      simp [Event.isDispatch]

/-- C4. After the login, whatever the collaborators do in any dispatch (errors, panics, on
any attempt of any article), `rootCmd.Run` returns without the exit path.  Its events are
the login line, then one pass per configured course identifier, in order, each followed by
the pause between courses, then the final summary.  In each pass, from whatever state it
starts: when the collaborators load the course, every article of the course is dispatched,
in order, between 1 and 5 times, whatever the earlier dispatches did, and no line giving
the course up is logged; only a course that the collaborators do not load is given up, and
then before anything is dispatched.  The exit path is only taken when nothing was
dispatched at all. -/
theorem C4_fault_isolation {σ : Type} (env : Env σ) (g : Globals) (cfg : Config)
    (cookies : List Cookie) (s : σ) :
    (runCourses env g cfg cookies s).1 = Exit.returned ∧
    (coursePasses env g cfg cookies cfg.CourseIDs s).map Prod.fst = cfg.CourseIDs ∧
    (runCourses env g cfg cookies s).2.2 =
      Event.printf Msg.loginOK ::
        (((coursePasses env g cfg cookies cfg.CourseIDs s).map (fun p =>
            (processCourse env g cfg cookies p.1 p.2).2 ++
              [Event.sleep (second * 3)])).flatten ++
          [Event.printf Msg.allDone]) ∧
    (∀ (courseID : String) (s1 : σ),
      CourseProcessed env g cfg courseID s1 (processCourse env g cfg cookies courseID s1).2) ∧
    ((runBatch env g cfg s).1 = Exit.returned ∨
      List.countP Event.isDispatch (runBatch env g cfg s).2.2 = 0) := by
  refine ⟨by simp [runCourses], coursePasses_ids env g cfg cookies cfg.CourseIDs s, ?_,
    fun courseID s1 => processCourse_processed env g cfg cookies courseID s1,
    runBatch_exit_or env g cfg s⟩
  simp [runCourses, courseLoop_passes env g cfg cookies cfg.CourseIDs s]

/-! ### `getVideoURLFromArticleContent` in document order -/

theorem scanAttrs_eq (hasVideo : Bool) (attr : List Attribute) (videoURL : String) :
    scanAttrs hasVideo attr videoURL =
      if hasVideo = true then (mp4Src attr).getD videoURL else videoURL := by
  induction attr with
  | nil => simp [scanAttrs, mp4Src]
  | cons a rest ih =>
    unfold scanAttrs mp4Src
    cases hasVideo
    · simpa using ih
    · by_cases h : a.Key = "src" ∧ hasSuffix a.Val ".mp4" = true
      · simp [h]
      · have h' : ¬ (a.Key = "src" ∧ true = true ∧ hasSuffix a.Val ".mp4" = true) := by
          simpa using h
        rw [if_neg h', if_neg h]
        simpa using ih

mutual
theorem f_eq_foldl : ∀ (n : Node) (st : Bool × String),
    getVideoURLFromArticleContent.f n st = (Node.preorder n).foldl visitNode st
  | Node.mk type data attr children, st => by
    rw [getVideoURLFromArticleContent.f, Node.preorder, List.foldl_cons,
      fChildren_eq_foldl children]
    congr 1
    unfold visitNode Node.isVideo Node.mp4Source
    by_cases hv : type = NodeType.ElementNode ∧ data = "video"
    · have hs : ¬ (type = NodeType.ElementNode ∧ data = "source") := by
        rintro ⟨_, h⟩
        rw [hv.2] at h
        exact absurd h (by decide)
      simp [hv, hs]
    · by_cases hs : type = NodeType.ElementNode ∧ data = "source"
      · simp [hv, hs, scanAttrs_eq]
      · simp [hv, hs]
theorem fChildren_eq_foldl : ∀ (children : List Node) (st : Bool × String),
    getVideoURLFromArticleContent.fChildren children st =
      (Node.preorderAll children).foldl visitNode st
  | [], st => by simp [getVideoURLFromArticleContent.fChildren, Node.preorderAll]
  | c :: rest, st => by
    rw [getVideoURLFromArticleContent.fChildren, Node.preorderAll, List.foldl_append,
      f_eq_foldl c, fChildren_eq_foldl rest]
end

theorem getLast?_getD_cons (x : String) (l : List String) (url : String) :
    (x :: l).getLast?.getD url = l.getLast?.getD x := by
  cases l with
  | nil => simp
  | cons y l =>
    rw [List.getLast?_cons_cons]
    cases h : (y :: l).getLast? with
    | none => simp at h
    | some z => simp

theorem foldl_visitNode (l : List Node) : ∀ (hasVideo : Bool) (videoURL : String),
    l.foldl visitNode (hasVideo, videoURL) =
      ((hasVideo || l.any Node.isVideo),
        (((if hasVideo = true then l else l.dropWhile (fun n => !n.isVideo)).filterMap
          Node.mp4Source).getLast?).getD videoURL) := by
  induction l with
  | nil => intro hasVideo videoURL; simp
  | cons n l ih =>
    intro hasVideo videoURL
    rw [List.foldl_cons, visitNode, ih]
    cases hasVideo
    · cases hn : n.isVideo
      · simp [hn, List.dropWhile_cons]
      · cases hs : n.mp4Source with
        | none => simp [hn, hs, List.dropWhile_cons, List.filterMap_cons]
        | some x => simp [hn, hs, List.dropWhile_cons, List.filterMap_cons, getLast?_getD_cons]
    · cases hs : n.mp4Source with
      | none => simp [hs, List.filterMap_cons]
      | some x => simp [hs, List.filterMap_cons, getLast?_getD_cons]

theorem f_eq_candidates (doc : Node) :
    getVideoURLFromArticleContent.f doc (false, "") =
      ((Node.preorder doc).any Node.isVideo, (candidates doc).getLast?.getD "") := by
  rw [f_eq_foldl, foldl_visitNode]
  simp [candidates]

theorem getVideoURLFromArticleContent_eq (parse : String → Option Node) (content : String)
    (doc : Node) (h₁ : strContains content "<video" = true)
    (h₂ : strContains content "<source" = true) (h₃ : parse content = some doc) :
    getVideoURLFromArticleContent parse content =
      ((Node.preorder doc).any Node.isVideo, (candidates doc).getLast?.getD "") := by
  unfold getVideoURLFromArticleContent
  simp [h₁, h₂, h₃, f_eq_candidates]

theorem dropWhile_not_isVideo_of_any_false (l : List Node) (h : l.any Node.isVideo = false) :
    l.dropWhile (fun n => !n.isVideo) = [] := by
  induction l with
  | nil => rfl
  | cons n l ih =>
    simp only [List.any_cons, Bool.or_eq_false_iff] at h
    simp [List.dropWhile_cons, h.1, ih h.2]

theorem any_isVideo_of_candidates (doc : Node) (us : List String) (u : String)
    (h : candidates doc = us ++ [u]) : (Node.preorder doc).any Node.isVideo = true := by
  cases hv : (Node.preorder doc).any Node.isVideo
  · have := dropWhile_not_isVideo_of_any_false _ hv
    unfold candidates at h
    rw [this] at h
    simp at h
  · rfl

/-- C6, as the claim states it, fails: in a body whose video element has two nested
sources, both with a `src` ending in `.mp4`, the function returns the URL of the second
one, not of the first. -/
theorem C6_second_of_two_sources :
    candidates twoMp4Doc = ["a.mp4", "b.mp4"] ∧
    getVideoURLFromArticleContent (worldEnv platformTwoMp4).Parse twoMp4Body =
      (true, "b.mp4") := by
  decide

/-- C6, amended. For a body that passes the textual pre-check and parses to `doc`,
`getVideoURLFromArticleContent` returns the URL of the last source element, in document
order, among those that have a `src` ending in `.mp4` and come after the first video
element (every such source under a video element is one of them): when there are two or
more, the earlier ones are overwritten and the last one wins. -/
theorem C6_last_source_wins (parse : String → Option Node) (content : String) (doc : Node)
    (h₁ : strContains content "<video" = true) (h₂ : strContains content "<source" = true)
    (h₃ : parse content = some doc) :
    getVideoURLFromArticleContent parse content =
      ((Node.preorder doc).any Node.isVideo, (candidates doc).getLast?.getD "") ∧
    ∀ (us : List String) (u : String), candidates doc = us ++ [u] →
      getVideoURLFromArticleContent parse content = (true, u) := by
  refine ⟨getVideoURLFromArticleContent_eq parse content doc h₁ h₂ h₃, ?_⟩
  intro us u hu
  rw [getVideoURLFromArticleContent_eq parse content doc h₁ h₂ h₃,
    any_isVideo_of_candidates doc us u hu, hu]
  simp

/-- C6, amended, at a concrete input: two qualifying sources under one video element. -/
theorem C6_last_source_wins_witness :
    strContains twoMp4Body "<video" = true ∧ strContains twoMp4Body "<source" = true ∧
    (worldEnv platformTwoMp4).Parse twoMp4Body = some twoMp4Doc ∧
    candidates twoMp4Doc = ["a.mp4"] ++ ["b.mp4"] ∧
    getVideoURLFromArticleContent (worldEnv platformTwoMp4).Parse twoMp4Body = (true, "b.mp4") :=
  ⟨by decide, by decide, by rfl, by decide,
    (C6_last_source_wins (worldEnv platformTwoMp4).Parse twoMp4Body twoMp4Doc (by decide)
      (by decide) (by rfl)).2 ["a.mp4"] "b.mp4" (by decide)⟩

theorem filterMap_mp4Source_eq_nil (l : List Node) (h : ∀ n ∈ l, n.mp4Source = none) :
    l.filterMap Node.mp4Source = [] := by
  induction l with
  | nil => rfl
  | cons n l ih =>
    rw [List.filterMap_cons, h n (List.mem_cons_self n l)]
    exact ih (fun m hm => h m (List.mem_cons_of_mem n hm))

theorem candidates_after_video (pre tail : List Node) (v : Node) (hv : v.isVideo = true)
    (hpre : ∀ n ∈ pre, n.mp4Source = none) :
    ((pre ++ v :: tail).dropWhile (fun n => !n.isVideo)).filterMap Node.mp4Source =
      (v :: tail).filterMap Node.mp4Source := by
  induction pre with
  | nil => simp [List.dropWhile_cons, hv]
  | cons n pre ih =>
    have hn := hpre n (List.mem_cons_self n pre)
    have hrest : ∀ m ∈ pre, m.mp4Source = none := fun m hm => hpre m (List.mem_cons_of_mem n hm)
    cases hnv : n.isVideo
    · simpa [List.dropWhile_cons, hnv] using ih hrest
    · simp only [List.cons_append, List.dropWhile_cons, hnv, Bool.not_true]
      simp only [Bool.false_eq_true, if_false]
      rw [List.filterMap_cons, hn, List.filterMap_append, filterMap_mp4Source_eq_nil pre hrest,
        List.nil_append]

theorem hasSuffix_of_mp4Src (attr : List Attribute) (u : String) (h : mp4Src attr = some u) :
    hasSuffix u ".mp4" = true := by
  induction attr with
  | nil => simp [mp4Src] at h
  | cons a rest ih =>
    unfold mp4Src at h
    by_cases hc : a.Key = "src" ∧ hasSuffix a.Val ".mp4" = true
    · rw [if_pos hc] at h
      cases h
      exact hc.2
    · rw [if_neg hc] at h
      exact ih h

theorem ne_empty_of_mp4Src (attr : List Attribute) (u : String) (h : mp4Src attr = some u) :
    u ≠ "" := by
  intro hu
  have := hasSuffix_of_mp4Src attr u h
  rw [hu] at this
  exact absurd this (by decide)

theorem candidates_of_two_sources (doc : Node) (pre post : List Node)
    (vattr a₁ a₂ : List Attribute) (u : String)
    (hdoc : Node.preorder doc =
      pre ++ Node.mk NodeType.ElementNode "video" vattr
          [Node.mk NodeType.ElementNode "source" a₁ [],
            Node.mk NodeType.ElementNode "source" a₂ []] ::
        Node.mk NodeType.ElementNode "source" a₁ [] ::
        Node.mk NodeType.ElementNode "source" a₂ [] :: post)
    (hfirst : mp4Src a₁ = none) (hsecond : mp4Src a₂ = some u)
    (hother : ∀ n ∈ pre ++ post, n.mp4Source = none) :
    candidates doc = [] ++ [u] := by
  unfold candidates
  rw [hdoc, candidates_after_video pre _ _ (by simp [Node.isVideo])
    (fun n hn => hother n (List.mem_append_left post hn))]
  have hp := filterMap_mp4Source_eq_nil post
    (fun n hn => hother n (List.mem_append_right pre hn))
  simp [List.filterMap_cons, Node.mp4Source, hfirst, hsecond, hp]

theorem downloadTextArticle_inline_video {σ : Type} (env : Env σ) (g : Globals)
    (cookies : List Cookie) (article : Article) (pdfDir mdDir : String) (overwrite : Bool)
    (s s1 : σ) (info : ArticleInfo) (u : String)
    (hinfo : env.V1ArticleInfo article.AID s = (Res.ok info, s1))
    (hurl : getVideoURLFromArticleContent env.Parse info.ArticleContent = (true, u))
    (hu : u ≠ "") :
    ∃ rest, (downloadTextArticle env g cookies article pdfDir mdDir overwrite s).2.2 =
      Call.V1ArticleInfo article.AID (Res.ok info) ::
        Call.DownloadMP4 article.Title pdfDir [u] overwrite
          (env.DownloadMP4 article.Title pdfDir [u] overwrite s1).1 :: rest := by
  unfold downloadTextArticle
  rw [hinfo]
  simp only [after]
  unfold videoStage
  rw [hurl]
  simp only []
  rw [if_pos ⟨trivial, hu⟩]
  exact ⟨_, rfl⟩

theorem mp4Source_of_not_isSource (n : Node) (h : n.isSource = false) : n.mp4Source = none := by
  rcases n with ⟨type, data, attr, children⟩
  have hs : ¬(type = NodeType.ElementNode ∧ data = "source") := by
    simpa [Node.isSource] using h
  simp only [Node.mp4Source, if_neg hs]

theorem filterMap_mp4Source_filter (l : List Node) :
    (l.filter Node.isSource).filterMap Node.mp4Source = l.filterMap Node.mp4Source := by
  induction l with
  | nil => rfl
  | cons n l ih =>
    cases hn : n.isSource
    · rw [List.filter_cons_of_neg (by simp [hn]), List.filterMap_cons,
        mp4Source_of_not_isSource n hn, ih]
    · rw [List.filter_cons_of_pos (by simp [hn]), List.filterMap_cons, List.filterMap_cons, ih]

theorem dropWhile_to_video (pre tail : List Node) (v : Node) (hv : v.isVideo = true) :
    ∃ kept, (pre ++ v :: tail).dropWhile (fun n => !n.isVideo) = kept ++ v :: tail := by
  induction pre with
  | nil => exact ⟨[], by simp [List.dropWhile_cons, hv]⟩
  | cons n pre ih =>
    cases hnv : n.isVideo
    · obtain ⟨kept, hk⟩ := ih
      exact ⟨kept, by simpa [List.dropWhile_cons, hnv] using hk⟩
    · exact ⟨n :: pre, by simp [List.dropWhile_cons, hnv]⟩

theorem candidates_of_nested_sources (doc : Node) (pre post : List Node)
    (vattr : List Attribute) (children : List Node) (s₁ s₂ : Node) (u : String)
    (hdoc : Node.preorder doc =
      pre ++ Node.preorder (Node.mk NodeType.ElementNode "video" vattr children) ++ post)
    (hnested : (Node.preorderAll children).filter Node.isSource = [s₁, s₂])
    (hfirst : s₁.mp4Source = none) (hsecond : s₂.mp4Source = some u)
    (hlater : ∀ n ∈ post, n.mp4Source = none) :
    ∃ us, candidates doc = us ++ [u] := by
  have hin : (Node.preorderAll children).filterMap Node.mp4Source = [u] := by
    rw [← filterMap_mp4Source_filter, hnested]
    simp [List.filterMap_cons, hfirst, hsecond]
  obtain ⟨kept, hk⟩ := dropWhile_to_video pre (Node.preorderAll children ++ post)
    (Node.mk NodeType.ElementNode "video" vattr children) (by simp [Node.isVideo])
  refine ⟨kept.filterMap Node.mp4Source, ?_⟩
  unfold candidates
  rw [hdoc, Node.preorder, List.append_assoc, List.cons_append, hk, List.filterMap_append,
    List.filterMap_cons, List.filterMap_append, hin, filterMap_mp4Source_eq_nil post hlater]
  simp [Node.mp4Source]

/-- C7, as the claim states it, fails: the first video element of the body has two nested
sources, of which only the second, `b.mp4`, has a `src` ending in `.mp4`; a second video
element with the source `c.mp4` follows.  `getVideoURLFromArticleContent` returns `c.mp4`,
and the one URL `downloadTextArticle` passes to the video fetcher is `c.mp4`. -/
theorem C7_source_of_later_video :
    (Node.preorder laterVideoDoc)[4]? =
      some (Node.mk NodeType.ElementNode "video" [] laterVideoSources) ∧
    laterVideoSources.map Node.isSource = [true, true] ∧
    laterVideoSources.map Node.mp4Source = [none, some "b.mp4"] ∧
    getVideoURLFromArticleContent (worldEnv platformLaterVideo).Parse laterVideoBody =
      (true, "c.mp4") ∧
    (downloadTextArticle (worldEnv platformLaterVideo) initGlobals [] article1 "pdf" "md" false
        emptyWorld).2.2.filter Call.isVideo =
      [Call.DownloadMP4 "a" "pdf" ["c.mp4"] false (Res.ok ())] :=
  ⟨by rfl, by decide, by decide, by decide, by decide⟩

/-- C7, amended. For an article whose body passes the textual pre-check and, parsed, has a
video element among whose descendants there are two source elements, the first without a
`src` ending in `.mp4` and the second with the `src` `u` ending in `.mp4`, and in which no
source element after that video element, in document order, has a `src` ending in `.mp4`:
`getVideoURLFromArticleContent` returns `(true, u)`, and `downloadTextArticle`, right
after fetching the article data, calls the video fetcher with the single URL `u`.  What
comes before the video element, and what else stands between its sources, does not
matter. -/
theorem C7_second_source_fetched {σ : Type} (env : Env σ) (g : Globals)
    (cookies : List Cookie) (article : Article) (pdfDir mdDir : String) (overwrite : Bool)
    (s s1 : σ) (info : ArticleInfo) (doc : Node) (pre post : List Node)
    (vattr : List Attribute) (children : List Node) (s₁ s₂ : Node) (u : String)
    (hinfo : env.V1ArticleInfo article.AID s = (Res.ok info, s1))
    (h₁ : strContains info.ArticleContent "<video" = true)
    (h₂ : strContains info.ArticleContent "<source" = true)
    (h₃ : env.Parse info.ArticleContent = some doc)
    (hdoc : Node.preorder doc =
      pre ++ Node.preorder (Node.mk NodeType.ElementNode "video" vattr children) ++ post)
    (hnested : (Node.preorderAll children).filter Node.isSource = [s₁, s₂])
    (hfirst : s₁.mp4Source = none) (hsecond : s₂.mp4Source = some u)
    (hlater : ∀ n ∈ post, n.mp4Source = none) :
    getVideoURLFromArticleContent env.Parse info.ArticleContent = (true, u) ∧
    ∃ rest, (downloadTextArticle env g cookies article pdfDir mdDir overwrite s).2.2 =
      Call.V1ArticleInfo article.AID (Res.ok info) ::
        Call.DownloadMP4 article.Title pdfDir [u] overwrite
          (env.DownloadMP4 article.Title pdfDir [u] overwrite s1).1 :: rest := by
  obtain ⟨us, hc⟩ := candidates_of_nested_sources doc pre post vattr children s₁ s₂ u hdoc
    hnested hfirst hsecond hlater
  have hurl : getVideoURLFromArticleContent env.Parse info.ArticleContent = (true, u) := by
    rw [getVideoURLFromArticleContent_eq env.Parse info.ArticleContent doc h₁ h₂ h₃,
      any_isVideo_of_candidates doc us u hc, hc]
    simp
  have hu : u ≠ "" := by
    rcases s₂ with ⟨type, data, attr, ch⟩
    by_cases hs : type = NodeType.ElementNode ∧ data = "source"
    · simp only [Node.mp4Source, if_pos hs] at hsecond
      exact ne_empty_of_mp4Src attr u hsecond
    · simp only [Node.mp4Source, if_neg hs] at hsecond
      cases hsecond
  exact ⟨hurl, downloadTextArticle_inline_video env g cookies article pdfDir mdDir overwrite
    s s1 info u hinfo hurl hu⟩

/-- C7, amended, at a concrete input: after a first video element, a second one whose
sources `a.m3u8` and `b.mp4` stand on lines of their own; the video fetcher is called with
`b.mp4` alone. -/
theorem C7_second_source_fetched_witness :
    getVideoURLFromArticleContent (worldEnv platformMixed).Parse mixedBody = (true, "b.mp4") ∧
    ∃ rest, (downloadTextArticle (worldEnv platformMixed) initGlobals [] article1 "pdf" "md"
        false emptyWorld).2.2 =
      Call.V1ArticleInfo 1 (Res.ok { ArticleContent := mixedBody, InlineVideoSubtitles := [] }) ::
        Call.DownloadMP4 "a" "pdf" ["b.mp4"] false
          ((worldEnv platformMixed).DownloadMP4 "a" "pdf" ["b.mp4"] false emptyWorld).1 :: rest :=
  C7_second_source_fetched (worldEnv platformMixed) initGlobals [] article1 "pdf" "md" false
    emptyWorld emptyWorld { ArticleContent := mixedBody, InlineVideoSubtitles := [] } mixedDoc
    mixedBefore [] [{ Namespace := "", Key := "poster", Val := "p.jpg" }] mixedChildren
    mixedFirst mixedSecond "b.mp4" (by rfl) (by decide) (by decide) (by rfl) (by rfl) (by rfl)
    (by decide) (by decide) (by simp)

/-! ### The modelled collaborators: growth of the disk, and calls that write nothing -/

theorem World.Sub.self (w : World) : World.Sub w w := ⟨fun _ h => h, fun _ h => h⟩

theorem World.Sub.next {w₁ w₂ w₃ : World} (h₁ : World.Sub w₁ w₂) (h₂ : World.Sub w₂ w₃) :
    World.Sub w₁ w₃ :=
  ⟨fun _ h => h₂.1 (h₁.1 h), fun _ h => h₂.2 (h₁.2 h)⟩

theorem World.Same.refl (w : World) : World.Same w w := ⟨rfl, rfl, rfl⟩

theorem World.Same.trans {w₁ w₂ w₃ : World} (h₁ : World.Same w₁ w₂) (h₂ : World.Same w₂ w₃) :
    World.Same w₁ w₃ :=
  ⟨h₂.1.trans h₁.1, h₂.2.1.trans h₁.2.1, h₂.2.2.trans h₁.2.2⟩

theorem World.fault_same (w : World) : World.Same w w.fault.2 := by
  unfold World.fault
  cases w.faults <;> exact ⟨rfl, rfl, rfl⟩

theorem World.fault_sub (w : World) : World.Sub w w.fault.2 := by
  have h := World.fault_same w
  exact ⟨fun _ hx => h.1 ▸ hx, fun _ hx => h.2.1 ▸ hx⟩

theorem World.fault_noFault (w : World) (h : w.NoFault) :
    w.fault.1 = false ∧ w.fault.2.NoFault := by
  unfold World.fault
  unfold World.NoFault at h
  cases hf : w.faults with
  | nil => exact ⟨rfl, by simp [World.NoFault, hf]⟩
  | cons b rest =>
    rw [hf] at h
    exact ⟨h b (List.mem_cons_self b rest), fun c hc => h c (List.mem_cons_of_mem b hc)⟩

theorem World.write_sub (w : World) (path : String) : World.Sub w (w.write path) :=
  ⟨fun _ h => List.mem_cons_of_mem path h, fun _ h => h⟩

theorem World.mem_write (w : World) (path : String) : path ∈ (w.write path).files :=
  List.mem_cons_self path w.files

theorem World.DownloadMP4_sub (title dir : String) (overwrite : Bool) (urls : List String) :
    ∀ w : World, World.Sub w (World.DownloadMP4 title dir overwrite urls w).2 := by
  induction urls with
  | nil => intro w; exact World.Sub.self w
  | cons url rest ih =>
    intro w
    unfold World.DownloadMP4
    split
    · exact ih w
    · rcases hf : w.fault with ⟨b, w1⟩
      have hs : World.Sub w w1 := by
        have := World.fault_sub w
        rwa [hf] at this
      cases b
      · exact hs.next ((World.write_sub w1 _).next (ih _))
      · exact hs

theorem World.DownloadMP4_present (title dir : String) (overwrite : Bool) (urls : List String) :
    ∀ (w : World) (v : Unit), (World.DownloadMP4 title dir overwrite urls w).1 = Res.ok v →
      ∀ url ∈ urls, videoTarget dir title url ∈ (World.DownloadMP4 title dir overwrite urls w).2.files := by
  induction urls with
  | nil => intro w v _ url hu; simp at hu
  | cons u rest ih =>
    intro w v h url hu
    unfold World.DownloadMP4 at h ⊢
    by_cases hc : videoTarget dir title u ∈ w.files ∧ overwrite = false
    · rw [if_pos hc] at h ⊢
      rcases List.mem_cons.1 hu with rfl | hu
      · exact (World.DownloadMP4_sub title dir overwrite rest w).1 hc.1
      · exact ih w v h url hu
    · rw [if_neg hc] at h ⊢
      rcases hf : w.fault with ⟨b, w1⟩
      rw [hf] at h
      cases b
      · simp only [] at h ⊢
        rcases List.mem_cons.1 hu with rfl | hu
        · exact (World.DownloadMP4_sub title dir overwrite rest _).1 (World.mem_write w1 _)
        · exact ih _ v h url hu
      · simp at h

theorem World.DownloadMP4_quiet (title dir : String) (urls : List String) (w : World)
    (h : ∀ url ∈ urls, videoTarget dir title url ∈ w.files) :
    World.DownloadMP4 title dir false urls w = (Res.ok (), w) := by
  induction urls with
  | nil => rfl
  | cons u rest ih =>
    unfold World.DownloadMP4
    rw [if_pos ⟨h u (List.mem_cons_self u rest), rfl⟩]
    exact ih (fun url hu => h url (List.mem_cons_of_mem u hu))

theorem World.PrintArticlePageToPDF_sub (dir title : String) (overwrite : Bool) (w : World) :
    World.Sub w (World.PrintArticlePageToPDF dir title overwrite w).2 := by
  unfold World.PrintArticlePageToPDF
  split
  · exact World.Sub.self w
  · rcases hf : w.fault with ⟨b, w1⟩
    have hs : World.Sub w w1 := by
      have := World.fault_sub w
      rwa [hf] at this
    cases b
    · exact hs.next (World.write_sub w1 _)
    · exact hs

theorem World.PrintArticlePageToPDF_skipped (dir title : String) (overwrite : Bool) (w : World)
    (h : (World.PrintArticlePageToPDF dir title overwrite w).1 = Res.ok true) :
    pdfTarget dir title ∈ w.files := by
  unfold World.PrintArticlePageToPDF at h
  by_cases hc : pdfTarget dir title ∈ w.files ∧ overwrite = false
  · exact hc.1
  · rw [if_neg hc] at h
    rcases hf : w.fault with ⟨b, w1⟩
    rw [hf] at h
    cases b <;> simp at h

theorem World.PrintArticlePageToPDF_quiet (dir title : String) (w : World)
    (h : pdfTarget dir title ∈ w.files) :
    World.PrintArticlePageToPDF dir title false w = (Res.ok true, w) := by
  unfold World.PrintArticlePageToPDF
  rw [if_pos ⟨h, rfl⟩]

theorem World.MarkdownDownload_sub (title dir : String) (overwrite : Bool) (w : World) :
    World.Sub w (World.MarkdownDownload title dir overwrite w).2 := by
  unfold World.MarkdownDownload
  split
  · exact World.Sub.self w
  · rcases hf : w.fault with ⟨b, w1⟩
    have hs : World.Sub w w1 := by
      have := World.fault_sub w
      rwa [hf] at this
    cases b
    · exact hs.next (World.write_sub w1 _)
    · exact hs

theorem World.MarkdownDownload_skipped (title dir : String) (overwrite : Bool) (w : World)
    (h : (World.MarkdownDownload title dir overwrite w).1 = Res.ok true) :
    mdTarget dir title ∈ w.files := by
  unfold World.MarkdownDownload at h
  by_cases hc : mdTarget dir title ∈ w.files ∧ overwrite = false
  · exact hc.1
  · rw [if_neg hc] at h
    rcases hf : w.fault with ⟨b, w1⟩
    rw [hf] at h
    cases b <;> simp at h

theorem World.MarkdownDownload_quiet (title dir : String) (w : World)
    (h : mdTarget dir title ∈ w.files) :
    World.MarkdownDownload title dir false w = (Res.ok true, w) := by
  unfold World.MarkdownDownload
  rw [if_pos ⟨h, rfl⟩]

theorem World.V1ArticleInfo_sub (p : Platform) (aid : Int) (w : World) :
    World.Sub w (World.V1ArticleInfo p aid w).2 := by
  unfold World.V1ArticleInfo
  rcases hf : w.fault with ⟨b, w1⟩
  have hs : World.Sub w w1 := by
    have := World.fault_sub w
    rwa [hf] at this
  cases b
  · cases p.articles.lookup aid <;> exact hs
  · exact hs

theorem World.V1ArticleInfo_ok (p : Platform) (aid : Int) (w : World) (info : ArticleInfo)
    (h : (World.V1ArticleInfo p aid w).1 = Res.ok info) : p.articles.lookup aid = some info := by
  unfold World.V1ArticleInfo at h
  rcases hf : w.fault with ⟨b, w1⟩
  rw [hf] at h
  cases b
  · cases hl : p.articles.lookup aid with
    | none => rw [hl] at h; simp at h
    | some a => rw [hl] at h; simp at h; rw [h]
  · simp at h

theorem World.V1ArticleInfo_quiet (p : Platform) (aid : Int) (w : World) (info : ArticleInfo)
    (hl : p.articles.lookup aid = some info) (hn : w.NoFault) :
    World.V1ArticleInfo p aid w = (Res.ok info, w.fault.2) := by
  unfold World.V1ArticleInfo
  have := (World.fault_noFault w hn).1
  rcases hf : w.fault with ⟨b, w1⟩
  rw [hf] at this
  simp only [] at this
  subst this
  simp [hl]

theorem World.CourseInfo_sub (p : Platform) (id : Int) (w : World) :
    World.Sub w (World.CourseInfo p id w).2 := by
  unfold World.CourseInfo
  rcases hf : w.fault with ⟨b, w1⟩
  have hs : World.Sub w w1 := by
    have := World.fault_sub w
    rwa [hf] at this
  cases b
  · cases p.courses.lookup id <;> exact hs
  · exact hs

theorem World.CourseInfo_ok (p : Platform) (id : Int) (w : World) (course : Course)
    (h : (World.CourseInfo p id w).1 = Res.ok course) : p.courses.lookup id = some course := by
  unfold World.CourseInfo at h
  rcases hf : w.fault with ⟨b, w1⟩
  rw [hf] at h
  cases b
  · cases hl : p.courses.lookup id with
    | none => rw [hl] at h; simp at h
    | some a => rw [hl] at h; simp at h; rw [h]
  · simp at h

theorem World.CourseInfo_quiet (p : Platform) (id : Int) (w : World) (course : Course)
    (hl : p.courses.lookup id = some course) (hn : w.NoFault) :
    World.CourseInfo p id w = (Res.ok course, w.fault.2) := by
  unfold World.CourseInfo
  have := (World.fault_noFault w hn).1
  rcases hf : w.fault with ⟨b, w1⟩
  rw [hf] at this
  simp only [] at this
  subst this
  simp [hl]

theorem World.MkdirAll_sub (path : String) (w : World) :
    World.Sub w (World.MkdirAll path w).2 := by
  unfold World.MkdirAll
  split
  · exact World.Sub.self w
  · exact ⟨fun _ h => h, fun _ h => List.mem_cons_of_mem path h⟩

theorem World.MkdirAll_fst (path : String) (w : World) : (World.MkdirAll path w).1 = none := by
  unfold World.MkdirAll
  split <;> rfl

theorem World.MkdirAll_mem (path : String) (w : World) : path ∈ (World.MkdirAll path w).2.dirs := by
  unfold World.MkdirAll
  split
  · assumption
  · exact List.mem_cons_self path w.dirs

theorem World.MkdirAll_quiet (path : String) (w : World) (h : path ∈ w.dirs) :
    World.MkdirAll path w = (none, w) := by
  unfold World.MkdirAll
  rw [if_pos h]

theorem World.Intn_same (n : Nat) (w : World) :
    World.Same w (World.Intn n w).2 ∧ (World.Intn n w).2.faults = w.faults := by
  unfold World.Intn
  cases w.draws <;> exact ⟨⟨rfl, rfl, rfl⟩, rfl⟩

theorem worldEnv_MarkdownDownload (p : Platform) (content title dir : String) (aid : Int)
    (overwrite : Bool) (w : World) :
    (worldEnv p).MarkdownDownload content title dir aid overwrite w =
      World.MarkdownDownload title dir overwrite w := rfl

theorem worldEnv_PrintArticlePageToPDF (p : Platform) (aid : Int) (dir title : String)
    (cookies : List Cookie) (dc : Bool) (ws ts : Int) (overwrite : Bool) (w : World) :
    (worldEnv p).PrintArticlePageToPDF aid dir title cookies dc ws ts overwrite w =
      World.PrintArticlePageToPDF dir title overwrite w := rfl

theorem worldEnv_DownloadMP4 (p : Platform) (title dir : String) (urls : List String)
    (overwrite : Bool) (w : World) :
    (worldEnv p).DownloadMP4 title dir urls overwrite w =
      World.DownloadMP4 title dir overwrite urls w := rfl

theorem worldEnv_V1ArticleInfo (p : Platform) (aid : Int) (w : World) :
    (worldEnv p).V1ArticleInfo aid w = World.V1ArticleInfo p aid w := rfl

section WorldStages

variable (p : Platform) (g : Globals) (cookies : List Cookie) (info : ArticleInfo)
  (a : Article) (pdfDir mdDir : String)

theorem mdStage_world (sk0 : Bool) (w : World) :
    World.Sub w (mdStage (worldEnv p) g info a mdDir false sk0 w).2.1 ∧
    ((mdStage (worldEnv p) g info a mdDir false sk0 w).1.isSkip = true →
      sk0 = true ∧
      (needDownloadMD g = true →
        mdTarget mdDir a.Title ∈ (mdStage (worldEnv p) g info a mdDir false sk0 w).2.1.files)) := by
  unfold mdStage
  by_cases hm : needDownloadMD g = true
  · rw [if_pos hm, worldEnv_MarkdownDownload]
    have hsub := World.MarkdownDownload_sub a.Title mdDir false w
    have hsk := World.MarkdownDownload_skipped a.Title mdDir false w
    generalize World.MarkdownDownload a.Title mdDir false w = r at hsub hsk ⊢
    rcases r with ⟨res, w1⟩
    rcases res with r | e | v
    · exact ⟨hsub, by simp [after, Outcome.isSkip]⟩
    · exact ⟨hsub, by simp [after, Outcome.isSkip]⟩
    · refine ⟨hsub, ?_⟩
      cases v
      · simp [after, Outcome.isSkip]
      · cases sk0
        · simp [after, Outcome.isSkip]
        · intro _
          exact ⟨rfl, fun _ => hsub.1 (hsk rfl)⟩
  · rw [if_neg hm]
    refine ⟨World.Sub.self w, ?_⟩
    cases sk0
    · simp [Outcome.isSkip]
    · intro _
      exact ⟨rfl, fun h => absurd h hm⟩

theorem pdfStage_world (sk0 : Bool) (w : World) :
    World.Sub w (pdfStage (worldEnv p) g cookies info a pdfDir mdDir false sk0 w).2.1 ∧
    ((pdfStage (worldEnv p) g cookies info a pdfDir mdDir false sk0 w).1.isSkip = true →
      sk0 = true ∧
      (needDownloadPDF g = true →
        pdfTarget pdfDir a.Title ∈
          (pdfStage (worldEnv p) g cookies info a pdfDir mdDir false sk0 w).2.1.files) ∧
      (needDownloadMD g = true →
        mdTarget mdDir a.Title ∈
          (pdfStage (worldEnv p) g cookies info a pdfDir mdDir false sk0 w).2.1.files)) := by
  unfold pdfStage
  by_cases hp : needDownloadPDF g = true
  · rw [if_pos hp, worldEnv_PrintArticlePageToPDF]
    have hsub := World.PrintArticlePageToPDF_sub pdfDir a.Title false w
    have hsk := World.PrintArticlePageToPDF_skipped pdfDir a.Title false w
    generalize World.PrintArticlePageToPDF pdfDir a.Title false w = r at hsub hsk ⊢
    rcases r with ⟨res, w1⟩
    rcases res with r | e | v
    · exact ⟨hsub, by simp [after, Outcome.isSkip]⟩
    · exact ⟨hsub, by simp [after, Outcome.isSkip]⟩
    · simp only [after]
      obtain ⟨hm₁, hm₂⟩ := mdStage_world p g info a mdDir (if v = false then false else sk0) w1
      refine ⟨hsub.next hm₁, ?_⟩
      intro hs
      obtain ⟨h₁, h₂⟩ := hm₂ hs
      cases v
      · simp at h₁
      · simp only [Bool.true_eq_false, if_false] at h₁
        exact ⟨h₁, fun _ => hm₁.1 (hsub.1 (hsk rfl)), h₂⟩
  · rw [if_neg hp]
    obtain ⟨hm₁, hm₂⟩ := mdStage_world p g info a mdDir sk0 w
    exact ⟨hm₁, fun hs => ⟨(hm₂ hs).1, fun h => absurd h hp, (hm₂ hs).2⟩⟩

end WorldStages

section WorldStages2

variable (p : Platform) (g : Globals) (cookies : List Cookie) (info : ArticleInfo)
  (a : Article) (pdfDir mdDir : String)

theorem inlineVideoStage_world (sk0 : Bool) (w : World) :
    World.Sub w (inlineVideoStage (worldEnv p) g cookies info a pdfDir mdDir false sk0 w).2.1 ∧
    ((inlineVideoStage (worldEnv p) g cookies info a pdfDir mdDir false sk0 w).1.isSkip = true →
      sk0 = true ∧
      (∀ url ∈ info.InlineVideoSubtitles.map InlineVideoSubtitle.VideoURL,
        videoTarget pdfDir a.Title url ∈
          (inlineVideoStage (worldEnv p) g cookies info a pdfDir mdDir false sk0 w).2.1.files) ∧
      (needDownloadPDF g = true →
        pdfTarget pdfDir a.Title ∈
          (inlineVideoStage (worldEnv p) g cookies info a pdfDir mdDir false sk0 w).2.1.files) ∧
      (needDownloadMD g = true →
        mdTarget mdDir a.Title ∈
          (inlineVideoStage (worldEnv p) g cookies info a pdfDir mdDir false sk0 w).2.1.files)) := by
  unfold inlineVideoStage
  by_cases hv : info.InlineVideoSubtitles.length > 0
  · rw [if_pos hv, worldEnv_DownloadMP4]
    have hsub := World.DownloadMP4_sub a.Title pdfDir false
      (info.InlineVideoSubtitles.map InlineVideoSubtitle.VideoURL) w
    have hpr := World.DownloadMP4_present a.Title pdfDir false
      (info.InlineVideoSubtitles.map InlineVideoSubtitle.VideoURL) w
    generalize World.DownloadMP4 a.Title pdfDir false
      (info.InlineVideoSubtitles.map InlineVideoSubtitle.VideoURL) w = r at hsub hpr ⊢
    rcases r with ⟨res, w1⟩
    rcases res with r | e | v
    · exact ⟨hsub, by simp [after, Outcome.isSkip]⟩
    · exact ⟨hsub, by simp [after, Outcome.isSkip]⟩
    · simp only [after]
      obtain ⟨h₁, h₂⟩ := pdfStage_world p g cookies info a pdfDir mdDir sk0 w1
      refine ⟨hsub.next h₁, fun hs => ?_⟩
      obtain ⟨h₃, h₄, h₅⟩ := h₂ hs
      exact ⟨h₃, fun url hu => h₁.1 (hpr v rfl url hu), h₄, h₅⟩
  · rw [if_neg hv]
    obtain ⟨h₁, h₂⟩ := pdfStage_world p g cookies info a pdfDir mdDir sk0 w
    refine ⟨h₁, fun hs => ?_⟩
    obtain ⟨h₃, h₄, h₅⟩ := h₂ hs
    have hnil : info.InlineVideoSubtitles = [] := by
      cases hl : info.InlineVideoSubtitles with
      | nil => rfl
      | cons x l => rw [hl] at hv; simp at hv
    exact ⟨h₃, by simp [hnil], h₄, h₅⟩

theorem videoStage_world (sk0 : Bool) (w : World) :
    World.Sub w (videoStage (worldEnv p) g cookies info a pdfDir mdDir false sk0 w).2.1 ∧
    ((videoStage (worldEnv p) g cookies info a pdfDir mdDir false sk0 w).1.isSkip = true →
      sk0 = true ∧
      ((getVideoURLFromArticleContent (worldEnv p).Parse info.ArticleContent).1 = true ∧
          (getVideoURLFromArticleContent (worldEnv p).Parse info.ArticleContent).2 ≠ "" →
        videoTarget pdfDir a.Title
            (getVideoURLFromArticleContent (worldEnv p).Parse info.ArticleContent).2 ∈
          (videoStage (worldEnv p) g cookies info a pdfDir mdDir false sk0 w).2.1.files) ∧
      (∀ url ∈ info.InlineVideoSubtitles.map InlineVideoSubtitle.VideoURL,
        videoTarget pdfDir a.Title url ∈
          (videoStage (worldEnv p) g cookies info a pdfDir mdDir false sk0 w).2.1.files) ∧
      (needDownloadPDF g = true →
        pdfTarget pdfDir a.Title ∈
          (videoStage (worldEnv p) g cookies info a pdfDir mdDir false sk0 w).2.1.files) ∧
      (needDownloadMD g = true →
        mdTarget mdDir a.Title ∈
          (videoStage (worldEnv p) g cookies info a pdfDir mdDir false sk0 w).2.1.files)) := by
  unfold videoStage
  split
  rename_i hasVideo videoURL heq
  rw [heq]
  by_cases hv : hasVideo = true ∧ videoURL ≠ ""
  · rw [if_pos hv, worldEnv_DownloadMP4]
    have hsub := World.DownloadMP4_sub a.Title pdfDir false [videoURL] w
    have hpr := World.DownloadMP4_present a.Title pdfDir false [videoURL] w
    generalize World.DownloadMP4 a.Title pdfDir false [videoURL] w = r at hsub hpr ⊢
    rcases r with ⟨res, w1⟩
    rcases res with r | e | v
    · exact ⟨hsub, by simp [after, Outcome.isSkip]⟩
    · exact ⟨hsub, by simp [after, Outcome.isSkip]⟩
    · simp only [after]
      obtain ⟨h₁, h₂⟩ := inlineVideoStage_world p g cookies info a pdfDir mdDir sk0 w1
      refine ⟨hsub.next h₁, fun hs => ?_⟩
      obtain ⟨h₃, h₄, h₅, h₆⟩ := h₂ hs
      exact ⟨h₃, fun _ => h₁.1 (hpr v rfl videoURL (List.mem_singleton_self videoURL)),
        h₄, h₅, h₆⟩
  · rw [if_neg hv]
    obtain ⟨h₁, h₂⟩ := inlineVideoStage_world p g cookies info a pdfDir mdDir sk0 w
    refine ⟨h₁, fun hs => ?_⟩
    obtain ⟨h₃, h₄, h₅, h₆⟩ := h₂ hs
    exact ⟨h₃, fun h => absurd h hv, h₄, h₅, h₆⟩

end WorldStages2

theorem downloadTextArticle_world (p : Platform) (g : Globals) (cookies : List Cookie)
    (a : Article) (pdfDir mdDir : String) (w : World) :
    World.Sub w (downloadTextArticle (worldEnv p) g cookies a pdfDir mdDir false w).2.1 ∧
    ((downloadTextArticle (worldEnv p) g cookies a pdfDir mdDir false w).1.isSkip = true →
      ArticleReady p g pdfDir mdDir a
        (downloadTextArticle (worldEnv p) g cookies a pdfDir mdDir false w).2.1.files) := by
  unfold downloadTextArticle
  rw [worldEnv_V1ArticleInfo]
  have hsub := World.V1ArticleInfo_sub p a.AID w
  have hok := World.V1ArticleInfo_ok p a.AID w
  generalize World.V1ArticleInfo p a.AID w = r at hsub hok ⊢
  rcases r with ⟨res, w1⟩
  rcases res with r | e | info
  · exact ⟨hsub, by simp [after, Outcome.isSkip]⟩
  · exact ⟨hsub, by simp [after, Outcome.isSkip]⟩
  · simp only [after]
    obtain ⟨h₁, h₂⟩ := videoStage_world p g cookies info a pdfDir mdDir true w1
    refine ⟨hsub.next h₁, fun hs => ?_⟩
    obtain ⟨_, h₄, h₅, h₆, h₇⟩ := h₂ hs
    exact ⟨info, hok info rfl, h₄, h₅, h₆, h₇⟩

section QuietStages

variable (p : Platform) (g : Globals) (cookies : List Cookie) (info : ArticleInfo)
  (a : Article) (pdfDir mdDir : String)

theorem mdStage_quiet (sk0 : Bool) (w : World)
    (hmd : needDownloadMD g = true → mdTarget mdDir a.Title ∈ w.files) :
    (mdStage (worldEnv p) g info a mdDir false sk0 w).1 = Outcome.returned sk0 none ∧
    (mdStage (worldEnv p) g info a mdDir false sk0 w).2.1 = w := by
  unfold mdStage
  by_cases hm : needDownloadMD g = true
  · rw [if_pos hm, worldEnv_MarkdownDownload, World.MarkdownDownload_quiet a.Title mdDir w (hmd hm)]
    simp [after]
  · rw [if_neg hm]
    exact ⟨rfl, rfl⟩

theorem pdfStage_quiet (sk0 : Bool) (w : World)
    (hpdf : needDownloadPDF g = true → pdfTarget pdfDir a.Title ∈ w.files)
    (hmd : needDownloadMD g = true → mdTarget mdDir a.Title ∈ w.files) :
    (pdfStage (worldEnv p) g cookies info a pdfDir mdDir false sk0 w).1 =
      Outcome.returned sk0 none ∧
    (pdfStage (worldEnv p) g cookies info a pdfDir mdDir false sk0 w).2.1 = w := by
  unfold pdfStage
  by_cases hp : needDownloadPDF g = true
  · rw [if_pos hp, worldEnv_PrintArticlePageToPDF,
      World.PrintArticlePageToPDF_quiet pdfDir a.Title w (hpdf hp)]
    simpa [after] using mdStage_quiet p g info a mdDir sk0 w hmd
  · rw [if_neg hp]
    exact mdStage_quiet p g info a mdDir sk0 w hmd

theorem inlineVideoStage_quiet (sk0 : Bool) (w : World)
    (hin : ∀ url ∈ info.InlineVideoSubtitles.map InlineVideoSubtitle.VideoURL,
      videoTarget pdfDir a.Title url ∈ w.files)
    (hpdf : needDownloadPDF g = true → pdfTarget pdfDir a.Title ∈ w.files)
    (hmd : needDownloadMD g = true → mdTarget mdDir a.Title ∈ w.files) :
    (inlineVideoStage (worldEnv p) g cookies info a pdfDir mdDir false sk0 w).1 =
      Outcome.returned sk0 none ∧
    (inlineVideoStage (worldEnv p) g cookies info a pdfDir mdDir false sk0 w).2.1 = w := by
  unfold inlineVideoStage
  by_cases hv : info.InlineVideoSubtitles.length > 0
  · rw [if_pos hv, worldEnv_DownloadMP4, World.DownloadMP4_quiet a.Title pdfDir _ w hin]
    simpa [after] using pdfStage_quiet p g cookies info a pdfDir mdDir sk0 w hpdf hmd
  · rw [if_neg hv]
    exact pdfStage_quiet p g cookies info a pdfDir mdDir sk0 w hpdf hmd

theorem videoStage_quiet (sk0 : Bool) (w : World)
    (hvid : (getVideoURLFromArticleContent (worldEnv p).Parse info.ArticleContent).1 = true ∧
        (getVideoURLFromArticleContent (worldEnv p).Parse info.ArticleContent).2 ≠ "" →
      videoTarget pdfDir a.Title
        (getVideoURLFromArticleContent (worldEnv p).Parse info.ArticleContent).2 ∈ w.files)
    (hin : ∀ url ∈ info.InlineVideoSubtitles.map InlineVideoSubtitle.VideoURL,
      videoTarget pdfDir a.Title url ∈ w.files)
    (hpdf : needDownloadPDF g = true → pdfTarget pdfDir a.Title ∈ w.files)
    (hmd : needDownloadMD g = true → mdTarget mdDir a.Title ∈ w.files) :
    (videoStage (worldEnv p) g cookies info a pdfDir mdDir false sk0 w).1 =
      Outcome.returned sk0 none ∧
    (videoStage (worldEnv p) g cookies info a pdfDir mdDir false sk0 w).2.1 = w := by
  revert hvid
  unfold videoStage
  split
  rename_i hasVideo videoURL heq
  rw [heq]
  intro hvid
  by_cases hv : hasVideo = true ∧ videoURL ≠ ""
  · rw [if_pos hv, worldEnv_DownloadMP4, World.DownloadMP4_quiet a.Title pdfDir [videoURL] w
      (by intro url hu; rw [List.mem_singleton.1 hu]; exact hvid hv)]
    simpa [after] using inlineVideoStage_quiet p g cookies info a pdfDir mdDir sk0 w hin hpdf hmd
  · rw [if_neg hv]
    exact inlineVideoStage_quiet p g cookies info a pdfDir mdDir sk0 w hin hpdf hmd

end QuietStages

theorem downloadTextArticle_quiet (p : Platform) (g : Globals) (cookies : List Cookie)
    (a : Article) (pdfDir mdDir : String) (w : World)
    (hr : ArticleReady p g pdfDir mdDir a w.files) (hn : w.NoFault) :
    (downloadTextArticle (worldEnv p) g cookies a pdfDir mdDir false w).1 =
      Outcome.returned true none ∧
    (downloadTextArticle (worldEnv p) g cookies a pdfDir mdDir false w).2.1 = w.fault.2 := by
  obtain ⟨info, h₁, h₂, h₃, h₄, h₅⟩ := hr
  have hs := (World.fault_same w).1
  unfold downloadTextArticle
  rw [worldEnv_V1ArticleInfo, World.V1ArticleInfo_quiet p a.AID w info h₁ hn]
  simp only [after]
  exact videoStage_quiet p g cookies info a pdfDir mdDir true w.fault.2
    (by rw [hs]; exact h₂) (by rw [hs]; exact h₃) (by rw [hs]; exact h₄) (by rw [hs]; exact h₅)

/-! ### The first run: an article that is not given up has all its artifacts on disk -/

theorem ArticleReady.grow {p : Platform} {g : Globals} {pdfDir mdDir : String} {a : Article}
    {files files' : List String} (h : ArticleReady p g pdfDir mdDir a files)
    (hs : files ⊆ files') : ArticleReady p g pdfDir mdDir a files' := by
  obtain ⟨info, h₁, h₂, h₃, h₄, h₅⟩ := h
  exact ⟨info, h₁, fun hv => hs (h₂ hv), fun url hu => hs (h₃ url hu), fun hp => hs (h₄ hp),
    fun hm => hs (h₅ hm)⟩

theorem waitOrNot_world (p : Platform) (g : Globals) (c : Prop) [Decidable c] (w : World) :
    World.Same w (if c then waitRandomTime (worldEnv p) g w else (w, [])).1 ∧
    (if c then waitRandomTime (worldEnv p) g w else (w, [])).1.faults = w.faults := by
  split
  · exact World.Intn_same 2000 w
  · exact ⟨World.Same.refl w, rfl⟩

theorem World.Same.sub {w w' : World} (h : World.Same w w') : World.Sub w w' :=
  ⟨fun _ hx => h.1 ▸ hx, fun _ hx => h.2.1 ▸ hx⟩

theorem retryLoop_world (p : Platform) (g : Globals) (cookies : List Cookie) (a : Article)
    (pdfDir mdDir : String) (maxRetries : Nat) (fuel : Nat) : ∀ (retry : Nat) (w : World),
    World.Sub w
      (retryLoop (worldEnv p) g cookies a pdfDir mdDir maxRetries fuel retry false w).2.1 ∧
    ((retryLoop (worldEnv p) g cookies a pdfDir mdDir maxRetries fuel retry false w).1 = true →
      ArticleReady p g pdfDir mdDir a
        (retryLoop (worldEnv p) g cookies a pdfDir mdDir maxRetries fuel retry false w).2.1.files) := by
  induction fuel with
  | zero => intro retry w; exact ⟨World.Sub.self w, by simp [retryLoop]⟩
  | succ fuel ih =>
    intro retry w
    by_cases h : retry < maxRetries
    · rw [retryLoop_succ (worldEnv p) g cookies a pdfDir mdDir maxRetries fuel retry w h]
      obtain ⟨hd₁, hd₂⟩ := downloadTextArticle_world p g cookies a pdfDir mdDir w
      split
      · rename_i hs
        exact ⟨hd₁, fun _ => hd₂ hs⟩
      · obtain ⟨hw, _⟩ := waitOrNot_world p g (retry < maxRetries - 1)
          (downloadTextArticle (worldEnv p) g cookies a pdfDir mdDir false w).2.1
        obtain ⟨hi₁, hi₂⟩ := ih (retry + 1)
          (if retry < maxRetries - 1 then
            waitRandomTime (worldEnv p) g
              (downloadTextArticle (worldEnv p) g cookies a pdfDir mdDir false w).2.1
          else ((downloadTextArticle (worldEnv p) g cookies a pdfDir mdDir false w).2.1, [])).1
        exact ⟨hd₁.next (hw.sub.next hi₁), hi₂⟩
    · rw [retryLoop_stop (worldEnv p) g cookies a pdfDir mdDir maxRetries _ retry false w h]
      exact ⟨World.Sub.self w, by simp⟩

theorem downloadArticle_state {σ : Type} (env : Env σ) (g : Globals) (cookies : List Cookie)
    (pdfDir mdDir : String) (total : Nat) (article : Article) (count : Nat) (s : σ) :
    (downloadArticle env g cookies pdfDir mdDir total article count s).2.1 =
      (if count + 1 < total then
        waitRandomTime env g (retryLoop env g cookies article pdfDir mdDir 5 5 0 false s).2.1
      else ((retryLoop env g cookies article pdfDir mdDir 5 5 0 false s).2.1, [])).1 := by
  simp [downloadArticle]

theorem downloadArticle_world (p : Platform) (g : Globals) (cookies : List Cookie)
    (pdfDir mdDir : String) (total : Nat) (a : Article) (count : Nat) (w : World) :
    World.Sub w (downloadArticle (worldEnv p) g cookies pdfDir mdDir total a count w).2.1 ∧
    ((∀ e ∈ (downloadArticle (worldEnv p) g cookies pdfDir mdDir total a count w).2.2,
        e.isGaveUp = false) →
      ArticleReady p g pdfDir mdDir a
        (downloadArticle (worldEnv p) g cookies pdfDir mdDir total a count w).2.1.files) := by
  rw [downloadArticle_state, downloadArticle_events]
  obtain ⟨hr₁, hr₂⟩ := retryLoop_world p g cookies a pdfDir mdDir 5 5 0 w
  obtain ⟨hw, _⟩ := waitOrNot_world p g (count + 1 < total)
    (retryLoop (worldEnv p) g cookies a pdfDir mdDir 5 5 0 false w).2.1
  refine ⟨hr₁.next hw.sub, fun hg => ?_⟩
  have hsucc : (retryLoop (worldEnv p) g cookies a pdfDir mdDir 5 5 0 false w).1 = true := by
    cases hb : (retryLoop (worldEnv p) g cookies a pdfDir mdDir 5 5 0 false w).1
    · have := hg (Event.logError (Msg.articleGaveUp a.Title)) (by simp [hb])
      simp [Event.isGaveUp] at this
    · rfl
  exact (hr₂ hsucc).grow hw.sub.1

theorem downloadArticles_state_cons {σ : Type} (env : Env σ) (g : Globals)
    (cookies : List Cookie) (pdfDir mdDir : String) (total : Nat) (article : Article)
    (rest : List Article) (count : Nat) (s : σ) :
    (downloadArticles env g cookies pdfDir mdDir total (article :: rest) count s).2.1 =
      (downloadArticles env g cookies pdfDir mdDir total rest (count + 1)
        (downloadArticle env g cookies pdfDir mdDir total article count s).2.1).2.1 := by
  rw [downloadArticles]
  rw [← downloadArticle_count env g cookies pdfDir mdDir total article count s]

theorem downloadArticles_world (p : Platform) (g : Globals) (cookies : List Cookie)
    (pdfDir mdDir : String) (total : Nat) : ∀ (rest : List Article) (count : Nat) (w : World),
    World.Sub w (downloadArticles (worldEnv p) g cookies pdfDir mdDir total rest count w).2.1 ∧
    ((∀ e ∈ (downloadArticles (worldEnv p) g cookies pdfDir mdDir total rest count w).2.2,
        e.isGaveUp = false) →
      ∀ a ∈ rest, ArticleReady p g pdfDir mdDir a
        (downloadArticles (worldEnv p) g cookies pdfDir mdDir total rest count w).2.1.files) := by
  intro rest
  induction rest with
  | nil => intro count w; exact ⟨World.Sub.self w, fun _ a ha => by simp at ha⟩
  | cons article rest ih =>
    intro count w
    rw [downloadArticles_state_cons, downloadArticles_cons]
    obtain ⟨h₁, h₂⟩ := downloadArticle_world p g cookies pdfDir mdDir total article count w
    obtain ⟨h₃, h₄⟩ := ih (count + 1)
      (downloadArticle (worldEnv p) g cookies pdfDir mdDir total article count w).2.1
    refine ⟨h₁.next h₃, fun hg a ha => ?_⟩
    rcases List.mem_cons.1 ha with rfl | ha
    · exact (h₂ (fun e he => hg e (List.mem_append_left _ he))).grow h₃.1
    · exact h₄ (fun e he => hg e (List.mem_append_right _ he)) a ha

theorem processCourse_cases {σ : Type} (env : Env σ) (g : Globals) (cfg : Config)
    (cookies : List Cookie) (courseID : String) (s : σ) :
    (∃ e ∈ (processCourse env g cfg cookies courseID s).2, e.isCourseFailure = true) ∨
    ∃ id course s1 pdfDir mdDir s2 ev2,
      env.Atoi courseID = some id ∧ env.CourseInfo id s = (Res.ok course, s1) ∧
      course.IsVideo = false ∧
      mkDownloadProjectDir env g.downloadFolder "" cfg.GCID course.Title s1 =
        ((pdfDir, mdDir, none), s2, ev2) ∧
      processCourse env g cfg cookies courseID s =
        ((downloadArticles env g cookies pdfDir mdDir course.Articles.length course.Articles 0
            s2).2.1,
          [Event.printf (Msg.fetchingCourse courseID),
              Event.call (Call.CourseInfo id (Res.ok course))] ++ ev2 ++
            [Event.printf (Msg.courseStart course.Title)] ++
            (downloadArticles env g cookies pdfDir mdDir course.Articles.length course.Articles 0
              s2).2.2 ++
            [Event.printf (Msg.courseDone course.Title)]) := by
  unfold processCourse
  cases hid : env.Atoi courseID with
  | none =>
    left
    exact ⟨Event.logError (Msg.invalidCourseID courseID), by simp, rfl⟩
  | some id =>
    simp only []
    rcases hc : env.CourseInfo id s with ⟨res, s1⟩
    rcases res with r | e | course
    · left
      exact ⟨Event.logError (Msg.coursePanic courseID r), by simp, rfl⟩
    · left
      exact ⟨Event.logError (Msg.courseInfoFailed courseID e), by simp, rfl⟩
    · simp only []
      by_cases hv : course.IsVideo = true
      · left
        rw [if_pos hv]
        exact ⟨Event.logError (Msg.videoCourseSkipped course.Title), by simp, rfl⟩
      · rw [if_neg hv]
        rcases hm : mkDownloadProjectDir env g.downloadFolder "" cfg.GCID course.Title s1 with
          ⟨⟨pdfDir, mdDir, err⟩, s2, ev2⟩
        cases err with
        | some err =>
          left
          exact ⟨Event.logError (Msg.mkdirFailed err), by simp, rfl⟩
        | none =>
          right
          exact ⟨id, course, s1, pdfDir, mdDir, s2, ev2, rfl, hc, by simpa using hv, hm, rfl⟩

theorem mkDownloadProjectDir_world (p : Platform) (folder phone gcid title : String) (w : World) :
    (mkDownloadProjectDir (worldEnv p) folder phone gcid title w).1 =
      ("/".intercalate [folder, "pdf", title], "/".intercalate [folder, "markdown", title], none) ∧
    World.Sub w (mkDownloadProjectDir (worldEnv p) folder phone gcid title w).2.1 ∧
    "/".intercalate [folder, "pdf", title] ∈
      (mkDownloadProjectDir (worldEnv p) folder phone gcid title w).2.1.dirs ∧
    "/".intercalate [folder, "markdown", title] ∈
      (mkDownloadProjectDir (worldEnv p) folder phone gcid title w).2.1.dirs := by
  unfold mkDownloadProjectDir
  have e₁ : ∀ path w, (worldEnv p).MkdirAll path w = World.MkdirAll path w := fun _ _ => rfl
  have e₂ : ∀ parts, (worldEnv p).Join parts = "/".intercalate parts := fun _ => rfl
  have e₃ : ∀ name, (worldEnv p).Filenamify name = name := fun _ => rfl
  simp only [e₁, e₂, e₃]
  have h₁ := World.MkdirAll_fst ("/".intercalate [folder, "pdf", title]) w
  have h₂ := World.MkdirAll_sub ("/".intercalate [folder, "pdf", title]) w
  have h₃ := World.MkdirAll_mem ("/".intercalate [folder, "pdf", title]) w
  generalize World.MkdirAll ("/".intercalate [folder, "pdf", title]) w = r₁ at h₁ h₂ h₃ ⊢
  rcases r₁ with ⟨o₁, w1⟩
  simp only [] at h₁
  subst h₁
  simp only []
  have h₄ := World.MkdirAll_fst ("/".intercalate [folder, "markdown", title]) w1
  have h₅ := World.MkdirAll_sub ("/".intercalate [folder, "markdown", title]) w1
  have h₆ := World.MkdirAll_mem ("/".intercalate [folder, "markdown", title]) w1
  generalize World.MkdirAll ("/".intercalate [folder, "markdown", title]) w1 = r₂ at h₄ h₅ h₆ ⊢
  rcases r₂ with ⟨o₂, w2⟩
  simp only [] at h₄
  subst h₄
  exact ⟨rfl, h₂.next h₅, h₅.2 h₃, h₆⟩

theorem CourseReady.mono {p : Platform} {g : Globals} {courseID : String} {w w' : World}
    (h : CourseReady p g courseID w) (hs : World.Sub w w') : CourseReady p g courseID w' := by
  obtain ⟨id, course, h₁, h₂, h₃, h₄, h₅, h₆⟩ := h
  exact ⟨id, course, h₁, h₂, h₃, hs.2 h₄, hs.2 h₅, fun a ha => (h₆ a ha).grow hs.1⟩

theorem processCourse_world (p : Platform) (g : Globals) (cfg : Config) (cookies : List Cookie)
    (courseID : String) (w : World)
    (hno : ∀ e ∈ (processCourse (worldEnv p) g cfg cookies courseID w).2,
      e.isCourseFailure = false ∧ e.isGaveUp = false) :
    World.Sub w (processCourse (worldEnv p) g cfg cookies courseID w).1 ∧
    CourseReady p g courseID (processCourse (worldEnv p) g cfg cookies courseID w).1 := by
  rcases processCourse_cases (worldEnv p) g cfg cookies courseID w with
    ⟨e, he, hf⟩ | ⟨id, course, s1, pdfDir, mdDir, s2, ev2, hid, hc, hv, hm, hp⟩
  · rw [(hno e he).1] at hf
    exact absurd hf (by decide)
  · have hmk := mkDownloadProjectDir_world p g.downloadFolder "" cfg.GCID course.Title s1
    rw [hm] at hmk
    obtain ⟨hdirs, hs₂, hpdf, hmd⟩ := hmk
    simp only [Prod.mk.injEq, and_true] at hdirs
    obtain ⟨rfl, rfl⟩ := hdirs
    have hs₁ : World.Sub w s1 := by
      have := World.CourseInfo_sub p id w
      have e : World.CourseInfo p id w = (Res.ok course, s1) := hc
      rwa [e] at this
    have hl : p.courses.lookup id = some course := by
      apply World.CourseInfo_ok p id w course
      have e : World.CourseInfo p id w = (Res.ok course, s1) := hc
      rw [e]
    obtain ⟨ha₁, ha₂⟩ := downloadArticles_world p g cookies
      ("/".intercalate [g.downloadFolder, "pdf", course.Title])
      ("/".intercalate [g.downloadFolder, "markdown", course.Title])
      course.Articles.length course.Articles 0 s2
    rw [hp] at hno ⊢
    refine ⟨hs₁.next (hs₂.next ha₁), id, course, hid, hl, hv, ha₁.2 hpdf, ha₁.2 hmd, ?_⟩
    apply ha₂
    intro e he
    exact (hno e (by simp [he])).2

theorem courseLoop_cons {σ : Type} (env : Env σ) (g : Globals) (cfg : Config)
    (cookies : List Cookie) (courseID : String) (rest : List String) (s : σ) :
    courseLoop env g cfg cookies (courseID :: rest) s =
      ((courseLoop env g cfg cookies rest (processCourse env g cfg cookies courseID s).1).1,
        (processCourse env g cfg cookies courseID s).2 ++ [Event.sleep (second * 3)] ++
          (courseLoop env g cfg cookies rest (processCourse env g cfg cookies courseID s).1).2) := by
  rw [courseLoop]

theorem courseLoop_world (p : Platform) (g : Globals) (cfg : Config) (cookies : List Cookie) :
    ∀ (ids : List String) (w : World),
      (∀ e ∈ (courseLoop (worldEnv p) g cfg cookies ids w).2,
        e.isCourseFailure = false ∧ e.isGaveUp = false) →
      World.Sub w (courseLoop (worldEnv p) g cfg cookies ids w).1 ∧
      ∀ courseID ∈ ids,
        CourseReady p g courseID (courseLoop (worldEnv p) g cfg cookies ids w).1 := by
  intro ids
  induction ids with
  | nil => intro w _; exact ⟨World.Sub.self w, fun c hc => by simp at hc⟩
  | cons courseID rest ih =>
    intro w hno
    rw [courseLoop_cons] at hno ⊢
    obtain ⟨h₁, h₂⟩ := processCourse_world p g cfg cookies courseID w
      (fun e he => hno e (by simp [he]))
    obtain ⟨h₃, h₄⟩ := ih (processCourse (worldEnv p) g cfg cookies courseID w).1
      (fun e he => hno e (by simp [he]))
    refine ⟨h₁.next h₃, fun c hc => ?_⟩
    rcases List.mem_cons.1 hc with rfl | hc
    · exact h₂.mono h₃
    · exact h₄ c hc

/-! ### The second run: every article is ready, nothing is written -/

theorem QuietEvents.append {ev₁ ev₂ : List Event} {as₁ as₂ : List Article}
    (h₁ : QuietEvents ev₁ as₁) (h₂ : QuietEvents ev₂ as₂) :
    QuietEvents (ev₁ ++ ev₂) (as₁ ++ as₂) := by
  refine ⟨by rw [List.filterMap_append, h₁.1, h₂.1], ?_, ?_⟩
  · intro e he
    rcases List.mem_append.1 he with he | he
    · exact h₁.2.1 e he
    · exact h₂.2.1 e he
  · intro e he
    rcases List.mem_append.1 he with he | he
    · exact h₁.2.2 e he
    · exact h₂.2.2 e he

theorem QuietEvents.of_plain (ev : List Event)
    (h : ∀ e ∈ ev, e.dispatched = none ∧ e.isDispatch = false ∧ e.isLogError = false) :
    QuietEvents ev [] := by
  refine ⟨?_, fun e he hd => ?_, fun e he => (h e he).2.2⟩
  · rw [List.filterMap_eq_nil_iff]
    exact fun e he => (h e he).1
  · rw [(h e he).2.1] at hd
    exact absurd hd (by decide)

theorem waitOrNot_quiet {σ : Type} (env : Env σ) (g : Globals) (c : Prop) [Decidable c] (s : σ) :
    QuietEvents (if c then waitRandomTime env g s else (s, [])).2 [] := by
  apply QuietEvents.of_plain _
  split <;> simp [waitRandomTime, Event.dispatched, Event.isDispatch, Event.isLogError]

theorem retryLoop_quiet (p : Platform) (g : Globals) (cookies : List Cookie) (a : Article)
    (pdfDir mdDir : String) (w : World) (hr : ArticleReady p g pdfDir mdDir a w.files)
    (hn : w.NoFault) :
    (retryLoop (worldEnv p) g cookies a pdfDir mdDir 5 5 0 false w).1 = true ∧
    (retryLoop (worldEnv p) g cookies a pdfDir mdDir 5 5 0 false w).2.1 = w.fault.2 ∧
    QuietEvents (retryLoop (worldEnv p) g cookies a pdfDir mdDir 5 5 0 false w).2.2 [a] := by
  obtain ⟨h₁, h₂⟩ := downloadTextArticle_quiet p g cookies a pdfDir mdDir w hr hn
  rw [retryLoop_succ (worldEnv p) g cookies a pdfDir mdDir 5 4 0 w (by decide)]
  have hs : (downloadTextArticle (worldEnv p) g cookies a pdfDir mdDir false w).1.isSkip = true := by
    rw [h₁]; rfl
  rw [if_pos hs]
  refine ⟨rfl, h₂, ?_⟩
  refine ⟨by simp [Event.dispatched], ?_, ?_⟩
  · intro e he _
    simp only [Nat.lt_irrefl, gt_iff_lt, if_false, List.nil_append, List.mem_singleton] at he
    rw [he]
    exact hs
  · intro e he
    simp only [Nat.lt_irrefl, gt_iff_lt, if_false, List.nil_append, List.mem_singleton] at he
    rw [he]
    rfl

theorem downloadArticle_quiet (p : Platform) (g : Globals) (cookies : List Cookie)
    (pdfDir mdDir : String) (total : Nat) (a : Article) (count : Nat) (w : World)
    (hr : ArticleReady p g pdfDir mdDir a w.files) (hn : w.NoFault) :
    World.Same w (downloadArticle (worldEnv p) g cookies pdfDir mdDir total a count w).2.1 ∧
    (downloadArticle (worldEnv p) g cookies pdfDir mdDir total a count w).2.1.NoFault ∧
    QuietEvents (downloadArticle (worldEnv p) g cookies pdfDir mdDir total a count w).2.2 [a] := by
  obtain ⟨h₁, h₂, h₃⟩ := retryLoop_quiet p g cookies a pdfDir mdDir w hr hn
  rw [downloadArticle_state, downloadArticle_events, h₂]
  obtain ⟨hw₁, hw₂⟩ := waitOrNot_world p g (count + 1 < total) w.fault.2
  refine ⟨(World.fault_same w).trans hw₁, ?_, ?_⟩
  · unfold World.NoFault
    rw [hw₂]
    exact (World.fault_noFault w hn).2
  · have e : [a] = [a] ++ ([] ++ ([] ++ [])) := rfl
    rw [e]
    refine h₃.append (QuietEvents.append ?_
      (QuietEvents.append (QuietEvents.of_plain [Event.printf (Msg.progress (count + 1) total)] ?_) ?_))
    · rw [h₁]
      exact QuietEvents.of_plain _ (by simp)
    · simp [Event.dispatched, Event.isDispatch, Event.isLogError]
    · exact waitOrNot_quiet (worldEnv p) g _ _

theorem downloadArticles_quiet (p : Platform) (g : Globals) (cookies : List Cookie)
    (pdfDir mdDir : String) (total : Nat) : ∀ (rest : List Article) (count : Nat) (w : World),
    (∀ a ∈ rest, ArticleReady p g pdfDir mdDir a w.files) → w.NoFault →
    World.Same w (downloadArticles (worldEnv p) g cookies pdfDir mdDir total rest count w).2.1 ∧
    (downloadArticles (worldEnv p) g cookies pdfDir mdDir total rest count w).2.1.NoFault ∧
    QuietEvents (downloadArticles (worldEnv p) g cookies pdfDir mdDir total rest count w).2.2
      rest := by
  intro rest
  induction rest with
  | nil =>
    intro count w _ hn
    exact ⟨World.Same.refl w, hn, QuietEvents.of_plain _ (by simp [downloadArticles])⟩
  | cons article rest ih =>
    intro count w hr hn
    rw [downloadArticles_state_cons, downloadArticles_cons]
    obtain ⟨h₁, h₂, h₃⟩ := downloadArticle_quiet p g cookies pdfDir mdDir total article count w
      (hr article (List.mem_cons_self article rest)) hn
    obtain ⟨h₄, h₅, h₆⟩ := ih (count + 1)
      (downloadArticle (worldEnv p) g cookies pdfDir mdDir total article count w).2.1
      (fun a ha => by rw [h₁.1]; exact hr a (List.mem_cons_of_mem article ha)) h₂
    exact ⟨h₁.trans h₄, h₅, h₃.append h₆⟩

theorem mkDownloadProjectDir_quiet (p : Platform) (folder phone gcid title : String) (w : World)
    (h₁ : "/".intercalate [folder, "pdf", title] ∈ w.dirs)
    (h₂ : "/".intercalate [folder, "markdown", title] ∈ w.dirs) :
    mkDownloadProjectDir (worldEnv p) folder phone gcid title w =
      (("/".intercalate [folder, "pdf", title], "/".intercalate [folder, "markdown", title], none),
        w,
        [Event.call (Call.MkdirAll ("/".intercalate [folder, "pdf", title]) none),
          Event.call (Call.MkdirAll ("/".intercalate [folder, "markdown", title]) none)]) := by
  unfold mkDownloadProjectDir
  have e₁ : ∀ path w, (worldEnv p).MkdirAll path w = World.MkdirAll path w := fun _ _ => rfl
  have e₂ : ∀ parts, (worldEnv p).Join parts = "/".intercalate parts := fun _ => rfl
  have e₃ : ∀ name, (worldEnv p).Filenamify name = name := fun _ => rfl
  simp only [e₁, e₂, e₃, World.MkdirAll_quiet _ w h₁, World.MkdirAll_quiet _ w h₂]

theorem processCourse_quiet (p : Platform) (g : Globals) (cfg : Config) (cookies : List Cookie)
    (courseID : String) (w : World) (hr : CourseReady p g courseID w) (hn : w.NoFault) :
    World.Same w (processCourse (worldEnv p) g cfg cookies courseID w).1 ∧
    (processCourse (worldEnv p) g cfg cookies courseID w).1.NoFault ∧
    QuietEvents (processCourse (worldEnv p) g cfg cookies courseID w).2
      (courseArticles p courseID) := by
  obtain ⟨id, course, h₁, h₂, h₃, h₄, h₅, h₆⟩ := hr
  have hf := World.fault_same w
  have ea : (worldEnv p).Atoi courseID = some id := h₁
  have ec : (worldEnv p).CourseInfo id w = (Res.ok course, w.fault.2) :=
    World.CourseInfo_quiet p id w course h₂ hn
  have em := mkDownloadProjectDir_quiet p g.downloadFolder "" cfg.GCID course.Title w.fault.2
    (by rw [hf.2.1]; exact h₄) (by rw [hf.2.1]; exact h₅)
  have hca : courseArticles p courseID = course.Articles := by
    simp [courseArticles, h₁, h₂]
  obtain ⟨q₁, q₂, q₃⟩ := downloadArticles_quiet p g cookies
    ("/".intercalate [g.downloadFolder, "pdf", course.Title])
    ("/".intercalate [g.downloadFolder, "markdown", course.Title])
    course.Articles.length course.Articles 0 w.fault.2
    (fun a ha => by rw [hf.1]; exact h₆ a ha) (World.fault_noFault w hn).2
  unfold processCourse
  simp only [ea, ec, h₃, em, Bool.false_eq_true, if_false]
  refine ⟨hf.trans q₁, q₂, ?_⟩
  rw [hca]
  have key := QuietEvents.append (QuietEvents.append (QuietEvents.append (QuietEvents.append
    (QuietEvents.of_plain ([Event.printf (Msg.fetchingCourse courseID),
        Event.call (Call.CourseInfo id (Res.ok course))])
      (by simp [Event.dispatched, Event.isDispatch, Event.isLogError]))
    (QuietEvents.of_plain ([Event.call (Call.MkdirAll ("/".intercalate [g.downloadFolder, "pdf", course.Title])
          none),
        Event.call (Call.MkdirAll ("/".intercalate [g.downloadFolder, "markdown", course.Title])
          none)])
      (by simp [Event.dispatched, Event.isDispatch, Event.isLogError])))
    (QuietEvents.of_plain ([Event.printf (Msg.courseStart course.Title)])
      (by simp [Event.dispatched, Event.isDispatch, Event.isLogError]))) q₃)
    (QuietEvents.of_plain ([Event.printf (Msg.courseDone course.Title)])
      (by simp [Event.dispatched, Event.isDispatch, Event.isLogError]))
  simpa using key

theorem courseLoop_quiet (p : Platform) (g : Globals) (cfg : Config) (cookies : List Cookie) :
    ∀ (ids : List String) (w : World), (∀ c ∈ ids, CourseReady p g c w) → w.NoFault →
      World.Same w (courseLoop (worldEnv p) g cfg cookies ids w).1 ∧
      (courseLoop (worldEnv p) g cfg cookies ids w).1.NoFault ∧
      QuietEvents (courseLoop (worldEnv p) g cfg cookies ids w).2
        (ids.map (courseArticles p)).flatten := by
  intro ids
  induction ids with
  | nil =>
    intro w _ hn
    exact ⟨World.Same.refl w, hn, QuietEvents.of_plain _ (by simp [courseLoop])⟩
  | cons courseID rest ih =>
    intro w hr hn
    rw [courseLoop_cons]
    obtain ⟨h₁, h₂, h₃⟩ := processCourse_quiet p g cfg cookies courseID w
      (hr courseID (List.mem_cons_self courseID rest)) hn
    obtain ⟨h₄, h₅, h₆⟩ := ih (processCourse (worldEnv p) g cfg cookies courseID w).1
      (fun c hc => (hr c (List.mem_cons_of_mem courseID hc)).mono h₁.sub) h₂
    refine ⟨h₁.trans h₄, h₅, ?_⟩
    have key := (h₃.append (QuietEvents.of_plain ([Event.sleep (second * 3)])
      (by simp [Event.dispatched, Event.isDispatch, Event.isLogError]))).append h₆
    simpa using key

theorem runBatch_worldEnv (p : Platform) (g : Globals) (cfg : Config) (w : World) :
    runBatch (worldEnv p) g cfg w =
      (Exit.returned,
        (courseLoop (worldEnv p) g cfg (readCookiesFromConfig 0 cfg) cfg.CourseIDs w).1,
        [Event.printf Msg.verifyingLogin, Event.printf Msg.cookieValues,
            Event.printf (Msg.gcidValue cfg.GCID), Event.printf (Msg.gcessValue cfg.GCESS)] ++
          [Event.call (Call.Auth (readCookiesFromConfig 0 cfg) none)] ++
          (Event.printf Msg.loginOK ::
            (courseLoop (worldEnv p) g cfg (readCookiesFromConfig 0 cfg) cfg.CourseIDs w).2 ++
            [Event.printf Msg.allDone])) := by
  have e₁ : (worldEnv p).Now w = 0 := rfl
  have e₂ : ∀ c, (worldEnv p).Auth c w = (none, w) := fun _ => rfl
  simp only [runBatch, runCourses, e₁, e₂]

/-- C3. Over an unchanged course (the same platform data) and without overwrite, with the
collaborators as modelled (they skip without writing when their target is present, and
leave it present after a successful call): if the first run gave up on no course and on
no article, and no fetch fails during the second run, then the second run writes nothing
(the same files, the same directories, the same count of writes), dispatches every article
of every configured course exactly once, in order, each dispatch returning
`skipped = true` without error, and appends nothing to the error log. -/
theorem C3_second_run_writes_nothing (p : Platform) (g : Globals) (cfg : Config) (w : World)
    (faults₂ : List Bool) (draws₂ : List Nat)
    (hfirst : ∀ e ∈ (runBatch (worldEnv p) g cfg w).2.2,
      e.isCourseFailure = false ∧ e.isGaveUp = false)
    (hsecond : ∀ b ∈ faults₂, b = false) :
    (runBatch (worldEnv p) g cfg
        { (runBatch (worldEnv p) g cfg w).2.1 with faults := faults₂, draws := draws₂ }).2.1.files =
      (runBatch (worldEnv p) g cfg w).2.1.files ∧
    (runBatch (worldEnv p) g cfg
        { (runBatch (worldEnv p) g cfg w).2.1 with faults := faults₂, draws := draws₂ }).2.1.dirs =
      (runBatch (worldEnv p) g cfg w).2.1.dirs ∧
    (runBatch (worldEnv p) g cfg
        { (runBatch (worldEnv p) g cfg w).2.1 with faults := faults₂, draws := draws₂ }).2.1.writes =
      (runBatch (worldEnv p) g cfg w).2.1.writes ∧
    (runBatch (worldEnv p) g cfg
        { (runBatch (worldEnv p) g cfg w).2.1 with faults := faults₂, draws := draws₂ }).2.2.filterMap
      Event.dispatched = (cfg.CourseIDs.map (courseArticles p)).flatten ∧
    (∀ e ∈ (runBatch (worldEnv p) g cfg
        { (runBatch (worldEnv p) g cfg w).2.1 with faults := faults₂, draws := draws₂ }).2.2,
      e.isDispatch = true → e.isSuccess = true) ∧
    (∀ e ∈ (runBatch (worldEnv p) g cfg
        { (runBatch (worldEnv p) g cfg w).2.1 with faults := faults₂, draws := draws₂ }).2.2,
      e.isLogError = false) := by
  have hready : ∀ c ∈ cfg.CourseIDs, CourseReady p g c (runBatch (worldEnv p) g cfg w).2.1 := by
    rw [runBatch_worldEnv] at hfirst ⊢
    exact (courseLoop_world p g cfg (readCookiesFromConfig 0 cfg) cfg.CourseIDs w
      (fun e he => hfirst e (by simp [he]))).2
  generalize (runBatch (worldEnv p) g cfg w).2.1 = w₁ at hready ⊢
  have hready₂ : ∀ c ∈ cfg.CourseIDs,
      CourseReady p g c { w₁ with faults := faults₂, draws := draws₂ } :=
    fun c hc => (hready c hc).mono ⟨fun _ h => h, fun _ h => h⟩
  obtain ⟨h₁, _, h₃⟩ := courseLoop_quiet p g cfg (readCookiesFromConfig 0 cfg) cfg.CourseIDs
    { w₁ with faults := faults₂, draws := draws₂ } hready₂ hsecond
  rw [runBatch_worldEnv]
  have key : QuietEvents
      ([Event.printf Msg.verifyingLogin, Event.printf Msg.cookieValues,
            Event.printf (Msg.gcidValue cfg.GCID), Event.printf (Msg.gcessValue cfg.GCESS)] ++
          [Event.call (Call.Auth (readCookiesFromConfig 0 cfg) none)] ++
          (Event.printf Msg.loginOK ::
            (courseLoop (worldEnv p) g cfg (readCookiesFromConfig 0 cfg) cfg.CourseIDs
              { w₁ with faults := faults₂, draws := draws₂ }).2 ++
            [Event.printf Msg.allDone]))
      (cfg.CourseIDs.map (courseArticles p)).flatten := by
    have k := ((QuietEvents.of_plain ([Event.printf Msg.verifyingLogin, Event.printf Msg.cookieValues,
            Event.printf (Msg.gcidValue cfg.GCID), Event.printf (Msg.gcessValue cfg.GCESS),
            Event.call (Call.Auth (readCookiesFromConfig 0 cfg) none), Event.printf Msg.loginOK])
        (by simp [Event.dispatched, Event.isDispatch, Event.isLogError])).append h₃).append
      (QuietEvents.of_plain ([Event.printf Msg.allDone])
        (by simp [Event.dispatched, Event.isDispatch, Event.isLogError]))
    simpa using k
  exact ⟨h₁.1, h₁.2.1, h₁.2.2, key.1, key.2.1, key.2.2⟩

/-- C3, at a concrete input: one course with one article whose body has an inline video,
nothing on disk before the first run and no fault.  The first run gives nothing up; the
second run leaves the count of writes unchanged and dispatches the article once. -/
theorem C3_second_run_writes_nothing_witness :
    (∀ e ∈ (runBatch (worldEnv platformVideo) initGlobals config7 emptyWorld).2.2,
      e.isCourseFailure = false ∧ e.isGaveUp = false) ∧
    (runBatch (worldEnv platformVideo) initGlobals config7 emptyWorld).2.1.writes = 5 ∧
    (runBatch (worldEnv platformVideo) initGlobals config7
        { (runBatch (worldEnv platformVideo) initGlobals config7 emptyWorld).2.1 with
          faults := [], draws := [] }).2.1.writes =
      (runBatch (worldEnv platformVideo) initGlobals config7 emptyWorld).2.1.writes ∧
    (runBatch (worldEnv platformVideo) initGlobals config7
        { (runBatch (worldEnv platformVideo) initGlobals config7 emptyWorld).2.1 with
          faults := [], draws := [] }).2.2.filterMap Event.dispatched =
      [article1] :=
  ⟨by decide, by decide,
    (C3_second_run_writes_nothing platformVideo initGlobals config7 emptyWorld [] []
      (by decide) (by simp)).2.2.1,
    (C3_second_run_writes_nothing platformVideo initGlobals config7 emptyWorld [] []
      (by decide) (by simp)).2.2.2.1⟩

/-! ### The order of the stages and the end at the first error -/

theorem ShortCircuit.split {out : Outcome} {cs : List Call} (h : ShortCircuit out cs) :
    ∀ (pre post : List Call) (c : Call), cs = pre ++ c :: post → c.failed = true →
      post = [] ∧ ∃ e, out = Outcome.returned false (some e) := by
  induction cs with
  | nil => intro pre post c hc; simp at hc
  | cons x cs ih =>
    intro pre post c hc hf
    cases pre with
    | nil =>
      simp only [List.nil_append, List.cons.injEq] at hc
      obtain ⟨rfl, rfl⟩ := hc
      exact h.1 hf
    | cons y pre =>
      simp only [List.cons_append, List.cons.injEq] at hc
      exact ih h.2 pre post c hc.2 hf

theorem FollowsPlan.after_ok {σ : Type} {r : Outcome × σ × List Call} {plan : List Request}
    (h : FollowsPlan r plan) (c : Call) (req : Request) (hreq : c.request = some req)
    (hok : c.failed = false) : FollowsPlan (after c r) (req :: plan) := by
  obtain ⟨h₁, h₂, h₃⟩ := h
  refine ⟨?_, ?_, ?_⟩
  · simp only [after, List.filterMap_cons, hreq]
    exact (List.prefix_cons_inj req).2 h₁
  · exact ⟨fun hf => by rw [hok] at hf; exact absurd hf (by decide), h₂⟩
  · intro sk hsk
    simp only [after, List.filterMap_cons, hreq]
    rw [h₃ sk hsk]

theorem FollowsPlan.after_err {σ : Type} (c : Call) (req : Request) (hreq : c.request = some req)
    (e : DlError) (s : σ) (plan : List Request) :
    FollowsPlan (after c (Outcome.returned false (some e), s, [])) (req :: plan) := by
  refine ⟨?_, ?_, ?_⟩
  · simp only [after, List.filterMap_cons, hreq, List.filterMap_nil]
    exact (List.prefix_cons_inj req).2 (List.nil_prefix)
  · exact ⟨fun _ => ⟨rfl, e, rfl⟩, trivial⟩
  · intro sk hsk
    simp [after] at hsk

theorem FollowsPlan.after_panic {σ : Type} (c : Call) (req : Request)
    (hreq : c.request = some req) (hok : c.failed = false) (r : String) (s : σ)
    (plan : List Request) :
    FollowsPlan (after c (Outcome.panicked r, s, [])) (req :: plan) := by
  refine ⟨?_, ?_, ?_⟩
  · simp only [after, List.filterMap_cons, hreq, List.filterMap_nil]
    exact (List.prefix_cons_inj req).2 (List.nil_prefix)
  · exact ⟨fun hf => by rw [hok] at hf; exact absurd hf (by decide), trivial⟩
  · intro sk hsk
    simp [after] at hsk

section StageOrder

variable {σ : Type} (env : Env σ) (g : Globals) (cookies : List Cookie)
  (articleInfo : ArticleInfo) (article : Article) (pdfDir mdDir : String) (overwrite : Bool)

theorem mdStage_follows (sk0 : Bool) (s : σ) :
    FollowsPlan (mdStage env g articleInfo article mdDir overwrite sk0 s)
      (mdPlan g articleInfo article mdDir overwrite) := by
  unfold mdStage mdPlan
  by_cases hm : needDownloadMD g = true
  · rw [if_pos hm, if_pos hm]
    rcases env.MarkdownDownload articleInfo.ArticleContent article.Title mdDir article.AID
      overwrite s with ⟨res, s1⟩
    rcases res with r | e | v
    · exact FollowsPlan.after_panic _ _ (by rfl) (by rfl) r s1 []
    · exact FollowsPlan.after_err _ _ (by rfl) _ s1 []
    · exact FollowsPlan.after_ok (by exact ⟨List.nil_prefix, trivial, fun _ _ => rfl⟩) _ _
        (by rfl) (by rfl)
  · rw [if_neg hm, if_neg hm]
    exact ⟨List.nil_prefix, trivial, fun _ _ => rfl⟩

theorem pdfStage_follows (sk0 : Bool) (s : σ) :
    FollowsPlan (pdfStage env g cookies articleInfo article pdfDir mdDir overwrite sk0 s)
      (pdfPlan g cookies articleInfo article pdfDir mdDir overwrite) := by
  unfold pdfStage pdfPlan
  by_cases hp : needDownloadPDF g = true
  · rw [if_pos hp, if_pos hp]
    rcases env.PrintArticlePageToPDF article.AID pdfDir article.Title cookies
        g.downloadComments g.printPDFWaitSeconds g.printPDFTimeoutSeconds overwrite s with ⟨res, s1⟩
    rcases res with r | e | v
    · exact FollowsPlan.after_panic _ _ (by rfl) (by rfl) r s1 _
    · exact FollowsPlan.after_err _ _ (by rfl) _ s1 _
    · exact FollowsPlan.after_ok (mdStage_follows env g articleInfo article mdDir overwrite _ s1)
        _ _ (by rfl) (by rfl)
  · rw [if_neg hp, if_neg hp]
    exact mdStage_follows env g articleInfo article mdDir overwrite sk0 s

theorem inlineVideoStage_follows (sk0 : Bool) (s : σ) :
    FollowsPlan (inlineVideoStage env g cookies articleInfo article pdfDir mdDir overwrite sk0 s)
      (inlineVideoPlan g cookies articleInfo article pdfDir mdDir overwrite) := by
  unfold inlineVideoStage inlineVideoPlan
  by_cases hv : articleInfo.InlineVideoSubtitles.length > 0
  · rw [if_pos hv, if_pos hv]
    rcases env.DownloadMP4 article.Title pdfDir
      (articleInfo.InlineVideoSubtitles.map InlineVideoSubtitle.VideoURL) overwrite s with ⟨res, s1⟩
    rcases res with r | e | v
    · exact FollowsPlan.after_panic _ _ (by rfl) (by rfl) r s1 _
    · exact FollowsPlan.after_err _ _ (by rfl) _ s1 _
    · exact FollowsPlan.after_ok
        (pdfStage_follows env g cookies articleInfo article pdfDir mdDir overwrite sk0 s1)
        _ _ (by rfl) (by rfl)
  · rw [if_neg hv, if_neg hv]
    exact pdfStage_follows env g cookies articleInfo article pdfDir mdDir overwrite sk0 s

theorem videoStage_follows (sk0 : Bool) (s : σ) :
    FollowsPlan (videoStage env g cookies articleInfo article pdfDir mdDir overwrite sk0 s)
      (videoPlan env.Parse g cookies articleInfo article pdfDir mdDir overwrite) := by
  unfold videoStage videoPlan
  split
  rename_i hasVideo videoURL heq
  rw [heq]
  by_cases hv : hasVideo = true ∧ videoURL ≠ ""
  · rw [if_pos hv, if_pos hv]
    rcases env.DownloadMP4 article.Title pdfDir [videoURL] overwrite s with ⟨res, s1⟩
    rcases res with r | e | v
    · exact FollowsPlan.after_panic _ _ (by rfl) (by rfl) r s1 _
    · exact FollowsPlan.after_err _ _ (by rfl) _ s1 _
    · exact FollowsPlan.after_ok
        (inlineVideoStage_follows env g cookies articleInfo article pdfDir mdDir overwrite sk0 s1)
        _ _ (by rfl) (by rfl)
  · rw [if_neg hv, if_neg hv]
    exact inlineVideoStage_follows env g cookies articleInfo article pdfDir mdDir overwrite sk0 s

end StageOrder

section ArticleOrder

variable {σ : Type} (env : Env σ) (g : Globals) (cookies : List Cookie)
  (article : Article) (pdfDir mdDir : String) (overwrite : Bool) (s : σ)

theorem downloadTextArticle_head :
    ∃ rest, (downloadTextArticle env g cookies article pdfDir mdDir overwrite s).2.2 =
      Call.V1ArticleInfo article.AID (env.V1ArticleInfo article.AID s).1 :: rest := by
  unfold downloadTextArticle
  rcases env.V1ArticleInfo article.AID s with ⟨res, s1⟩
  exact ⟨_, rfl⟩

theorem downloadTextArticle_follows (info : ArticleInfo)
    (h : (env.V1ArticleInfo article.AID s).1 = Res.ok info) :
    FollowsPlan (downloadTextArticle env g cookies article pdfDir mdDir overwrite s)
      (Request.V1ArticleInfo article.AID ::
        videoPlan env.Parse g cookies info article pdfDir mdDir overwrite) := by
  revert h
  unfold downloadTextArticle
  rcases env.V1ArticleInfo article.AID s with ⟨res, s1⟩
  intro h
  simp only [] at h
  subst h
  exact FollowsPlan.after_ok
    (videoStage_follows env g cookies info article pdfDir mdDir overwrite true s1) _ _
    (by rfl) (by rfl)

theorem downloadTextArticle_shortCircuit :
    ShortCircuit (downloadTextArticle env g cookies article pdfDir mdDir overwrite s).1
      (downloadTextArticle env g cookies article pdfDir mdDir overwrite s).2.2 := by
  unfold downloadTextArticle
  rcases env.V1ArticleInfo article.AID s with ⟨res, s1⟩
  rcases res with r | e | info
  · exact (FollowsPlan.after_panic _ (Request.V1ArticleInfo article.AID) (by rfl) (by rfl) r s1
      []).2.1
  · exact (FollowsPlan.after_err _ (Request.V1ArticleInfo article.AID) (by rfl) _ s1 []).2.1
  · exact (FollowsPlan.after_ok
      (videoStage_follows env g cookies info article pdfDir mdDir overwrite true s1) _
      (Request.V1ArticleInfo article.AID) (by rfl) (by rfl)).2.1

end ArticleOrder

/-- C11. In `downloadTextArticle` the first call is the fetch of the article data.  When
it succeeds, the calls that follow are a first part of the plan `inline video of the body,
videos of the subtitle list, PDF, Markdown` (each stage only when it applies), in that
order, and the whole plan when no stage fails.  Whatever stage returns an error, that call
is the last one made, and the function returns `skipped = false` with an error. -/
theorem C11_stage_order_short_circuit {σ : Type} (env : Env σ) (g : Globals)
    (cookies : List Cookie) (article : Article) (pdfDir mdDir : String) (overwrite : Bool)
    (s : σ) :
    (∃ rest, (downloadTextArticle env g cookies article pdfDir mdDir overwrite s).2.2 =
      Call.V1ArticleInfo article.AID (env.V1ArticleInfo article.AID s).1 :: rest) ∧
    (∀ info, (env.V1ArticleInfo article.AID s).1 = Res.ok info →
      (downloadTextArticle env g cookies article pdfDir mdDir overwrite s).2.2.filterMap
          Call.request <+:
        Request.V1ArticleInfo article.AID ::
          videoPlan env.Parse g cookies info article pdfDir mdDir overwrite ∧
      ∀ sk, (downloadTextArticle env g cookies article pdfDir mdDir overwrite s).1 =
          Outcome.returned sk none →
        (downloadTextArticle env g cookies article pdfDir mdDir overwrite s).2.2.filterMap
            Call.request =
          Request.V1ArticleInfo article.AID ::
            videoPlan env.Parse g cookies info article pdfDir mdDir overwrite) ∧
    (∀ (pre post : List Call) (c : Call),
      (downloadTextArticle env g cookies article pdfDir mdDir overwrite s).2.2 =
        pre ++ c :: post →
      c.failed = true →
      post = [] ∧
        ∃ e, (downloadTextArticle env g cookies article pdfDir mdDir overwrite s).1 =
          Outcome.returned false (some e)) := by
  refine ⟨downloadTextArticle_head env g cookies article pdfDir mdDir overwrite s, ?_, ?_⟩
  · intro info h
    have := downloadTextArticle_follows env g cookies article pdfDir mdDir overwrite s info h
    exact ⟨this.1, this.2.2⟩
  · exact (downloadTextArticle_shortCircuit env g cookies article pdfDir mdDir overwrite s).split

/-- C11, at a concrete input: an article with an inline video, both formats requested, and
a renderer that fails.  The calls are the fetch of the data, the video and the renderer;
the converter, last in the plan, is not called, and the result is `skipped = false` with
the error of the PDF stage. -/
theorem C11_stage_order_short_circuit_witness :
    (downloadTextArticle (worldEnv platformVideo) initGlobals [] article1 "pdf" "md" false
        pdfFaultWorld).2.2 =
      [Call.V1ArticleInfo 1 (Res.ok { ArticleContent := videoBody, InlineVideoSubtitles := [] }),
        Call.DownloadMP4 "a" "pdf" ["v.mp4"] false (Res.ok ()),
        Call.PrintArticlePageToPDF 1 "pdf" "a" [] false 15 120 false (Res.err "render failed")] ∧
    videoPlan (worldEnv platformVideo).Parse initGlobals []
        { ArticleContent := videoBody, InlineVideoSubtitles := [] } article1 "pdf" "md" false =
      [Request.DownloadMP4 "a" "pdf" ["v.mp4"] false,
        Request.PrintArticlePageToPDF 1 "pdf" "a" [] false 15 120 false,
        Request.MarkdownDownload videoBody "a" "md" 1 false] ∧
    (downloadTextArticle (worldEnv platformVideo) initGlobals [] article1 "pdf" "md" false
        pdfFaultWorld).1 = Outcome.returned false (some (DlError.pdf "render failed")) ∧
    (([] : List Call) = [] ∧
      ∃ e, (downloadTextArticle (worldEnv platformVideo) initGlobals [] article1 "pdf" "md" false
        pdfFaultWorld).1 = Outcome.returned false (some e)) :=
  ⟨by decide, by decide, by decide,
    (C11_stage_order_short_circuit (worldEnv platformVideo) initGlobals [] article1 "pdf" "md"
      false pdfFaultWorld).2.2
      [Call.V1ArticleInfo 1 (Res.ok { ArticleContent := videoBody, InlineVideoSubtitles := [] }),
        Call.DownloadMP4 "a" "pdf" ["v.mp4"] false (Res.ok ())] []
      (Call.PrintArticlePageToPDF 1 "pdf" "a" [] false 15 120 false (Res.err "render failed"))
      (by decide) (by rfl)⟩

/-! ### Which source `getVideoURLFromArticleContent` can return -/

theorem isVideo_of_dropWhile_cons (l : List Node) (v : Node) (tail : List Node)
    (h : l.dropWhile (fun n => !n.isVideo) = v :: tail) : v.isVideo = true := by
  induction l with
  | nil => simp at h
  | cons n l ih =>
    rw [List.dropWhile_cons] at h
    cases hn : n.isVideo
    · rw [hn] at h
      exact ih h
    · rw [hn] at h
      simp only [Bool.not_true, Bool.false_eq_true, if_false, List.cons.injEq] at h
      rw [← h.1]
      exact hn

theorem mp4Source_of_isVideo (v : Node) (h : v.isVideo = true) : v.mp4Source = none := by
  rcases v with ⟨type, data, attr, children⟩
  simp only [Node.isVideo, decide_eq_true_eq] at h
  have hs : ¬ (type = NodeType.ElementNode ∧ data = "source") := by
    rintro ⟨_, hd⟩
    rw [h.2] at hd
    exact absurd hd (by decide)
  simp only [Node.mp4Source, if_neg hs]

theorem after_video_of_mem_candidates (doc : Node) (url : String) (h : url ∈ candidates doc) :
    ∃ (pre : List Node) (v : Node) (mid : List Node) (s : Node) (post : List Node),
      Node.preorder doc = pre ++ v :: (mid ++ s :: post) ∧ v.isVideo = true ∧
        s.mp4Source = some url := by
  unfold candidates at h
  rw [List.mem_filterMap] at h
  obtain ⟨s, hs, hu⟩ := h
  have hsplit := List.takeWhile_append_dropWhile (fun n : Node => !n.isVideo) (Node.preorder doc)
  cases hd : (Node.preorder doc).dropWhile (fun n => !n.isVideo) with
  | nil => rw [hd] at hs; simp at hs
  | cons v tail =>
    have hv := isVideo_of_dropWhile_cons _ v tail hd
    rw [hd] at hs hsplit
    rcases List.mem_cons.1 hs with rfl | hs
    · rw [mp4Source_of_isVideo s hv] at hu
      simp at hu
    · obtain ⟨mid, post, rfl⟩ := List.append_of_mem hs
      exact ⟨_, v, mid, s, post, hsplit.symm, hv, hu⟩

/-- C12, as the claim states it, fails: in a body where a source with the address `x.mp4`
follows a video element that is already closed, no source is nested in a video element,
and yet the function returns `x.mp4`. -/
theorem C12_source_after_closed_video :
    Node.nestedUrls false afterVideoDoc = [] ∧
    getVideoURLFromArticleContent (worldEnv platformAfterVideo).Parse afterVideoBody =
      (true, "x.mp4") := by
  decide

/-- C12, amended. When `getVideoURLFromArticleContent` returns a non-empty URL, the body
parsed to a tree in which, in document order, a video element comes first and, somewhere
after it, a `source` element whose first `src` ending in `.mp4` is that URL.  The source
need not be a descendant of the video element: the flag `hasVideo` stays set once a video
element was met. -/
theorem C12_source_follows_video (parse : String → Option Node) (content : String)
    (hasVideo : Bool) (url : String)
    (h : getVideoURLFromArticleContent parse content = (hasVideo, url)) (hu : url ≠ "") :
    ∃ (doc : Node) (pre : List Node) (v : Node) (mid : List Node) (s : Node) (post : List Node),
      parse content = some doc ∧
      Node.preorder doc = pre ++ v :: (mid ++ s :: post) ∧ v.isVideo = true ∧
        s.mp4Source = some url := by
  unfold getVideoURLFromArticleContent at h
  split at h
  · simp only [Prod.mk.injEq] at h
    exact absurd h.2.symm hu
  · cases hp : parse content with
    | none =>
      rw [hp] at h
      simp only [Prod.mk.injEq] at h
      exact absurd h.2.symm hu
    | some doc =>
      rw [hp] at h
      simp only [] at h
      rw [f_eq_candidates] at h
      simp only [Prod.mk.injEq] at h
      have hmem : url ∈ candidates doc := by
        cases hl : (candidates doc).getLast? with
        | none => rw [hl] at h; exact absurd h.2.symm hu
        | some x =>
          rw [hl] at h
          simp only [Option.getD_some] at h
          rw [← h.2]
          exact List.mem_of_getLast?_eq_some hl
      obtain ⟨pre, v, mid, s, post, h₁, h₂, h₃⟩ := after_video_of_mem_candidates doc url hmem
      exact ⟨doc, pre, v, mid, s, post, rfl, h₁, h₂, h₃⟩

/-- C12, amended, at a concrete input: the returned address `x.mp4` is offered by a source
that comes after a video element in document order. -/
theorem C12_source_follows_video_witness :
    getVideoURLFromArticleContent (worldEnv platformAfterVideo).Parse afterVideoBody =
      (true, "x.mp4") ∧
    ∃ (doc : Node) (pre : List Node) (v : Node) (mid : List Node) (s : Node) (post : List Node),
      (worldEnv platformAfterVideo).Parse afterVideoBody = some doc ∧
      Node.preorder doc = pre ++ v :: (mid ++ s :: post) ∧ v.isVideo = true ∧
        s.mp4Source = some "x.mp4" :=
  ⟨by decide,
    C12_source_follows_video (worldEnv platformAfterVideo).Parse afterVideoBody true "x.mp4"
      (by decide) (by decide)⟩

/-! ### What ends the retry loop -/

section RetryResult

variable {σ : Type} (env : Env σ) (g : Globals) (cookies : List Cookie)
  (article : Article) (pdfDir mdDir : String) (maxRetries : Nat)

theorem retryLoop_result (fuel : Nat) : ∀ (retry : Nat) (s : σ),
    ((retryLoop env g cookies article pdfDir mdDir maxRetries fuel retry false s).1 = true ↔
      ∃ e ∈ (retryLoop env g cookies article pdfDir mdDir maxRetries fuel retry false s).2.2,
        e.isSuccess = true) ∧
    ((retryLoop env g cookies article pdfDir mdDir maxRetries fuel retry false s).1 = false →
      maxRetries - retry ≤ fuel →
      List.countP Event.isDispatch
          (retryLoop env g cookies article pdfDir mdDir maxRetries fuel retry false s).2.2 =
        maxRetries - retry) := by
  induction fuel with
  | zero =>
    intro retry s
    refine ⟨by simp [retryLoop], fun _ h => ?_⟩
    simp only [retryLoop, List.countP_nil]
    omega
  | succ fuel ih =>
    intro retry s
    by_cases h : retry < maxRetries
    · rw [retryLoop_succ env g cookies article pdfDir mdDir maxRetries fuel retry s h]
      split
      · rename_i hs
        refine ⟨⟨fun _ => ⟨_, List.mem_append_right _ (List.mem_singleton_self _), hs⟩,
          fun _ => rfl⟩, fun hf => by simp at hf⟩
      · rename_i hs
        obtain ⟨ih₁, ih₂⟩ := ih (retry + 1)
          (if retry < maxRetries - 1 then
            waitRandomTime env g (downloadTextArticle env g cookies article pdfDir mdDir false s).2.1
          else ((downloadTextArticle env g cookies article pdfDir mdDir false s).2.1, [])).1
        refine ⟨?_, fun hf hfuel => ?_⟩
        · rw [ih₁]
          constructor
          · rintro ⟨e, he, hes⟩
            exact ⟨e, List.mem_append_right _ he, hes⟩
          · rintro ⟨e, he, hes⟩
            simp only [List.append_assoc, List.mem_append, List.mem_cons] at he
            rcases he with he | (rfl | he) | he | he
            · rw [retryNotice_no_success article retry e he] at hes
              exact absurd hes (by decide)
            · exact absurd hes hs
            · rw [attemptLogs_no_success article _ e he] at hes
              exact absurd hes (by decide)
            · rw [waitOrNot_no_success env g _ _ e he] at hes
              exact absurd hes (by decide)
            · exact ⟨e, he, hes⟩
        · simp only [List.countP_append, List.countP_cons, retryNotice_countP_dispatch,
            waitOrNot_countP_dispatch, attemptLogs_countP_dispatch, Event.isDispatch, if_true]
          rw [ih₂ hf (by omega)]
          omega
    · rw [retryLoop_stop env g cookies article pdfDir mdDir maxRetries _ retry false s h]
      refine ⟨by simp, fun _ _ => ?_⟩
      simp only [List.countP_nil]
      omega

theorem retryLoop_no_gaveUp (fuel : Nat) : ∀ (retry : Nat) (s : σ),
    ∀ e ∈ (retryLoop env g cookies article pdfDir mdDir maxRetries fuel retry false s).2.2,
      e.isGaveUp = false := by
  induction fuel with
  | zero => intro retry s e he; simp [retryLoop] at he
  | succ fuel ih =>
    intro retry s e he
    by_cases h : retry < maxRetries
    · rw [retryLoop_succ env g cookies article pdfDir mdDir maxRetries fuel retry s h] at he
      have hn : ∀ x ∈ (if retry > 0 then
          [Event.printf (Msg.retrying (retry + 1) article.Title), Event.sleep (second * 5)]
        else []), x.isGaveUp = false := by
        split <;> simp [Event.isGaveUp]
      have hl : ∀ (out : Outcome), ∀ x ∈ attemptLogs article out, x.isGaveUp = false := by
        intro out
        rcases out with r | ⟨sk, _ | e⟩ <;> simp [attemptLogs, Event.isGaveUp]
      have hw : ∀ (c : Prop) [Decidable c] (s : σ),
          ∀ x ∈ (if c then waitRandomTime env g s else (s, [])).2, x.isGaveUp = false := by
        intro c _ s
        split <;> simp [waitRandomTime, Event.isGaveUp]
      split at he
      · rcases List.mem_append.1 he with he | he
        · exact hn e he
        · rw [List.mem_singleton.1 he]; rfl
      · simp only [List.append_assoc, List.mem_append, List.mem_cons] at he
        rcases he with he | (rfl | he) | he | he
        · exact hn e he
        · rfl
        · exact hl _ e he
        · exact hw _ _ e he
        · exact ih _ _ e he
    · rw [retryLoop_stop env g cookies article pdfDir mdDir maxRetries _ retry false s h] at he
      simp at he

end RetryResult

section GaveUp

variable {σ : Type} (env : Env σ) (g : Globals) (cookies : List Cookie)
  (pdfDir mdDir : String) (total : Nat) (article : Article) (count : Nat) (s : σ)

theorem isDispatch_of_isSuccess (e : Event) (h : e.isSuccess = true) : e.isDispatch = true := by
  cases e <;> simp_all [Event.isSuccess, Event.isDispatch]

theorem downloadArticle_no_success_iff :
    (∀ e ∈ (downloadArticle env g cookies pdfDir mdDir total article count s).2.2,
        e.isSuccess = false) ↔
      (retryLoop env g cookies article pdfDir mdDir 5 5 0 false s).1 = false := by
  rw [downloadArticle_events]
  have hres := (retryLoop_result env g cookies article pdfDir mdDir 5 5 0 s).1
  constructor
  · intro h
    cases hr : (retryLoop env g cookies article pdfDir mdDir 5 5 0 false s).1
    · rfl
    · obtain ⟨e, he, hes⟩ := hres.1 hr
      rw [h e (List.mem_append_left _ he)] at hes
      exact absurd hes (by decide)
  · intro hr e he
    rcases List.mem_append.1 he with he | he
    · cases hes : e.isSuccess
      · rfl
      · have := hres.2 ⟨e, he, hes⟩
        rw [hr] at this
        exact absurd this (by decide)
    · cases hes : e.isSuccess
      · rfl
      · have h₁ := isDispatch_of_isSuccess e hes
        rw [downloadArticle_tail_no_dispatch env g cookies pdfDir mdDir total article count s e he]
          at h₁
        exact absurd h₁ (by decide)

theorem downloadArticle_gaveUp_iff :
    Event.logError (Msg.articleGaveUp article.Title) ∈
        (downloadArticle env g cookies pdfDir mdDir total article count s).2.2 ↔
      (retryLoop env g cookies article pdfDir mdDir 5 5 0 false s).1 = false := by
  rw [downloadArticle_events]
  constructor
  · intro h
    rcases List.mem_append.1 h with h | h
    · have := retryLoop_no_gaveUp env g cookies article pdfDir mdDir 5 5 0 s _ h
      simp [Event.isGaveUp] at this
    · cases hr : (retryLoop env g cookies article pdfDir mdDir 5 5 0 false s).1
      · rfl
      · rw [hr] at h
        simp only [Bool.true_eq_false, if_false, List.nil_append, List.mem_cons] at h
        rcases h with h | h
        · simp at h
        · split at h <;> simp [waitRandomTime] at h
  · intro hr
    rw [hr]
    simp

end GaveUp

theorem downloadArticle_second_dispatch {σ : Type} (env : Env σ) (g : Globals)
    (cookies : List Cookie) (pdfDir mdDir : String) (total : Nat) (article : Article)
    (count : Nat) (s : σ) (o : Outcome)
    (h : ((downloadArticle env g cookies pdfDir mdDir total article count s).2.2.filterMap
      Event.outcome).head? = some o)
    (ho : o.isSkip = false) :
    2 ≤ List.countP Event.isDispatch
      (downloadArticle env g cookies pdfDir mdDir total article count s).2.2 := by
  rw [downloadArticle_countP]
  rw [downloadArticle_events,
    retryLoop_succ env g cookies article pdfDir mdDir 5 4 0 s (by decide)] at h
  rw [retryLoop_succ env g cookies article pdfDir mdDir 5 4 0 s (by decide)]
  by_cases hs : (downloadTextArticle env g cookies article pdfDir mdDir false s).1.isSkip = true
  · rw [if_pos hs] at h
    simp only [gt_iff_lt, Nat.lt_irrefl, if_false, List.nil_append, List.cons_append,
      List.filterMap_cons, Event.outcome, List.head?_cons, Option.some.injEq] at h
    rw [← h, hs] at ho
    exact absurd ho (by decide)
  · rw [if_neg hs]
    have hpos : 1 ≤ List.countP Event.isDispatch
        (retryLoop env g cookies article pdfDir mdDir 5 4 (0 + 1) false
          (if 0 < 5 - 1 then
            waitRandomTime env g (downloadTextArticle env g cookies article pdfDir mdDir false s).2.1
          else ((downloadTextArticle env g cookies article pdfDir mdDir false s).2.1, [])).1).2.2 :=
      retryLoop_countP_pos env g cookies article pdfDir mdDir 5 3 (0 + 1) _ (by decide)
    clear h
    simp only [List.countP_append, List.countP_cons, retryNotice_countP_dispatch,
      waitOrNot_countP_dispatch, attemptLogs_countP_dispatch, Event.isDispatch, if_true]
    omega

/-- C13. In the batch loop, for one article and whatever the collaborators do: the final
failure line is logged exactly when no attempt returned `skipped = true` without error, so
an attempt that returns without error and `skipped = false` does not mark the article as
successful; when the first attempt does not return `skipped = true` (in particular after
a fresh download) the article is dispatched at least twice; and when every attempt returns
`skipped = false` without error there are 5 attempts and the article is logged as
failed. -/
theorem C13_success_only_when_skipped {σ : Type} (env : Env σ) (g : Globals)
    (cookies : List Cookie) (pdfDir mdDir : String) (total : Nat) (article : Article)
    (count : Nat) (s : σ) :
    (Event.logError (Msg.articleGaveUp article.Title) ∈
        (downloadArticle env g cookies pdfDir mdDir total article count s).2.2 ↔
      ∀ e ∈ (downloadArticle env g cookies pdfDir mdDir total article count s).2.2,
        e.isSuccess = false) ∧
    (∀ o, ((downloadArticle env g cookies pdfDir mdDir total article count s).2.2.filterMap
        Event.outcome).head? = some o → o.isSkip = false →
      2 ≤ List.countP Event.isDispatch
        (downloadArticle env g cookies pdfDir mdDir total article count s).2.2) ∧
    ((∀ o ∈ (downloadArticle env g cookies pdfDir mdDir total article count s).2.2.filterMap
        Event.outcome, o = Outcome.returned false none) →
      List.countP Event.isDispatch
          (downloadArticle env g cookies pdfDir mdDir total article count s).2.2 = 5 ∧
        Event.logError (Msg.articleGaveUp article.Title) ∈
          (downloadArticle env g cookies pdfDir mdDir total article count s).2.2) := by
  refine ⟨?_, ?_, ?_⟩
  · rw [downloadArticle_gaveUp_iff, downloadArticle_no_success_iff]
  · exact fun o h ho =>
      downloadArticle_second_dispatch env g cookies pdfDir mdDir total article count s o h ho
  · intro hall
    have hno : ∀ e ∈ (downloadArticle env g cookies pdfDir mdDir total article count s).2.2,
        e.isSuccess = false := by
      intro e he
      cases e with
      | dispatch a calls out =>
        have := hall out (List.mem_filterMap.2 ⟨_, he, rfl⟩)
        rw [this]
        rfl
      | _ => rfl
    have hr := (downloadArticle_no_success_iff env g cookies pdfDir mdDir total article count
      s).1 hno
    refine ⟨?_, (downloadArticle_gaveUp_iff env g cookies pdfDir mdDir total article count s).2 hr⟩
    rw [downloadArticle_countP]
    exact (retryLoop_result env g cookies article pdfDir mdDir 5 5 0 s).2 hr (by decide)

/-- C13, at a concrete input: collaborators that report a fresh write on every call.  All
5 attempts return `skipped = false` without error, and the article is logged as failed. -/
theorem C13_success_only_when_skipped_witness :
    (∀ o ∈ (downloadArticle alwaysFreshEnv initGlobals [] "pdf" "md" 1 article1 0 ()).2.2.filterMap
        Event.outcome, o = Outcome.returned false none) ∧
    List.countP Event.isDispatch
        (downloadArticle alwaysFreshEnv initGlobals [] "pdf" "md" 1 article1 0 ()).2.2 = 5 ∧
    Event.logError (Msg.articleGaveUp article1.Title) ∈
      (downloadArticle alwaysFreshEnv initGlobals [] "pdf" "md" 1 article1 0 ()).2.2 :=
  ⟨by decide,
    (C13_success_only_when_skipped alwaysFreshEnv initGlobals [] "pdf" "md" 1 article1 0 ()).2.2
      (by decide)⟩

end Geektime
